import Mathlib

/-!
# Brave engine: motion-clip processing core (`src/src/Motion.cpp`)

A shallow embedding of `Frame::value`, `Frame::lerpOne`, `Frame::lerpTransition`,
`Motion::create`, `Motion::linkedFrame`, `Motion::clean` and `Motion::mix`, followed by theorems
about them.

Conventions of the embedding:

* C++ `float` is idealised as an exact rational (`ℚ`): no rounding, no NaN, no overflow. The one
  exception is the loop counter `alpha` of `Frame::lerpTransition`, whose rounding decides how
  many frames are produced: it is accumulated in binary32 (`f32`, `binary32`).
  `std::numeric_limits<float>::infinity()` is the top element of `WithTop ℚ`, and
  `std::numeric_limits<float>::max()` is the rational number `fltMax`.
* `std::vector` is a `List`; `v.at(i)` fails with `Fault.outOfRange` (the C++ exception
  `std::out_of_range`) when `i` is not an index, whereas the unchecked `v[i]`, `v.front()`,
  `v.back()`, `v.erase(v.begin())` on a missing element and the read of an uninitialised
  local are `Fault.undefinedBehaviour`.
* `uint` counters and sizes are natural numbers (sequences are assumed shorter than `2^32`).
* Logging and the diagnostic heat-map files written by `mix` are output only and are left out.
* `Math.hpp` and GLM are not among the sources: the trigonometric helpers are fields of `MathEnv`,
  and `glm::distance` is an argument of `Motion.create`.
* The loader `loader::BVH` is not among the sources: `Motion.create` takes the motion it
  returns.
-/

namespace brave

/-! ## Faults and loops -/

/-- The two ways an operation can fail to return normally. -/
inductive Fault where
  | outOfRange
  | undefinedBehaviour
  deriving DecidableEq, Repr

/-- The loop `for (i = i0; i < i0 + count; ++i) s = body(i, s)`, stopping at the first fault. -/
def forLoop {σ : Type} (body : Nat → σ → Except Fault σ) : Nat → Nat → σ → Except Fault σ
  | 0, _, s => .ok s
  | count + 1, i, s =>
    match body i s with
    | .ok s1 => forLoop body count (i + 1) s1
    | .error e => .error e

/-- The loop `for (auto i = lo; i < hi; ++i)` with a loop-invariant bound `hi`. -/
def forRange {σ : Type} (lo hi : Nat) (body : Nat → σ → Except Fault σ) (s : σ) :
    Except Fault σ :=
  forLoop body (hi - lo) lo s

/-! ## Vectors (`glm::vec3`) -/

/-- A `glm::vec3` with exact components. -/
structure Vec3 where
  x : ℚ
  y : ℚ
  z : ℚ
  deriving DecidableEq

namespace Vec3

/-- The constructor `glm::vec3{s}`: all three components equal to `s`. -/
def splat (s : ℚ) : Vec3 := ⟨s, s, s⟩

/-- Component-wise sum, `a + b`. -/
def add (a b : Vec3) : Vec3 := ⟨a.x + b.x, a.y + b.y, a.z + b.z⟩

/-- Component-wise difference, `a - b`. -/
def sub (a b : Vec3) : Vec3 := ⟨a.x - b.x, a.y - b.y, a.z - b.z⟩

/-- Component-wise product, `a * b`. -/
def mul (a b : Vec3) : Vec3 := ⟨a.x * b.x, a.y * b.y, a.z * b.z⟩

/-- Scalar times vector, `s * v`. -/
def smul (s : ℚ) (v : Vec3) : Vec3 := ⟨s * v.x, s * v.y, s * v.z⟩

/-- Vector times scalar, `v * s`. -/
def muls (v : Vec3) (s : ℚ) : Vec3 := ⟨v.x * s, v.y * s, v.z * s⟩

/-- Component-wise absolute value, `glm::abs`. -/
def abs (v : Vec3) : Vec3 := ⟨|v.x|, |v.y|, |v.z|⟩

/-- Sum of the components, `glm::compAdd`. -/
def compAdd (v : Vec3) : ℚ := v.x + v.y + v.z

/-- Linear blend `glm::mix(a, b, alpha) = a * (1 - alpha) + b * alpha`. -/
def mix (a b : Vec3) (alpha : ℚ) : Vec3 := add (muls a (1 - alpha)) (muls b alpha)

end Vec3

/-- Modelled from the spec: `Math::unitVecY` (`Math.hpp` is not among the sources), the unit
vector of the reference up axis. -/
def unitVecY : Vec3 := ⟨0, 1, 0⟩

/-- Modelled from the spec: `Math::unitVecZ` (`Math.hpp` is not among the sources), the unit
vector of the reference forward axis. -/
def unitVecZ : Vec3 := ⟨0, 0, 1⟩

/-- The helpers of `Math.hpp`, GLM and `Transform` that the motion code calls and whose
definitions need trigonometry: they are parameters of the embedding. -/
structure MathEnv where
  /-- The helper `Math::rotToVec`: the forward vector of an Euler rotation. -/
  rotToVec : Vec3 → Vec3
  /-- The function `glm::orientedAngle(a, b, ref)`: the signed angle from `a` to `b` about `ref`. -/
  orientedAngle : Vec3 → Vec3 → Vec3 → ℚ
  /-- The root-rotation rewrite of the last pass of `Motion::clean`: from `rotations.at(0)` to
  `glm::degrees(glm::vec3{-x, y, z})`, the Euler angles of `t2.asMatrix() * t1.asMatrix()`. -/
  lookForward : Vec3 → Vec3

/-! ## Frames -/

/-- One time step of a clip: the root translation and one Euler rotation per joint. -/
structure Frame where
  translation : Vec3
  rotations : List Vec3
  deriving DecidableEq

/-- The signature `Frame::value`:
`translation * (0,2,0) + rotations.at(0) * (2,0,2) + (sum of all rotations - rotations.at(0))`. -/
def Frame.value (self : Frame) : Except Fault Vec3 :=
  let RT := Vec3.mul self.translation ⟨0, 2, 0⟩
  match self.rotations[0]? with
  | none => .error .outOfRange
  | some r0 =>
    let RR := Vec3.mul r0 ⟨2, 0, 2⟩
    let JR := self.rotations.foldl Vec3.add (Vec3.splat 0)
    .ok (Vec3.add (Vec3.add RT RR) (Vec3.sub JR r0))

/-- The body of the loop of `Frame::lerpOne`, run for the joints `i, i+1, ..., i+count-1`:
the rotations pushed so far, and the fault that stopped the loop, if any. Both `rotations[i]`
reads are unchecked. -/
def lerpOneLoop (self f2 : Frame) (alpha rootY : ℚ) : Nat → Nat → List Vec3 →
    List Vec3 × Option Fault
  | 0, _, rots => (rots, none)
  | count + 1, i, rots =>
    match self.rotations[i]?, f2.rotations[i]? with
    | some a, some b =>
      let newRot := Vec3.mix a b alpha
      let newRot := if i = 0 then Vec3.smul rootY unitVecY else newRot
      lerpOneLoop self f2 alpha rootY count (i + 1) (rots ++ [newRot])
    | _, _ => (rots, some .undefinedBehaviour)

/-- What `Frame::lerpOne` hands back: the frame, and whether the `catch` block logged
"F1 and F2 doesn't have the same number of Joints?". -/
structure LerpOut where
  frame : Frame
  reported : Bool
  deriving DecidableEq

/-- The interpolation `Frame::lerpOne`. A `std::exception` thrown inside the `try` block is
caught and reported, and the frame built so far is returned; undefined behaviour is not
catchable. -/
def Frame.lerpOne (env : MathEnv) (self f2 : Frame) (alpha : ℚ) : Except Fault LerpOut :=
  let translation := Vec3.mix self.translation f2.translation alpha
  match self.rotations[0]? with
  | none => .error .undefinedBehaviour
  | some r0 =>
    let rootFront := env.rotToVec r0
    let rootY := env.orientedAngle unitVecZ rootFront unitVecY
    match lerpOneLoop self f2 alpha rootY self.rotations.length 0 [] with
    | (rots, none) => .ok ⟨⟨translation, rots⟩, false⟩
    | (rots, some .outOfRange) => .ok ⟨⟨translation, rots⟩, true⟩
    | (_, some .undefinedBehaviour) => .error .undefinedBehaviour

/-- The function `glm::clamp(x, lo, hi) = min(max(x, lo), hi)`. -/
def clamp (x lo hi : ℚ) : ℚ := min (max x lo) hi

/-! ### The arithmetic of the loop counter of `lerpTransition` -/

/-- The integer nearest to `y`, the even one when `y` is half-way between two integers. -/
def roundEven (y : ℚ) : ℤ :=
  if y - ⌊y⌋ < 1 / 2 then ⌊y⌋
  else if 1 / 2 < y - ⌊y⌋ then ⌊y⌋ + 1
  else if ⌊y⌋ % 2 = 0 then ⌊y⌋ else ⌊y⌋ + 1

/-- The binary32 (`float`) value nearest to `x`, ties to even: 24 significant bits, exponent at
least `-126`; overflow is not modelled. -/
def f32 (x : ℚ) : ℚ :=
  if x = 0 then 0
  else
    (roundEven (x / 2 ^ (max (Int.log 2 |x|) (-126) - 23)) : ℚ) *
      2 ^ (max (Int.log 2 |x|) (-126) - 23)

/-- An arithmetic for the loop counter `alpha` of `Frame::lerpTransition`: the rounding `fl`
applied to the result of every operation, within `2^-24` of the exact result on `[0, 2)`. -/
structure LoopArith where
  fl : ℚ → ℚ
  near : ∀ x : ℚ, 0 ≤ x → x < 2 → |fl x - x| ≤ 1 / 2 ^ 24

/-- The arithmetic of the source: every result is rounded to binary32. -/
def binary32 : LoopArith where
  fl := f32
  near := by
    intro x hx0 hx2
    have hround : ∀ y : ℚ, |(roundEven y : ℚ) - y| ≤ 1 / 2 := by
      intro y
      have h1 := Int.floor_le y
      have h2 := Int.lt_floor_add_one y
      unfold roundEven
      split_ifs with ha hb hc
      · rw [abs_le]; constructor <;> linarith
      · push_cast; rw [abs_le]; constructor <;> linarith
      · rw [abs_le]; constructor <;> linarith
      · push_cast; rw [abs_le]; constructor <;> linarith
    unfold f32
    by_cases hz : x = 0
    · simp [hz]
    · have hpos : 0 < x := lt_of_le_of_ne hx0 (Ne.symm hz)
      have hlog : Int.log 2 |x| < 1 := by
        rw [abs_of_pos hpos]
        exact (Int.lt_zpow_iff_log_lt (by norm_num) hpos).mp (by norm_num; exact hx2)
      have he : max (Int.log 2 |x|) (-126) - 23 ≤ -23 := by
        have : max (Int.log 2 |x|) (-126) ≤ 0 := max_le (by omega) (by norm_num)
        omega
      have hu : (0 : ℚ) < 2 ^ (max (Int.log 2 |x|) (-126) - 23) := by positivity
      have hu2 : (2 : ℚ) ^ (max (Int.log 2 |x|) (-126) - 23) ≤ 2 ^ (-23 : ℤ) :=
        zpow_le_zpow_right₀ (by norm_num) he
      have hr := hround (x / 2 ^ (max (Int.log 2 |x|) (-126) - 23))
      simp only [hz, if_false]
      have hkey : (roundEven (x / 2 ^ (max (Int.log 2 |x|) (-126) - 23)) : ℚ) *
          2 ^ (max (Int.log 2 |x|) (-126) - 23) - x =
          ((roundEven (x / 2 ^ (max (Int.log 2 |x|) (-126) - 23)) : ℚ) -
            x / 2 ^ (max (Int.log 2 |x|) (-126) - 23)) *
            2 ^ (max (Int.log 2 |x|) (-126) - 23) := by
        field_simp
      rw [hkey, abs_mul, abs_of_pos hu]
      calc |(roundEven (x / 2 ^ (max (Int.log 2 |x|) (-126) - 23)) : ℚ) -
              x / 2 ^ (max (Int.log 2 |x|) (-126) - 23)| *
              2 ^ (max (Int.log 2 |x|) (-126) - 23)
          ≤ 1 / 2 * 2 ^ (-23 : ℤ) := mul_le_mul hr hu2 hu.le (by norm_num)
        _ = 1 / 2 ^ 24 := by norm_num

/-- The reference arithmetic of the spec ("alpha computed in exact arithmetic"): no rounding. -/
def exactArith : LoopArith where
  fl := id
  near := by
    intro x _ _
    simp

/-- The loop `for (auto alpha = 0.1f; alpha <= 1.0f; alpha += alphaStep)` of
`Frame::lerpTransition`, entered with the current `alpha` and the frames pushed so far. The
counter is advanced in the arithmetic `ar`; the bounds on `alphaStep` and `alpha` are what makes
the loop terminate. -/
def lerpTransitionLoop (ar : LoopArith) (env : MathEnv) (self f2 : Frame) (alphaStep : ℚ)
    (hstep : 1 / 2 ^ 23 ≤ alphaStep ∧ alphaStep < 1) (alpha : ℚ) (h0 : 0 ≤ alpha)
    (lerpFrames : List Frame) : Except Fault (List Frame) :=
  if h1 : alpha ≤ 1 then
    match self.lerpOne env f2 alpha with
    | .ok out =>
      lerpTransitionLoop ar env self f2 alphaStep hstep (ar.fl (alpha + alphaStep))
        (by
          have hn := abs_le.mp (ar.near (alpha + alphaStep)
            (by linarith [hstep.1, show (0 : ℚ) < 1 / 2 ^ 23 by norm_num])
            (by linarith [hstep.2]))
          have : (1 : ℚ) / 2 ^ 23 = 2 * (1 / 2 ^ 24) := by norm_num
          linarith [hn.1, hstep.1, show (0 : ℚ) < 1 / 2 ^ 24 by norm_num])
        (lerpFrames ++ [out.frame])
    | .error e => .error e
  else .ok lerpFrames
termination_by (⌊(1 - alpha) * 2 ^ 24⌋ + 1).toNat
decreasing_by
  have hn := abs_le.mp (ar.near (alpha + alphaStep)
    (by linarith [hstep.1, show (0 : ℚ) < 1 / 2 ^ 23 by norm_num])
    (by linarith [hstep.2]))
  have h23 : (1 : ℚ) / 2 ^ 23 = 2 * (1 / 2 ^ 24) := by norm_num
  have hge : alpha + 1 / 2 ^ 24 ≤ ar.fl (alpha + alphaStep) := by
    linarith [hn.1, hstep.1, h23]
  have hle : (1 - ar.fl (alpha + alphaStep)) * 2 ^ 24 ≤ (1 - alpha) * 2 ^ 24 - 1 := by
    have : (1 - ar.fl (alpha + alphaStep)) * 2 ^ 24 ≤ (1 - (alpha + 1 / 2 ^ 24)) * 2 ^ 24 :=
      mul_le_mul_of_nonneg_right (by linarith [hge]) (by norm_num)
    calc (1 - ar.fl (alpha + alphaStep)) * 2 ^ 24
        ≤ (1 - (alpha + 1 / 2 ^ 24)) * 2 ^ 24 := this
      _ = (1 - alpha) * 2 ^ 24 - 1 := by ring
  have hfl : ⌊(1 - ar.fl (alpha + alphaStep)) * 2 ^ 24⌋ ≤ ⌊(1 - alpha) * 2 ^ 24⌋ - 1 := by
    rw [← Int.floor_sub_one]
    exact Int.floor_le_floor hle
  have hnn : (0 : ℤ) ≤ ⌊(1 - alpha) * 2 ^ 24⌋ :=
    Int.floor_nonneg.mpr (mul_nonneg (by linarith) (by norm_num))
  omega

/-- The sequence `Frame::lerpTransition(f2, steps)` with the loop counter in the arithmetic
`ar`: `alphaStep = 1.0f / clamp((float)steps, 2.f, 100.f)` and the start `0.1f` are rounded by
`ar`. The conversion `(float)steps` is exact below `2^24` and stays at or above the upper clamp
bound beyond it, so the clamped value is `clamp(steps, 2, 100)`. -/
def Frame.lerpTransitionIn (ar : LoopArith) (env : MathEnv) (self f2 : Frame) (steps : Nat) :
    Except Fault (List Frame) :=
  if steps < 1 then .ok []
  else
    lerpTransitionLoop ar env self f2 (ar.fl (1 / clamp (steps : ℚ) 2 100))
      (by
        have hc2 : (2 : ℚ) ≤ clamp (steps : ℚ) 2 100 :=
          le_min (le_max_right _ _) (by norm_num)
        have hc100 : clamp (steps : ℚ) 2 100 ≤ 100 := min_le_right _ _
        have hcpos : (0 : ℚ) < clamp (steps : ℚ) 2 100 := by linarith
        have h1 : (1 : ℚ) / 100 ≤ 1 / clamp (steps : ℚ) 2 100 :=
          one_div_le_one_div_of_le hcpos hc100
        have h2 : 1 / clamp (steps : ℚ) 2 100 ≤ (1 : ℚ) / 2 :=
          one_div_le_one_div_of_le (by norm_num) hc2
        have hn := abs_le.mp (ar.near (1 / clamp (steps : ℚ) 2 100) (by positivity)
          (by linarith))
        constructor
        · have : (1 : ℚ) / 2 ^ 23 + 1 / 2 ^ 24 ≤ 1 / 100 := by norm_num
          linarith [hn.1]
        · have : (1 : ℚ) / 2 + 1 / 2 ^ 24 < 1 := by norm_num
          linarith [hn.2])
      (ar.fl (1 / 10))
      (by
        have hn := abs_le.mp (ar.near (1 / 10) (by norm_num) (by norm_num))
        have : (1 : ℚ) / 2 ^ 24 ≤ 1 / 10 := by norm_num
        linarith [hn.1])
      []

/-- The sequence `Frame::lerpTransition(f2, steps)`, with the loop counter in binary32 as in
the source. -/
def Frame.lerpTransition (env : MathEnv) (self f2 : Frame) (steps : Nat) :
    Except Fault (List Frame) :=
  Frame.lerpTransitionIn binary32 env self f2 steps

/-- The sequence `Frame::lerpTransition(f2, steps)` with the loop counter computed in exact
arithmetic, the reading that the claims about exact alpha stipulate. -/
def Frame.lerpTransitionExact (env : MathEnv) (self f2 : Frame) (steps : Nat) :
    Except Fault (List Frame) :=
  Frame.lerpTransitionIn exactArith env self f2 steps

/-! ## Motions -/

/-- Modelled from the spec: the enumeration `loopMode` of `Motion.hpp` (not among the sources),
"none | shortLoop | (implicit default path for other modes)"; `loop` stands for the other
modes. -/
inductive loopMode where
  | none
  | shortLoop
  | loop
  deriving DecidableEq, Repr

/-- Modelled from the spec: the class `Motion` of `Motion.hpp` (not among the sources), with the
attributes the spec lists. `joints` holds handles of the shared joint hierarchy, `maxStep` is
the member `m_maxStep`, and `linked` holds the frames of the linked motion when one is set. -/
structure Motion where
  name : String
  frames : List Frame
  joints : List Nat
  timeStep : ℚ
  maxStep : ℚ
  linked : Option (List Frame)

/-- Modelled from the spec: a default-constructed `Motion` (`std::make_shared<Motion>()`; the
constructor is in `Motion.hpp`, not among the sources): no name, no frames, no joints and no
linked motion. -/
def Motion.blank : Motion :=
  { name := "", frames := [], joints := [], timeStep := 0, maxStep := 0, linked := none }

/-- Modelled from the spec: the type `Motion::mixMap` of `Motion.hpp` (not among the sources), a
`std::map` from a source frame index to the pair (target frame index, transition motion), kept
as the list of its entries in ascending key order. -/
abbrev mixMap := List (Nat × (Nat × Motion))

/-- The call `std::map::insert`: the entry is placed in key order, and nothing changes when the
key is already present. -/
def mapInsert {β : Type} (k : Nat) (v : β) : List (Nat × β) → List (Nat × β)
  | [] => [(k, v)]
  | (k1, v1) :: rest =>
    if k < k1 then (k, v) :: (k1, v1) :: rest
    else if k = k1 then (k1, v1) :: rest
    else (k1, v1) :: mapInsert k v rest

/-- Lookup of a key in a `std::map` (`find`). -/
def mapFind {β : Type} (k : Nat) : List (Nat × β) → Option β
  | [] => none
  | (k1, v1) :: rest => if k = k1 then some v1 else mapFind k rest

/-- The lambda `createTransitionMotion` of `Motion::mix`: a motion with the joints of `self`, the
mean time step, and the frames of `f1.lerpTransition(f2, 10u)`. -/
def createTransitionMotion (env : MathEnv) (self m2 : Motion) (idxF1 idxF2 : Nat) :
    Except Fault Motion :=
  match self.frames[idxF1]? with
  | none => .error .outOfRange
  | some f1 =>
    match m2.frames[idxF2]? with
    | none => .error .outOfRange
    | some f2 =>
      match f1.lerpTransition env f2 10 with
      | .error e => .error e
      | .ok fs =>
        .ok { Motion.blank with
              joints := self.joints
              timeStep := (self.timeStep + m2.timeStep) * (1 / 2)
              frames := fs }

/-- The locals `auxDiff` and `auxF2` of `Motion::mix`. -/
structure MixScan where
  auxDiff : WithTop ℚ
  auxF2 : Nat

/-- The body of the inner loop of `Motion::mix` at target index `f2`. -/
def mixInner (f1Value : Vec3) (m2 : Motion) (f2 : Nat) (s : MixScan) : Except Fault MixScan :=
  match m2.frames[f2]? with
  | none => .error .outOfRange
  | some fr2 =>
    match fr2.value with
    | .error e => .error e
    | .ok f2Value =>
      let diff := Vec3.compAdd (Vec3.abs (Vec3.sub f1Value f2Value))
      if (diff : WithTop ℚ) < s.auxDiff then .ok ⟨(diff : WithTop ℚ), f2⟩ else .ok s

/-- The winner search of `Motion::mix` for one source signature: `auxF2 = 0`,
`auxDiff = infinity`, then the scan over all frames of `m2`. -/
def mixSearch (f1Value : Vec3) (m2 : Motion) : Except Fault MixScan :=
  forRange 0 m2.frames.length (mixInner f1Value m2) ⟨⊤, 0⟩

/-- The body of the outer loop of `Motion::mix` at source index `f1`. -/
def mixOuter (env : MathEnv) (self m2 : Motion) (f1 : Nat) (mm : mixMap) : Except Fault mixMap :=
  match self.frames[f1]? with
  | none => .error .outOfRange
  | some fr1 =>
    match fr1.value with
    | .error e => .error e
    | .ok f1Value =>
      match mixSearch f1Value m2 with
      | .error e => .error e
      | .ok s =>
        match createTransitionMotion env self m2 f1 s.auxF2 with
        | .error e => .error e
        | .ok tMo => .ok (mapInsert f1 (s.auxF2, tMo) mm)

/-- The operation `Motion::mix`. -/
def Motion.mix (env : MathEnv) (self m2 : Motion) : Except Fault mixMap :=
  forRange 0 self.frames.length (mixOuter env self m2) []

/-- The constant `std::numeric_limits<float>::max()`, `(2^24 - 1) * 2^104`. -/
def fltMax : ℚ := 340282346638528859811704183484516925440

/-- The locals `auxDiff`, `B` and `E` of `Motion::clean`; `B` and `E` are declared without an
initial value. -/
structure SpliceScan where
  auxDiff : ℚ
  B : Option Nat
  E : Option Nat
  deriving DecidableEq

/-- The body of the inner loop of the splice search at the pair `(f1, f2)`. -/
def spliceInner (frames : List Frame) (f1Val : Vec3) (f1 f2 : Nat) (s : SpliceScan) :
    Except Fault SpliceScan :=
  match frames[f2]? with
  | none => .error .outOfRange
  | some fr2 =>
    match fr2.value with
    | .error e => .error e
    | .ok f2Val =>
      let diff := Vec3.compAdd (Vec3.abs (Vec3.sub f1Val f2Val))
      if diff < s.auxDiff then .ok ⟨diff, some f1, some f2⟩ else .ok s

/-- The body of the outer loop of the splice search at `f1`. -/
def spliceOuter (frames : List Frame) (limitB nFrames f1 : Nat) (s : SpliceScan) :
    Except Fault SpliceScan :=
  match frames[f1]? with
  | none => .error .outOfRange
  | some fr1 =>
    match fr1.value with
    | .error e => .error e
    | .ok f1Val => forRange limitB nFrames (spliceInner frames f1Val f1) s

/-- The bound `limitA = nFrames / 2.f`, converted back to `uint`. -/
def limitA (nFrames : Nat) : Nat := ⌊(nFrames : ℚ) / 2⌋₊

/-- The splice search of `Motion::clean` in `shortLoop` mode. -/
def spliceSearch (frames : List Frame) : Except Fault SpliceScan :=
  let nFrames := frames.length
  let limitB := nFrames - limitA nFrames
  forRange 0 (limitA nFrames) (spliceOuter frames limitB nFrames) ⟨fltMax, none, none⟩

/-- The copy loop `for (f = B; f < E; ++f) auxFrames.push_back(frames.at(f))`. -/
def copyRange (frames : List Frame) (B E : Nat) : Except Fault (List Frame) :=
  forRange B E
    (fun f auxFrames =>
      match frames[f]? with
      | none => .error .outOfRange
      | some fr => .ok (auxFrames ++ [fr]))
    []

/-- The `shortLoop` block of `Motion::clean`: the search, then the copy of `[B, E)`. -/
def spliceTrim (frames : List Frame) : Except Fault (List Frame) :=
  match spliceSearch frames with
  | .error e => .error e
  | .ok s =>
    match s.B, s.E with
    | some B, some E => copyRange frames B E
    | _, _ => .error .undefinedBehaviour

/-- The body of the last loop of `Motion::clean` ("Force look forward") at frame `i`. -/
def lookForwardBody (env : MathEnv) (i : Nat) (frames : List Frame) : Except Fault (List Frame) :=
  match frames[i]? with
  | none => .error .outOfRange
  | some fr =>
    match fr.rotations[0]? with
    | none => .error .outOfRange
    | some r =>
      .ok (frames.set i { fr with rotations := fr.rotations.set 0 (env.lookForward r) })

/-- The part of `Motion::clean` after the `shortLoop` block: the transition from the last frame
back to the first is appended, then every root rotation is rewritten. -/
def closeLoop (env : MathEnv) (frames : List Frame) (steps : Nat) : Except Fault (List Frame) :=
  match frames.head?, frames.getLast? with
  | some first, some last =>
    match last.lerpTransition env first steps with
    | .error e => .error e
    | .ok lerped =>
      let frames1 := frames ++ lerped
      forRange 0 frames1.length (lookForwardBody env) frames1
  | _, _ => .error .undefinedBehaviour

/-- The operation `Motion::clean`. -/
def Motion.clean (env : MathEnv) (self : Motion) (lm : loopMode) (steps : Nat) :
    Except Fault Motion :=
  match self.frames with
  | [] => .error .undefinedBehaviour
  | _ :: frames0 =>
    if lm = loopMode.none then .ok { self with frames := frames0 }
    else
      match (if lm = loopMode.shortLoop then spliceTrim frames0 else .ok frames0) with
      | .error e => .error e
      | .ok frames1 =>
        match closeLoop env frames1 steps with
        | .error e => .error e
        | .ok frames2 => .ok { self with frames := frames2 }

/-! ## Construction and linked frames -/

/-- The running values of the first loop of `Motion::create`: the member `m_maxStep` and the
locals `minTX`, `minTY`, `minTZ`. -/
structure CreateScan where
  maxStep : ℚ
  minTX : ℚ
  minTY : ℚ
  minTZ : ℚ

/-- The body of the first loop of `Motion::create` ("Iter 1") at frame `i`; `distance` stands for
`glm::distance`. The bound `frames.size() - 2u` is only evaluated inside the loop, where
`frames.size() >= 2`, so the unsigned subtraction does not wrap. The address
`&frames.at(i).rotations.at(0)` is taken (and not used), which needs a root joint. -/
def createIter1 (distance : Vec3 → Vec3 → ℚ) (frames : List Frame) (i : Nat) (s : CreateScan) :
    Except Fault CreateScan :=
  match frames[i]? with
  | none => .error .outOfRange
  | some fi =>
    let ft := fi.translation
    match fi.rotations[0]? with
    | none => .error .outOfRange
    | some _ =>
      let stepped : Except Fault ℚ :=
        if i < frames.length - 2 then
          match frames[i + 1]? with
          | none => .error .outOfRange
          | some fn =>
            let step := distance fn.translation ft
            if step > s.maxStep then .ok step else .ok s.maxStep
        else .ok s.maxStep
      match stepped with
      | .error e => .error e
      | .ok maxStep =>
        .ok ⟨maxStep,
          if ft.x < s.minTX then ft.x else s.minTX,
          if ft.y < s.minTY then ft.y else s.minTY,
          if ft.z < s.minTZ then ft.z else s.minTZ⟩

/-- The body of the second loop of `Motion::create` ("Iter 2") at frame `i`: the three minima are
subtracted from the translation. -/
def createIter2 (minTX minTY minTZ : ℚ) (i : Nat) (frames : List Frame) :
    Except Fault (List Frame) :=
  match frames[i]? with
  | none => .error .outOfRange
  | some fi =>
    .ok (frames.set i { fi with
      translation := ⟨fi.translation.x - minTX, fi.translation.y - minTY,
        fi.translation.z - minTZ⟩ })

/-- The factory `Motion::create`, entered with the motion `loaded` that `loader::BVH(filepath)`
returned: the name is set, `m_maxStep` starts at 0 and the minima at `FLT_MAX`, then the two
loops over the frames `1 .. size - 1` run, then `clean(lm, steps)`. -/
def Motion.create (env : MathEnv) (distance : Vec3 → Vec3 → ℚ) (loaded : Motion) (name : String)
    (lm : loopMode) (steps : Nat) : Except Fault Motion :=
  let m : Motion := { loaded with name := name, maxStep := 0 }
  match forRange 1 m.frames.length (createIter1 distance m.frames)
      ⟨m.maxStep, fltMax, fltMax, fltMax⟩ with
  | .error e => .error e
  | .ok s =>
    match forRange 1 m.frames.length (createIter2 s.minTX s.minTY s.minTZ) m.frames with
    | .error e => .error e
    | .ok frames1 => Motion.clean env { m with maxStep := s.maxStep, frames := frames1 } lm steps

/-- The accessor `Motion::maxStep`. -/
def Motion.getMaxStep (self : Motion) : ℚ := self.maxStep

/-- The query `Motion::linkedFrame`: without a linked motion the default frame (zero
translation, no rotations, as the spec has it) is returned; otherwise
`cf = floorf(frameIdx * factor)` with `factor = linked->frames.size() / frames.size()`, and
`frames.at(cf).lerpOne(linked->frames.at(cf), alpha)`. -/
def Motion.linkedFrame (env : MathEnv) (self : Motion) (frameIdx : Nat) (alpha : ℚ) :
    Except Fault LerpOut :=
  match self.linked with
  | none => .ok ⟨⟨Vec3.splat 0, []⟩, false⟩
  | some linkedFrames =>
    let factor := (linkedFrames.length : ℚ) / (self.frames.length : ℚ)
    let cf := ⌊(frameIdx : ℚ) * factor⌋₊
    match self.frames[cf]? with
    | none => .error .outOfRange
    | some fa =>
      match linkedFrames[cf]? with
      | none => .error .outOfRange
      | some fb => fa.lerpOne env fb alpha

/-! ## Reference definitions, following the wording of the specification -/

/-- The heading of a root rotation: the oriented angle about the up axis from the reference
forward axis to the forward vector of the rotation. -/
def heading (env : MathEnv) (r0 : Vec3) : ℚ :=
  env.orientedAngle unitVecZ (env.rotToVec r0) unitVecY

/-- The linear interpolation `(1 - alpha) * a + alpha * b` of two vectors. -/
def blend (alpha : ℚ) (a b : Vec3) : Vec3 :=
  Vec3.add (Vec3.smul (1 - alpha) a) (Vec3.smul alpha b)

/-- The reference frame of the spec for `A.lerpOne(B, alpha)`: the blended translation, the
heading `(0, h, 0)` of the root rotation of `A` as rotation 0, and the blended rotation for every
other joint. -/
def lerpOneRef (env : MathEnv) (A B : Frame) (alpha : ℚ) : Frame :=
  { translation := blend alpha A.translation B.translation
    rotations := ⟨0, heading env (A.rotations.headD (Vec3.splat 0)), 0⟩ ::
      List.zipWith (blend alpha) A.rotations.tail B.rotations.tail }

/-- The signature distance `d(a, b)` of the spec: the sum over the three components of
`|a.value() - b.value()|`. -/
def signatureDistance (a b : Frame) : Except Fault ℚ :=
  match a.value, b.value with
  | .ok va, .ok vb => .ok (Vec3.compAdd (Vec3.abs (Vec3.sub va vb)))
  | .error e, _ => .error e
  | _, .error e => .error e

/-- The distance `sum of the components of |a - b|` between two signatures. -/
def vecDist (a b : Vec3) : ℚ := Vec3.compAdd (Vec3.abs (Vec3.sub a b))

/-- The signature of a frame as a total function: `value()` when the frame has a root joint,
zero otherwise. -/
def Frame.valueD (f : Frame) : Vec3 :=
  match f.value with
  | .ok v => v
  | .error _ => Vec3.splat 0

/-- The signature of frame `j` of a sequence (zero when `j` is not an index). -/
def sigAt (frames : List Frame) (j : Nat) : Vec3 :=
  match frames[j]? with
  | some f => f.valueD
  | none => Vec3.splat 0

/-- The invariant of the data model on a frame sequence: every frame has the same number
`n` of joint rotations. -/
def JointCount (n : Nat) (frames : List Frame) : Prop :=
  ∀ f ∈ frames, f.rotations.length = n

/-- The invariant of the splice search of `clean` over the candidate pairs `vis` visited so far:
`auxDiff` is at most the distance of every visited pair, and either nothing has been selected
and `auxDiff` is still `fltMax`, or `(B, E)` is a visited pair at distance `auxDiff`, below
`fltMax`. -/
def SpliceInv (frames : List Frame) (vis : Nat → Nat → Prop) (s : SpliceScan) : Prop :=
  (∀ a b, vis a b → s.auxDiff ≤ vecDist (sigAt frames a) (sigAt frames b)) ∧
  ((s.B = none ∧ s.E = none ∧ s.auxDiff = fltMax) ∨
    (∃ b e, s.B = some b ∧ s.E = some e ∧ vis b e ∧
      s.auxDiff = vecDist (sigAt frames b) (sigAt frames e) ∧ s.auxDiff < fltMax))

instance (n : Nat) (frames : List Frame) : Decidable (JointCount n frames) :=
  List.decidableBAll _ frames

/-- The value of the loop counter of `lerpTransition` after `k` increments from `a`, in the
arithmetic `ar`. -/
def alphaSeq (ar : LoopArith) (alphaStep : ℚ) : ℚ → Nat → ℚ
  | a, 0 => a
  | a, k + 1 => alphaSeq ar alphaStep (ar.fl (a + alphaStep)) k

/-- The number of values `1/10 + k/c`, `k = 0, 1, 2, ...`, that are at most `1`, where
`c = clamp(steps, 2, 100)`. -/
def transitionCount (steps : Nat) : Nat :=
  (⌊(1 - 1 / 10) / (1 / clamp (steps : ℚ) 2 100)⌋ + 1).toNat

/-- The translation delta between the loaded frames `i` and `i + 1`,
`distance(frames[i+1].translation, frames[i].translation)` (zero when `i + 1` is not an index). -/
def stepAt (distance : Vec3 → Vec3 → ℚ) (frames : List Frame) (i : Nat) : ℚ :=
  match frames[i + 1]?, frames[i]? with
  | some fn, some fi => distance fn.translation fi.translation
  | _, _ => 0

/-- The frame `f` with the vector `mn` subtracted from its translation. -/
def rebase (mn : Vec3) (f : Frame) : Frame :=
  { f with translation := Vec3.sub f.translation mn }

/-- The invariant of a running minimum of `Motion::create` after the frames `1 .. k - 1`: the
value `v` is at most the component `proj` of every visited translation and at most `fltMax`, and
it is `fltMax` itself or the component of a visited frame. -/
def MinInv (proj : Vec3 → ℚ) (frames : List Frame) (k : Nat) (v : ℚ) : Prop :=
  (∀ i f, 1 ≤ i → i < k → frames[i]? = some f → v ≤ proj f.translation) ∧ v ≤ fltMax ∧
  (v = fltMax ∨ ∃ i f, 1 ≤ i ∧ i < k ∧ frames[i]? = some f ∧ v = proj f.translation)

/-- The invariant of the running `m_maxStep` of `Motion::create` after the frames `1 .. k - 1`:
it bounds the delta of every visited index below `size - 2`, and it is the delta of one of them,
or `0` when there is none. -/
def MaxInv (distance : Vec3 → Vec3 → ℚ) (frames : List Frame) (k : Nat) (ms : ℚ) : Prop :=
  (∀ i, 1 ≤ i → i < k → i < frames.length - 2 → stepAt distance frames i ≤ ms) ∧
  ((∃ i, 1 ≤ i ∧ i < k ∧ i < frames.length - 2 ∧ ms = stepAt distance frames i) ∨
    ((∀ i, 1 ≤ i → i < k → ¬ i < frames.length - 2) ∧ ms = 0))

/-- The binary32 values of the loop counter of `lerpTransition` for `steps = 10` that are at most
`1`, in the order the loop takes them. -/
def alphas10 : List ℚ :=
  [13421773 / 134217728, 13421773 / 67108864, 5033165 / 16777216, 13421773 / 33554432, 1 / 2,
    5033165 / 8388608, 2936013 / 4194304, 6710887 / 8388608, 1887437 / 2097152]

/-- The binary32 values of the loop counter of `lerpTransition` for `steps = 100` that are at most
`1`, in the order the loop takes them. -/
def alphas100 : List ℚ :=
  [13421773 / 134217728, 7381975 / 67108864, 16106127 / 134217728, 1090519 / 8388608,
    9395241 / 67108864, 5033165 / 33554432, 10737419 / 67108864, 2852127 / 16777216,
    12079597 / 67108864, 6375343 / 33554432, 13421775 / 67108864, 220201 / 1048576,
    14763953 / 67108864, 7717521 / 33554432, 16106131 / 67108864, 4194305 / 16777216,
    4362077 / 16777216, 4529849 / 16777216, 4697621 / 16777216, 4865393 / 16777216,
    5033165 / 16777216, 5200937 / 16777216, 5368709 / 16777216, 5536481 / 16777216,
    5704253 / 16777216, 5872025 / 16777216, 6039797 / 16777216, 6207569 / 16777216,
    6375341 / 16777216, 6543113 / 16777216, 6710885 / 16777216, 6878657 / 16777216,
    7046429 / 16777216, 7214201 / 16777216, 7381973 / 16777216, 7549745 / 16777216,
    7717517 / 16777216, 7885289 / 16777216, 8053061 / 16777216, 8220833 / 16777216,
    8388605 / 16777216, 8556377 / 16777216, 8724149 / 16777216, 8891921 / 16777216,
    9059693 / 16777216, 9227465 / 16777216, 9395237 / 16777216, 9563009 / 16777216,
    9730781 / 16777216, 9898553 / 16777216, 10066325 / 16777216, 10234097 / 16777216,
    10401869 / 16777216, 10569641 / 16777216, 10737413 / 16777216, 10905185 / 16777216,
    11072957 / 16777216, 11240729 / 16777216, 11408501 / 16777216, 11576273 / 16777216,
    11744045 / 16777216, 11911817 / 16777216, 12079589 / 16777216, 12247361 / 16777216,
    12415133 / 16777216, 12582905 / 16777216, 12750677 / 16777216, 12918449 / 16777216,
    13086221 / 16777216, 13253993 / 16777216, 13421765 / 16777216, 13589537 / 16777216,
    13757309 / 16777216, 13925081 / 16777216, 14092853 / 16777216, 14260625 / 16777216,
    14428397 / 16777216, 14596169 / 16777216, 14763941 / 16777216, 14931713 / 16777216,
    15099485 / 16777216, 15267257 / 16777216, 15435029 / 16777216, 15602801 / 16777216,
    15770573 / 16777216, 15938345 / 16777216, 16106117 / 16777216, 16273889 / 16777216,
    16441661 / 16777216, 16609433 / 16777216, 16777205 / 16777216]

/-! ## Sample data -/

/-- A sample instance of the helpers, with rational values: the forward vector of a rotation is
the rotation itself, the oriented angle is the `x` component of its second argument, and the
look-forward rewrite is the identity. -/
def sampleEnv : MathEnv := ⟨id, fun _ b _ => b.x, id⟩

/-- Frame A of the scenario of the spec. -/
def scenarioA : Frame := ⟨⟨0, 0, 0⟩, [⟨0, 0, 0⟩, ⟨10, 0, 0⟩]⟩

/-- Frame B of the scenario of the spec. -/
def scenarioB : Frame := ⟨⟨10, 0, 0⟩, [⟨0, 0, 0⟩, ⟨20, 0, 0⟩]⟩

/-- A frame with a single joint. -/
def oneJoint : Frame := ⟨⟨0, 0, 0⟩, [⟨1, 2, 3⟩]⟩

/-- A second frame with a single joint and another signature. -/
def otherJoint : Frame := ⟨⟨0, 1, 0⟩, [⟨4, 5, 6⟩]⟩

/-- A one-joint frame whose signature is at distance `2 * fltMax` from that of `oneJoint`. -/
def farJoint : Frame := ⟨⟨0, 340282346638528859811704183484516925440, 0⟩, [⟨1, 2, 3⟩]⟩

/-- A sample distance with rational values: the sum of the absolute differences of the
components. -/
def sampleDistance (a b : Vec3) : ℚ := Vec3.compAdd (Vec3.abs (Vec3.sub a b))

/-- A motion with the given frames and no other data. -/
def clipOf (frames : List Frame) : Motion := { Motion.blank with frames := frames }

/-- A one-joint frame at height `y` with a zero root rotation; its signature is `(0, 2 y, 0)`. -/
def stride (y : ℚ) : Frame := ⟨⟨0, y, 0⟩, [⟨0, 0, 0⟩]⟩

/-- A T-pose followed by four frames, at heights 0, 5, 9 and 6. The candidate pairs of the
splice search are `(0, 2)`, `(0, 3)`, `(1, 2)` and `(1, 3)`, at signature distances 18, 12, 8
and 2. -/
def strideClip : Motion := clipOf [stride 0, stride 0, stride 5, stride 9, stride 6]

/-! ## Frame interpolation -/

theorem mix_eq_blend (a b : Vec3) (alpha : ℚ) : Vec3.mix a b alpha = blend alpha a b := by
  simp only [Vec3.mix, blend, Vec3.add, Vec3.muls, Vec3.smul, Vec3.mk.injEq]
  refine ⟨?_, ?_, ?_⟩ <;> ring

theorem blend_zero (a b : Vec3) : blend 0 a b = a := by
  simp [blend, Vec3.add, Vec3.smul]

theorem blend_one (a b : Vec3) : blend 1 a b = b := by
  simp [blend, Vec3.add, Vec3.smul]

/-- The loop of `lerpOne` over joints that both frames have pushes one rotation per joint and
stops without a fault. -/
theorem lerpOneLoop_eq (self f2 : Frame) (alpha rootY : ℚ) (count : Nat) :
    ∀ (i : Nat) (rots : List Vec3), i + count ≤ self.rotations.length →
      i + count ≤ f2.rotations.length →
      lerpOneLoop self f2 alpha rootY count i rots =
        (rots ++ (List.range' i count).map (fun j =>
          if j = 0 then Vec3.smul rootY unitVecY
          else Vec3.mix (self.rotations.getD j (Vec3.splat 0))
            (f2.rotations.getD j (Vec3.splat 0)) alpha),
          none) := by
  induction count with
  | zero => intro i rots _ _; simp [lerpOneLoop]
  | succ n ih =>
    intro i rots h1 h2
    have hi1 : i < self.rotations.length := by omega
    have hi2 : i < f2.rotations.length := by omega
    rw [lerpOneLoop]
    simp only [List.getElem?_eq_getElem hi1, List.getElem?_eq_getElem hi2]
    rw [ih (i + 1) _ (by omega) (by omega)]
    simp [List.range'_succ, List.getElem?_eq_getElem hi1, List.getElem?_eq_getElem hi2]

/-- On frames with the same non-zero joint count `lerpOne` returns the reference frame and
reports nothing. -/
theorem lerpOne_eq_ref (env : MathEnv) (A B : Frame) (alpha : ℚ)
    (hlen : A.rotations.length = B.rotations.length) (hpos : 1 ≤ A.rotations.length) :
    A.lerpOne env B alpha = .ok ⟨lerpOneRef env A B alpha, false⟩ := by
  obtain ⟨tA, rA⟩ := A
  obtain ⟨tB, rB⟩ := B
  cases rA with
  | nil => simp at hpos
  | cons a as =>
    cases rB with
    | nil => simp at hlen
    | cons b bs =>
      simp only [List.length_cons, add_left_inj] at hlen
      have hloop := lerpOneLoop_eq ⟨tA, a :: as⟩ ⟨tB, b :: bs⟩ alpha
        (env.orientedAngle unitVecZ (env.rotToVec a) unitVecY) (as.length + 1) 0 []
        (by simp) (by simp [hlen])
      simp only [Frame.lerpOne, List.getElem?_cons_zero, List.length_cons, hloop]
      simp only [lerpOneRef, heading, mix_eq_blend, List.nil_append, List.range'_succ,
        List.map_cons, if_true, List.headD_cons, List.tail_cons]
      congr 3
      simp only [Vec3.smul, unitVecY, mul_zero, mul_one, List.cons.injEq, true_and]
      apply List.ext_getElem
      · simp [hlen]
      · intro k h1 h2
        simp at h1 h2
        have e1 : (a :: as)[1 + k]? = some as[k] := by
          rw [Nat.add_comm, List.getElem?_cons_succ, List.getElem?_eq_getElem h1]
        have e2 : (b :: bs)[1 + k]? = some bs[k] := by
          rw [Nat.add_comm, List.getElem?_cons_succ, List.getElem?_eq_getElem h2.2]
        simp [List.getElem_range', e1, e2]

theorem zipWith_blend_zero : ∀ (as bs : List Vec3), as.length = bs.length →
    List.zipWith (blend 0) as bs = as
  | [], [], _ => rfl
  | [], _ :: _, h => by simp at h
  | _ :: _, [], h => by simp at h
  | a :: as, b :: bs, h => by
    simp only [List.length_cons, add_left_inj] at h
    simp [blend_zero, zipWith_blend_zero as bs h]

theorem zipWith_blend_one : ∀ (as bs : List Vec3), as.length = bs.length →
    List.zipWith (blend 1) as bs = bs
  | [], [], _ => rfl
  | [], _ :: _, h => by simp at h
  | _ :: _, [], h => by simp at h
  | a :: as, b :: bs, h => by
    simp only [List.length_cons, add_left_inj] at h
    simp [blend_one, zipWith_blend_one as bs h]

theorem lerpOneRef_length (env : MathEnv) (A B : Frame) (alpha : ℚ)
    (hlen : A.rotations.length = B.rotations.length) (hpos : 1 ≤ A.rotations.length) :
    (lerpOneRef env A B alpha).rotations.length = A.rotations.length := by
  simp only [lerpOneRef, List.length_cons, List.length_zipWith, List.length_tail, ← hlen,
    min_self]
  omega

theorem clamp_pos (x : ℚ) : 0 < clamp x 2 100 :=
  lt_min (lt_of_lt_of_le (by norm_num) (le_max_right _ _)) (by norm_num)

/-- On frames of which the first has a root joint and no more joints than the second, `lerpOne`
returns the reference frame and reports nothing. -/
theorem lerpOne_eq_ref_of_le (env : MathEnv) (A B : Frame) (alpha : ℚ)
    (hle : A.rotations.length ≤ B.rotations.length) (hpos : 1 ≤ A.rotations.length) :
    A.lerpOne env B alpha = .ok ⟨lerpOneRef env A B alpha, false⟩ := by
  obtain ⟨tA, rA⟩ := A
  obtain ⟨tB, rB⟩ := B
  cases rA with
  | nil => simp at hpos
  | cons a as =>
    cases rB with
    | nil => simp at hle
    | cons b bs =>
      simp only [List.length_cons, add_le_add_iff_right] at hle
      have hloop := lerpOneLoop_eq ⟨tA, a :: as⟩ ⟨tB, b :: bs⟩ alpha
        (env.orientedAngle unitVecZ (env.rotToVec a) unitVecY) (as.length + 1) 0 []
        (by simp) (by simp; omega)
      simp only [Frame.lerpOne, List.getElem?_cons_zero, List.length_cons, hloop]
      simp only [lerpOneRef, heading, mix_eq_blend, List.nil_append, List.range'_succ,
        List.map_cons, if_true, List.headD_cons, List.tail_cons]
      congr 3
      simp only [Vec3.smul, unitVecY, mul_zero, mul_one, List.cons.injEq, true_and]
      apply List.ext_getElem
      · simp [hle]
      · intro k h1 h2
        simp at h1 h2
        have e1 : (a :: as)[1 + k]? = some as[k] := by
          rw [Nat.add_comm, List.getElem?_cons_succ, List.getElem?_eq_getElem h1]
        have e2 : (b :: bs)[1 + k]? = some bs[k] := by
          rw [Nat.add_comm, List.getElem?_cons_succ, List.getElem?_eq_getElem h2.2]
        simp [List.getElem_range', e1, e2]

theorem lerpOneRef_length_of_le (env : MathEnv) (A B : Frame) (alpha : ℚ)
    (hle : A.rotations.length ≤ B.rotations.length) (hpos : 1 ≤ A.rotations.length) :
    (lerpOneRef env A B alpha).rotations.length = A.rotations.length := by
  simp only [lerpOneRef, List.length_cons, List.length_zipWith, List.length_tail]
  omega

/-- One increment of the loop counter moves it up by at least `2^-24`. -/
theorem loopArith_progress (ar : LoopArith) (alphaStep : ℚ)
    (hstep : 1 / 2 ^ 23 ≤ alphaStep ∧ alphaStep < 1) (alpha : ℚ) (h0 : 0 ≤ alpha)
    (h1 : alpha ≤ 1) : alpha + 1 / 2 ^ 24 ≤ ar.fl (alpha + alphaStep) := by
  have hn := abs_le.mp (ar.near (alpha + alphaStep)
    (by linarith [hstep.1, show (0 : ℚ) < 1 / 2 ^ 23 by norm_num])
    (by linarith [hstep.2]))
  have h23 : (1 : ℚ) / 2 ^ 23 = 2 * (1 / 2 ^ 24) := by norm_num
  linarith [hn.1, hstep.1, h23]

theorem loop_measure_decrease (alpha next : ℚ) (h1 : alpha ≤ 1)
    (hge : alpha + 1 / 2 ^ 24 ≤ next) :
    (⌊(1 - next) * 2 ^ 24⌋ + 1).toNat < (⌊(1 - alpha) * 2 ^ 24⌋ + 1).toNat := by
  have hle : (1 - next) * 2 ^ 24 ≤ (1 - alpha) * 2 ^ 24 - 1 := by
    have : (1 - next) * 2 ^ 24 ≤ (1 - (alpha + 1 / 2 ^ 24)) * 2 ^ 24 :=
      mul_le_mul_of_nonneg_right (by linarith [hge]) (by norm_num)
    calc (1 - next) * 2 ^ 24 ≤ (1 - (alpha + 1 / 2 ^ 24)) * 2 ^ 24 := this
      _ = (1 - alpha) * 2 ^ 24 - 1 := by ring
  have hfl : ⌊(1 - next) * 2 ^ 24⌋ ≤ ⌊(1 - alpha) * 2 ^ 24⌋ - 1 := by
    rw [← Int.floor_sub_one]
    exact Int.floor_le_floor hle
  have hnn : (0 : ℤ) ≤ ⌊(1 - alpha) * 2 ^ 24⌋ :=
    Int.floor_nonneg.mpr (mul_nonneg (by linarith) (by norm_num))
  omega

/-- The loop of `lerpTransition` on frames that `lerpOne` accepts, when the counter is at most
`1` for its first `K` values and above `1` for the next: the interpolations at those `K` values
are pushed, in that order. -/
theorem lerpTransitionLoop_eq_seq (ar : LoopArith) (env : MathEnv) (A B : Frame)
    (alphaStep : ℚ) (hstep : 1 / 2 ^ 23 ≤ alphaStep ∧ alphaStep < 1)
    (hgood : ∀ alpha, A.lerpOne env B alpha = .ok ⟨lerpOneRef env A B alpha, false⟩) :
    ∀ (K : Nat) (alpha : ℚ) (h0 : 0 ≤ alpha) (acc : List Frame),
      (∀ k, k < K → alphaSeq ar alphaStep alpha k ≤ 1) →
      ¬ alphaSeq ar alphaStep alpha K ≤ 1 →
      lerpTransitionLoop ar env A B alphaStep hstep alpha h0 acc =
        .ok (acc ++ (List.range K).map
          (fun (k : Nat) => lerpOneRef env A B (alphaSeq ar alphaStep alpha k))) := by
  intro K
  induction K with
  | zero =>
    intro alpha h0 acc _ hK
    have h2 : ¬ alpha ≤ 1 := hK
    rw [lerpTransitionLoop]
    simp [h2]
  | succ K ih =>
    intro alpha h0 acc hle hK
    have h2 : alpha ≤ 1 := hle 0 (Nat.succ_pos K)
    rw [lerpTransitionLoop]
    simp only [h2, dite_true, hgood]
    rw [ih (ar.fl (alpha + alphaStep)) _ _ (fun k hk => hle (k + 1) (by omega)) hK]
    simp only [List.range_succ_eq_map, List.map_cons, List.map_map, List.append_assoc,
      List.singleton_append]
    rfl

/-- The loop of `lerpTransition` on frames that `lerpOne` accepts always ends, and it only
pushes interpolations of the two frames. -/
theorem lerpTransitionLoop_ok (ar : LoopArith) (env : MathEnv) (A B : Frame)
    (alphaStep : ℚ) (hstep : 1 / 2 ^ 23 ≤ alphaStep ∧ alphaStep < 1)
    (hgood : ∀ alpha, A.lerpOne env B alpha = .ok ⟨lerpOneRef env A B alpha, false⟩) :
    ∀ (n : Nat) (alpha : ℚ) (h0 : 0 ≤ alpha) (acc : List Frame),
      (⌊(1 - alpha) * 2 ^ 24⌋ + 1).toNat ≤ n →
      ∃ fs, lerpTransitionLoop ar env A B alphaStep hstep alpha h0 acc = .ok (acc ++ fs) ∧
        ∀ f ∈ fs, ∃ a, f = lerpOneRef env A B a := by
  intro n
  induction n with
  | zero =>
    intro alpha h0 acc hn
    have h2 : ¬ alpha ≤ 1 := by
      intro hle
      have : (0 : ℤ) ≤ ⌊(1 - alpha) * 2 ^ 24⌋ :=
        Int.floor_nonneg.mpr (mul_nonneg (by linarith) (by norm_num))
      omega
    refine ⟨[], ?_, by simp⟩
    rw [lerpTransitionLoop]
    simp [h2]
  | succ n ih =>
    intro alpha h0 acc hn
    by_cases h2 : alpha ≤ 1
    · have hprog := loopArith_progress ar alphaStep hstep alpha h0 h2
      have hdec := loop_measure_decrease alpha (ar.fl (alpha + alphaStep)) h2 hprog
      obtain ⟨fs, hfs, hmem⟩ := ih (ar.fl (alpha + alphaStep))
        (le_trans (by linarith [show (0 : ℚ) < 1 / 2 ^ 24 by norm_num]) hprog)
        (acc ++ [lerpOneRef env A B alpha]) (by omega)
      refine ⟨lerpOneRef env A B alpha :: fs, ?_, ?_⟩
      · rw [lerpTransitionLoop]
        simp only [h2, dite_true, hgood]
        rw [hfs]
        simp
      · intro f hf
        rcases List.mem_cons.mp hf with rfl | h
        · exact ⟨alpha, rfl⟩
        · exact hmem f h
    · refine ⟨[], ?_, by simp⟩
      rw [lerpTransitionLoop]
      simp [h2]

theorem alphaStep_bounds (ar : LoopArith) (steps : Nat) :
    1 / 2 ^ 23 ≤ ar.fl (1 / clamp (steps : ℚ) 2 100) ∧
      ar.fl (1 / clamp (steps : ℚ) 2 100) < 1 := by
  have hc2 : (2 : ℚ) ≤ clamp (steps : ℚ) 2 100 := le_min (le_max_right _ _) (by norm_num)
  have hc100 : clamp (steps : ℚ) 2 100 ≤ 100 := min_le_right _ _
  have hcpos : (0 : ℚ) < clamp (steps : ℚ) 2 100 := by linarith
  have h1 : (1 : ℚ) / 100 ≤ 1 / clamp (steps : ℚ) 2 100 :=
    one_div_le_one_div_of_le hcpos hc100
  have h2 : 1 / clamp (steps : ℚ) 2 100 ≤ (1 : ℚ) / 2 :=
    one_div_le_one_div_of_le (by norm_num) hc2
  have hn := abs_le.mp (ar.near (1 / clamp (steps : ℚ) 2 100) (by positivity) (by linarith))
  constructor
  · have : (1 : ℚ) / 2 ^ 23 + 1 / 2 ^ 24 ≤ 1 / 100 := by norm_num
    linarith [hn.1]
  · have : (1 : ℚ) / 2 + 1 / 2 ^ 24 < 1 := by norm_num
    linarith [hn.2]

theorem alphaStart_nonneg (ar : LoopArith) : 0 ≤ ar.fl (1 / 10) := by
  have hn := abs_le.mp (ar.near (1 / 10) (by norm_num) (by norm_num))
  have : (1 : ℚ) / 2 ^ 24 ≤ 1 / 10 := by norm_num
  linarith [hn.1]

/-- For `steps >= 1`, `lerpTransition` is its loop entered at `fl(1/10)` with the increment
`fl(1 / clamp(steps, 2, 100))` and no frame. -/
theorem lerpTransitionIn_unfold (ar : LoopArith) (env : MathEnv) (A B : Frame) (steps : Nat)
    (hs : 1 ≤ steps) :
    A.lerpTransitionIn ar env B steps =
      lerpTransitionLoop ar env A B (ar.fl (1 / clamp (steps : ℚ) 2 100))
        (alphaStep_bounds ar steps) (ar.fl (1 / 10)) (alphaStart_nonneg ar) [] := by
  have hs1 : ¬ steps < 1 := by omega
  simp only [Frame.lerpTransitionIn, hs1, if_false]

/-- On frames that `lerpOne` accepts, `lerpTransition` returns in every arithmetic of the loop
counter, and every frame it returns is an interpolation of the two frames. -/
theorem lerpTransitionIn_ok (ar : LoopArith) (env : MathEnv) (A B : Frame) (steps : Nat)
    (hgood : ∀ alpha, A.lerpOne env B alpha = .ok ⟨lerpOneRef env A B alpha, false⟩) :
    ∃ fs, A.lerpTransitionIn ar env B steps = .ok fs ∧
      ∀ f ∈ fs, ∃ a, f = lerpOneRef env A B a := by
  by_cases hs : steps < 1
  · exact ⟨[], by simp [Frame.lerpTransitionIn, hs], by simp⟩
  · rw [lerpTransitionIn_unfold ar env A B steps (by omega)]
    obtain ⟨fs, hfs, hmem⟩ := lerpTransitionLoop_ok ar env A B
      (ar.fl (1 / clamp (steps : ℚ) 2 100)) (alphaStep_bounds ar steps) hgood _
      (ar.fl (1 / 10)) (alphaStart_nonneg ar) [] (le_refl _)
    exact ⟨fs, by simpa using hfs, hmem⟩

theorem alphaSeq_exact (alphaStep : ℚ) : ∀ (k : Nat) (a : ℚ),
    alphaSeq exactArith alphaStep a k = a + (k : ℚ) * alphaStep := by
  intro k
  induction k with
  | zero => intro a; simp [alphaSeq]
  | succ k ih =>
    intro a
    show alphaSeq exactArith alphaStep (a + alphaStep) k = _
    rw [ih]
    push_cast
    ring

theorem transitionCount_spec (steps k : Nat) :
    k < transitionCount steps ↔ 1 / 10 + (k : ℚ) / clamp (steps : ℚ) 2 100 ≤ 1 := by
  have hc := clamp_pos (steps : ℚ)
  have hx : (1 - 1 / 10) / (1 / clamp (steps : ℚ) 2 100) = 9 / 10 * clamp (steps : ℚ) 2 100 := by
    rw [div_div_eq_mul_div, div_one]
    ring
  have h0 : (0 : ℤ) ≤ ⌊9 / 10 * clamp (steps : ℚ) 2 100⌋ :=
    Int.floor_nonneg.mpr (by positivity)
  unfold transitionCount
  rw [hx]
  have e1 : k < (⌊9 / 10 * clamp (steps : ℚ) 2 100⌋ + 1).toNat ↔
      (k : ℤ) ≤ ⌊9 / 10 * clamp (steps : ℚ) 2 100⌋ := by omega
  rw [e1, Int.le_floor]
  simp only [Int.cast_natCast]
  rw [← sub_nonneg, ← sub_nonneg (a := (1 : ℚ))]
  have e2 : 1 - (1 / 10 + (k : ℚ) / clamp (steps : ℚ) 2 100) =
      (9 / 10 * clamp (steps : ℚ) 2 100 - k) / clamp (steps : ℚ) 2 100 := by
    field_simp
    ring
  rw [e2]
  constructor
  · intro h; exact div_nonneg h hc.le
  · intro h
    by_contra hneg
    push_neg at hneg
    have := div_neg_of_neg_of_pos hneg hc
    linarith

theorem transitionCount_pos (steps : Nat) : 0 < transitionCount steps := by
  rw [transitionCount_spec]
  simp
  norm_num

theorem transitionCount_hundred : transitionCount 100 = 91 := by
  norm_num [transitionCount, clamp]
  rfl

/-- Closed form of `lerpTransition` with the loop counter in exact arithmetic, for `steps >= 1`
on frames that `lerpOne` accepts. -/
theorem lerpTransitionExact_eq (env : MathEnv) (A B : Frame) (steps : Nat) (hsteps : 1 ≤ steps)
    (hlen : A.rotations.length = B.rotations.length) (hpos : 1 ≤ A.rotations.length) :
    A.lerpTransitionExact env B steps =
      .ok ((List.range (transitionCount steps)).map
        (fun (k : Nat) => lerpOneRef env A B (1 / 10 + (k : ℚ) * (1 / clamp (steps : ℚ) 2 100)))) := by
  have hseq : ∀ k : Nat, alphaSeq exactArith (exactArith.fl (1 / clamp (steps : ℚ) 2 100))
      (exactArith.fl (1 / 10)) k = 1 / 10 + (k : ℚ) * (1 / clamp (steps : ℚ) 2 100) := by
    intro k
    rw [alphaSeq_exact]
    rfl
  have hspec : ∀ k : Nat, k < transitionCount steps ↔
      1 / 10 + (k : ℚ) * (1 / clamp (steps : ℚ) 2 100) ≤ 1 := by
    intro k
    rw [transitionCount_spec, mul_one_div]
  unfold Frame.lerpTransitionExact
  rw [lerpTransitionIn_unfold exactArith env A B steps hsteps,
    lerpTransitionLoop_eq_seq exactArith env A B _ _
      (fun alpha => lerpOne_eq_ref env A B alpha hlen hpos) (transitionCount steps) _ _ []
      (fun k hk => by rw [hseq]; exact (hspec k).mp hk)
      (by rw [hseq]; exact fun h => lt_irrefl _ ((hspec _).mpr h))]
  simp only [List.nil_append, hseq]

/-! ## Loops -/

/-- Invariant rule for `forLoop`: a body that never faults under the invariant and preserves it
runs to the end. -/
theorem forLoop_inv {σ : Type} (body : Nat → σ → Except Fault σ) (P : Nat → σ → Prop) :
    ∀ (count i : Nat) (s : σ), P i s →
      (∀ j t, i ≤ j → j < i + count → P j t → ∃ t1, body j t = .ok t1 ∧ P (j + 1) t1) →
      ∃ s1, forLoop body count i s = .ok s1 ∧ P (i + count) s1 := by
  intro count
  induction count with
  | zero => intro i s h0 _; exact ⟨s, rfl, h0⟩
  | succ c ih =>
    intro i s h0 hstep
    obtain ⟨t1, hb, hp⟩ := hstep i s (le_refl i) (by omega) h0
    obtain ⟨s1, hl, hq⟩ := ih (i + 1) t1 hp
      (fun j t hij hj hpj => hstep j t (by omega) (by omega) hpj)
    refine ⟨s1, ?_, ?_⟩
    · rw [forLoop, hb]; exact hl
    · have e : i + (c + 1) = i + 1 + c := by omega
      rw [e]; exact hq

/-- Invariant rule for `forRange`. -/
theorem forRange_inv {σ : Type} (lo hi : Nat) (body : Nat → σ → Except Fault σ)
    (P : Nat → σ → Prop) (s : σ) (hle : lo ≤ hi) (h0 : P lo s)
    (hstep : ∀ j t, lo ≤ j → j < hi → P j t → ∃ t1, body j t = .ok t1 ∧ P (j + 1) t1) :
    ∃ s1, forRange lo hi body s = .ok s1 ∧ P hi s1 := by
  obtain ⟨s1, h1, h2⟩ := forLoop_inv body P (hi - lo) lo s h0
    (fun j t hij hj hpj => hstep j t hij (by omega) hpj)
  refine ⟨s1, h1, ?_⟩
  have e : lo + (hi - lo) = hi := by omega
  rw [e] at h2; exact h2

/-! ## Signatures -/

theorem value_ok (f : Frame) (h : 1 ≤ f.rotations.length) : f.value = .ok f.valueD := by
  obtain ⟨t, r⟩ := f
  cases r with
  | nil => simp at h
  | cons a as => simp [Frame.value, Frame.valueD]

theorem sigAt_ok (frames : List Frame) (n j : Nat) (hn : 1 ≤ n) (hjc : JointCount n frames)
    (hj : j < frames.length) :
    ∃ fr, frames[j]? = some fr ∧ fr ∈ frames ∧ fr.value = .ok (sigAt frames j) := by
  refine ⟨frames[j], List.getElem?_eq_getElem hj, List.getElem_mem hj, ?_⟩
  have h1 : 1 ≤ frames[j].rotations.length := by
    rw [hjc _ (List.getElem_mem hj)]; exact hn
  rw [value_ok _ h1]
  simp [sigAt, List.getElem?_eq_getElem hj]

theorem signatureDistance_ok (a b : Frame) (ha : 1 ≤ a.rotations.length)
    (hb : 1 ≤ b.rotations.length) :
    signatureDistance a b = .ok (vecDist a.valueD b.valueD) := by
  simp [signatureDistance, value_ok a ha, value_ok b hb, vecDist]

theorem compAdd_abs_sub (a b : Vec3) : Vec3.compAdd (Vec3.abs (Vec3.sub a b)) = vecDist a b :=
  rfl

theorem vecDist_self (a : Vec3) : vecDist a a = 0 := by
  simp [vecDist, Vec3.sub, Vec3.abs, Vec3.compAdd]

theorem vecDist_nonneg (a b : Vec3) : 0 ≤ vecDist a b := by
  simp only [vecDist, Vec3.sub, Vec3.abs, Vec3.compAdd]
  positivity

theorem vecDist_eq_zero (a b : Vec3) (h : vecDist a b = 0) : a = b := by
  obtain ⟨ax, ay, az⟩ := a
  obtain ⟨bx, b_y, bz⟩ := b
  simp only [vecDist, Vec3.sub, Vec3.abs, Vec3.compAdd] at h
  have h1 := abs_nonneg (ax - bx)
  have h2 := abs_nonneg (ay - b_y)
  have h3 := abs_nonneg (az - bz)
  have e1 : |ax - bx| = 0 := by linarith
  have e2 : |ay - b_y| = 0 := by linarith
  have e3 : |az - bz| = 0 := by linarith
  rw [abs_eq_zero, sub_eq_zero] at e1 e2 e3
  simp [e1, e2, e3]

/-! ## The winner search of `mix` -/

/-- The winner search scans every frame of `m2` without fault and ends on the lowest index of
least distance. -/
theorem mixSearch_spec (v : Vec3) (m2 : Motion) (n : Nat) (hn : 1 ≤ n)
    (hjc : JointCount n m2.frames) :
    ∃ s, mixSearch v m2 = .ok s ∧
      (m2.frames.length = 0 → s.auxF2 = 0) ∧
      (0 < m2.frames.length → s.auxF2 < m2.frames.length ∧
        (∀ j, j < m2.frames.length →
          vecDist v (sigAt m2.frames s.auxF2) ≤ vecDist v (sigAt m2.frames j)) ∧
        (∀ j, j < s.auxF2 →
          vecDist v (sigAt m2.frames s.auxF2) < vecDist v (sigAt m2.frames j))) := by
  let d : Nat → ℚ := fun j => vecDist v (sigAt m2.frames j)
  let P : Nat → MixScan → Prop := fun k s =>
    (k = 0 ∧ s.auxDiff = ⊤ ∧ s.auxF2 = 0) ∨
    (s.auxF2 < k ∧ s.auxDiff = ((d s.auxF2 : ℚ) : WithTop ℚ) ∧
      (∀ j, j < k → d s.auxF2 ≤ d j) ∧ (∀ j, j < s.auxF2 → d s.auxF2 < d j))
  obtain ⟨s, hs, hP⟩ := forRange_inv 0 m2.frames.length (mixInner v m2) P ⟨⊤, 0⟩
    (Nat.zero_le _) (Or.inl ⟨rfl, rfl, rfl⟩) (by
      intro k t _ hk hPk
      obtain ⟨fr, hfr, _, hval⟩ := sigAt_ok m2.frames n k hn hjc hk
      simp only [mixInner, hfr, hval, compAdd_abs_sub]
      rcases hPk with ⟨hk0, htop, hz⟩ | ⟨hlt, hdiff, hmin, hlow⟩
      · simp only [htop, WithTop.coe_lt_top, if_true]
        refine ⟨_, rfl, Or.inr ⟨by simp, ?_, ?_, ?_⟩⟩
        · simp only [d]
        · intro j hj
          have : j = k := by omega
          subst this; exact le_refl _
        · intro j hj
          simp only at hj
          omega
      · by_cases hc : vecDist v (sigAt m2.frames k) < d t.auxF2
        · have hc1 : ((vecDist v (sigAt m2.frames k) : ℚ) : WithTop ℚ) < t.auxDiff := by
            rw [hdiff]; exact WithTop.coe_lt_coe.mpr hc
          simp only [hc1, if_true]
          refine ⟨_, rfl, Or.inr ⟨by simp, ?_, ?_, ?_⟩⟩
          · simp only [d]
          · intro j hj
            simp only
            by_cases hjk : j = k
            · subst hjk; exact le_refl _
            · exact le_trans hc.le (hmin j (by omega))
          · intro j hj
            simp only at hj ⊢
            exact lt_of_lt_of_le hc (hmin j hj)
        · have hc1 : ¬ ((vecDist v (sigAt m2.frames k) : ℚ) : WithTop ℚ) < t.auxDiff := by
            rw [hdiff]; exact fun h => hc (WithTop.coe_lt_coe.mp h)
          simp only [hc1, if_false]
          refine ⟨_, rfl, Or.inr ⟨by omega, hdiff, ?_, hlow⟩⟩
          intro j hj
          by_cases hjk : j = k
          · subst hjk; exact not_lt.mp hc
          · exact hmin j (by omega))
  refine ⟨s, hs, ?_, ?_⟩
  · intro h0
    rcases hP with ⟨_, _, hz⟩ | ⟨hlt, _⟩
    · exact hz
    · omega
  · intro hpos
    rcases hP with ⟨h0, _⟩ | ⟨hlt, _, hmin, hlow⟩
    · omega
    · exact ⟨hlt, hmin, hlow⟩

/-! ## The result map of `mix` -/

theorem mapInsert_append {β : Type} (k : Nat) (v : β) :
    ∀ (m : List (Nat × β)), (∀ p ∈ m, p.1 < k) → mapInsert k v m = m ++ [(k, v)]
  | [], _ => rfl
  | (k1, v1) :: rest, h => by
    have h1 : k1 < k := h (k1, v1) (List.mem_cons_self _ _)
    have h2 : ¬ k < k1 := by omega
    have h3 : ¬ k = k1 := by omega
    have ih := mapInsert_append k v rest (fun p hp => h p (List.mem_cons_of_mem _ hp))
    simp [mapInsert, h2, h3, ih]

theorem mapFind_of_mem {β : Type} :
    ∀ (m : List (Nat × β)) (p : Nat × β), (m.map Prod.fst).Nodup → p ∈ m →
      mapFind p.1 m = some p.2
  | [], _, _, h => by simp at h
  | (k1, v1) :: rest, p, hnd, hp => by
    simp only [List.map_cons, List.nodup_cons] at hnd
    rcases List.mem_cons.mp hp with rfl | hin
    · simp [mapFind]
    · have hne : ¬ p.1 = k1 := by
        intro e
        exact hnd.1 (e ▸ List.mem_map_of_mem Prod.fst hin)
      simp only [mapFind, hne, if_false]
      exact mapFind_of_mem rest p hnd.2 hin

/-- On frames with the same non-zero joint count `lerpTransition` returns, and every frame it
returns has that joint count. -/
theorem lerpTransition_ok (env : MathEnv) (A B : Frame) (steps : Nat)
    (hlen : A.rotations.length = B.rotations.length) (hpos : 1 ≤ A.rotations.length) :
    ∃ fs, A.lerpTransition env B steps = .ok fs ∧ JointCount A.rotations.length fs := by
  obtain ⟨fs, hfs, hmem⟩ := lerpTransitionIn_ok binary32 env A B steps
    (fun alpha => lerpOne_eq_ref env A B alpha hlen hpos)
  refine ⟨fs, hfs, ?_⟩
  intro f hf
  obtain ⟨a, rfl⟩ := hmem f hf
  exact lerpOneRef_length env A B a hlen hpos

theorem createTransitionMotion_ok (env : MathEnv) (A B : Motion) (n f1 f2 : Nat) (hn : 1 ≤ n)
    (hA : JointCount n A.frames) (hB : JointCount n B.frames)
    (h1 : f1 < A.frames.length) (h2 : f2 < B.frames.length) :
    ∃ tMo, createTransitionMotion env A B f1 f2 = .ok tMo := by
  have ha := hA _ (List.getElem_mem h1)
  have hb := hB _ (List.getElem_mem h2)
  obtain ⟨fs, hfs, _⟩ := lerpTransition_ok env A.frames[f1] B.frames[f2] 10
    (by rw [ha, hb]) (by rw [ha]; exact hn)
  simp only [createTransitionMotion, List.getElem?_eq_getElem h1, List.getElem?_eq_getElem h2,
    hfs]
  exact ⟨_, rfl⟩

/-- The operation `mix` on motions whose frames share a non-zero joint count: it returns a map
whose keys are the source indices in ascending order, each with the winner of its search. -/
theorem mix_entries (env : MathEnv) (A B : Motion) (n : Nat) (hn : 1 ≤ n)
    (hA : JointCount n A.frames) (hB : JointCount n B.frames)
    (hne : B.frames ≠ [] ∨ A.frames = []) :
    ∃ mm, A.mix env B = .ok mm ∧ mm.map Prod.fst = List.range A.frames.length ∧
      ∀ p ∈ mm, ∃ s, mixSearch (sigAt A.frames p.1) B = .ok s ∧ p.2.1 = s.auxF2 := by
  let P : Nat → mixMap → Prop := fun k mm =>
    mm.map Prod.fst = List.range k ∧
      ∀ p ∈ mm, ∃ s, mixSearch (sigAt A.frames p.1) B = .ok s ∧ p.2.1 = s.auxF2
  obtain ⟨mm, hmm, hP⟩ := forRange_inv 0 A.frames.length (mixOuter env A B) P []
    (Nat.zero_le _) ⟨by simp, by simp⟩ (by
      intro k mm _ hk hPk
      obtain ⟨hkeys, hvals⟩ := hPk
      have hBne : 0 < B.frames.length := by
        rcases hne with h | h
        · exact List.length_pos.mpr h
        · rw [h] at hk; simp at hk
      obtain ⟨fr, hfr, _, hval⟩ := sigAt_ok A.frames n k hn hA hk
      obtain ⟨s, hs, _, hwin⟩ := mixSearch_spec (sigAt A.frames k) B n hn hB
      obtain ⟨tMo, htMo⟩ := createTransitionMotion_ok env A B n k s.auxF2 hn hA hB hk
        (hwin hBne).1
      have hlt : ∀ p ∈ mm, p.1 < k := by
        intro p hp
        have : p.1 ∈ List.range k := hkeys ▸ List.mem_map_of_mem Prod.fst hp
        exact List.mem_range.mp this
      refine ⟨mm ++ [(k, (s.auxF2, tMo))], ?_, ?_, ?_⟩
      · simp only [mixOuter, hfr, hval, hs, htMo, mapInsert_append k _ mm hlt]
      · simp [hkeys, List.range_succ]
      · intro p hp
        rcases List.mem_append.mp hp with h | h
        · exact hvals p h
        · simp only [List.mem_singleton] at h
          subst h
          exact ⟨s, hs, rfl⟩)
  exact ⟨mm, hmm, hP.1, hP.2⟩

theorem sigAt_getElem (frames : List Frame) (j : Nat) (hj : j < frames.length) :
    sigAt frames j = frames[j].valueD := by
  simp [sigAt, List.getElem?_eq_getElem hj]

/-- The entries of `mix`, read through `mapFind`: every source index has an entry, and its
target is the lowest index of least distance. -/
theorem mix_winners (env : MathEnv) (A B : Motion) (n : Nat) (hn : 1 ≤ n)
    (hA : JointCount n A.frames) (hB : JointCount n B.frames)
    (hne : B.frames ≠ [] ∨ A.frames = []) :
    ∃ mm, A.mix env B = .ok mm ∧ mm.map Prod.fst = List.range A.frames.length ∧
      (∀ p ∈ mm, p.2.1 < B.frames.length) ∧
      ∀ f1, f1 < A.frames.length → ∃ t tMo, mapFind f1 mm = some (t, tMo) ∧
        t < B.frames.length ∧
        (∀ j, j < B.frames.length →
          vecDist (sigAt A.frames f1) (sigAt B.frames t) ≤
            vecDist (sigAt A.frames f1) (sigAt B.frames j)) ∧
        (∀ j, j < t →
          vecDist (sigAt A.frames f1) (sigAt B.frames t) <
            vecDist (sigAt A.frames f1) (sigAt B.frames j)) := by
  obtain ⟨mm, hmm, hkeys, hvals⟩ := mix_entries env A B n hn hA hB hne
  have hBpos : ∀ p ∈ mm, 0 < B.frames.length := by
    intro p hp
    have h1 : p.1 ∈ List.range A.frames.length := hkeys ▸ List.mem_map_of_mem Prod.fst hp
    rcases hne with h | h
    · exact List.length_pos.mpr h
    · rw [h] at h1; simp at h1
  have hwin : ∀ p ∈ mm, p.2.1 < B.frames.length ∧
      (∀ j, j < B.frames.length →
        vecDist (sigAt A.frames p.1) (sigAt B.frames p.2.1) ≤
          vecDist (sigAt A.frames p.1) (sigAt B.frames j)) ∧
      (∀ j, j < p.2.1 →
        vecDist (sigAt A.frames p.1) (sigAt B.frames p.2.1) <
          vecDist (sigAt A.frames p.1) (sigAt B.frames j)) := by
    intro p hp
    obtain ⟨s, hs, hps⟩ := hvals p hp
    obtain ⟨s1, hs1, _, hspec⟩ := mixSearch_spec (sigAt A.frames p.1) B n hn hB
    have e : s1 = s := by
      rw [hs] at hs1
      exact (Except.ok.inj hs1).symm
    subst e
    rw [hps]
    exact hspec (hBpos p hp)
  refine ⟨mm, hmm, hkeys, fun p hp => (hwin p hp).1, ?_⟩
  intro f1 h1
  have hmem : f1 ∈ mm.map Prod.fst := by rw [hkeys]; exact List.mem_range.mpr h1
  obtain ⟨p, hp, rfl⟩ := List.mem_map.mp hmem
  have hnd : (mm.map Prod.fst).Nodup := by rw [hkeys]; exact List.nodup_range _
  exact ⟨p.2.1, p.2.2, mapFind_of_mem mm p hnd hp, hwin p hp⟩

/-! ## What a returned map of `mix` says about its arguments -/

/-- Rule for a `forLoop` that ran to the end: an invariant that every fault-free step preserves
holds at the end. -/
theorem forLoop_of_ok {σ : Type} (body : Nat → σ → Except Fault σ) (P : Nat → σ → Prop) :
    ∀ (count i : Nat) (s s1 : σ), forLoop body count i s = .ok s1 → P i s →
      (∀ j t t1, i ≤ j → j < i + count → P j t → body j t = .ok t1 → P (j + 1) t1) →
      P (i + count) s1 := by
  intro count
  induction count with
  | zero =>
    intro i s s1 h h0 _
    simp only [forLoop, Except.ok.injEq] at h
    subst h
    exact h0
  | succ c ih =>
    intro i s s1 h h0 hstep
    rw [forLoop] at h
    cases hb : body i s with
    | error e => rw [hb] at h; cases h
    | ok t1 =>
      rw [hb] at h
      have hp := hstep i s t1 (le_refl i) (by omega) h0 hb
      have := ih (i + 1) t1 s1 h hp (fun j t t2 hij hj hpj hbj =>
        hstep j t t2 (by omega) (by omega) hpj hbj)
      have e : i + (c + 1) = i + 1 + c := by omega
      rw [e]; exact this

theorem forRange_of_ok {σ : Type} (lo hi : Nat) (body : Nat → σ → Except Fault σ)
    (P : Nat → σ → Prop) (s s1 : σ) (hle : lo ≤ hi) (h : forRange lo hi body s = .ok s1)
    (h0 : P lo s)
    (hstep : ∀ j t t1, lo ≤ j → j < hi → P j t → body j t = .ok t1 → P (j + 1) t1) :
    P hi s1 := by
  have := forLoop_of_ok body P (hi - lo) lo s s1 h h0
    (fun j t t1 hij hj hpj hbj => hstep j t t1 hij (by omega) hpj hbj)
  have e : lo + (hi - lo) = hi := by omega
  rw [e] at this; exact this

/-- A step of the winner search that returns has read a target frame with a root joint. -/
theorem mixInner_of_ok (v : Vec3) (m2 : Motion) (k : Nat) (t t1 : MixScan)
    (h : mixInner v m2 k t = .ok t1) :
    (∃ fr, m2.frames[k]? = some fr ∧ fr.value = .ok (sigAt m2.frames k)) ∧
      t1 = (if ((vecDist v (sigAt m2.frames k) : ℚ) : WithTop ℚ) < t.auxDiff
        then ⟨((vecDist v (sigAt m2.frames k) : ℚ) : WithTop ℚ), k⟩ else t) := by
  unfold mixInner at h
  cases hfr : m2.frames[k]? with
  | none => rw [hfr] at h; cases h
  | some fr =>
    rw [hfr] at h
    simp only at h
    cases hval : fr.value with
    | error e => rw [hval] at h; cases h
    | ok f2Value =>
      rw [hval] at h
      simp only [compAdd_abs_sub] at h
      have hsig : sigAt m2.frames k = f2Value := by
        simp [sigAt, hfr, Frame.valueD, hval]
      rw [hsig]
      refine ⟨⟨fr, rfl, hval⟩, ?_⟩
      by_cases hc : ((vecDist v f2Value : ℚ) : WithTop ℚ) < t.auxDiff
      · simp only [hc, if_true, Except.ok.injEq] at h ⊢
        exact h.symm
      · simp only [hc, if_false, Except.ok.injEq] at h ⊢
        exact h.symm

/-- A winner search that returns has read a signature from every target frame and ends on the
lowest index of least distance. -/
theorem mixSearch_of_ok (v : Vec3) (m2 : Motion) (s : MixScan) (h : mixSearch v m2 = .ok s) :
    (∀ j, j < m2.frames.length →
      ∃ fr, m2.frames[j]? = some fr ∧ fr.value = .ok (sigAt m2.frames j)) ∧
    (0 < m2.frames.length → s.auxF2 < m2.frames.length ∧
      (∀ j, j < m2.frames.length →
        vecDist v (sigAt m2.frames s.auxF2) ≤ vecDist v (sigAt m2.frames j)) ∧
      (∀ j, j < s.auxF2 →
        vecDist v (sigAt m2.frames s.auxF2) < vecDist v (sigAt m2.frames j))) := by
  let d : Nat → ℚ := fun j => vecDist v (sigAt m2.frames j)
  let P : Nat → MixScan → Prop := fun k s =>
    (∀ j, j < k → ∃ fr, m2.frames[j]? = some fr ∧ fr.value = .ok (sigAt m2.frames j)) ∧
    ((k = 0 ∧ s.auxDiff = ⊤ ∧ s.auxF2 = 0) ∨
    (s.auxF2 < k ∧ s.auxDiff = ((d s.auxF2 : ℚ) : WithTop ℚ) ∧
      (∀ j, j < k → d s.auxF2 ≤ d j) ∧ (∀ j, j < s.auxF2 → d s.auxF2 < d j)))
  have hP : P m2.frames.length s := forRange_of_ok 0 m2.frames.length (mixInner v m2) P ⟨⊤, 0⟩ s
    (Nat.zero_le _) h ⟨fun j hj => by omega, Or.inl ⟨rfl, rfl, rfl⟩⟩ (by
      intro k t t1 _ hk hPk hbody
      obtain ⟨hread, hsel⟩ := hPk
      obtain ⟨hfr, ht1⟩ := mixInner_of_ok v m2 k t t1 hbody
      refine ⟨?_, ?_⟩
      · intro j hj
        by_cases hjk : j = k
        · subst hjk; exact hfr
        · exact hread j (by omega)
      · rcases hsel with ⟨hk0, htop, hz⟩ | ⟨hlt, hdiff, hmin, hlow⟩
        · have e : t1 = ⟨((vecDist v (sigAt m2.frames k) : ℚ) : WithTop ℚ), k⟩ := by
            rw [ht1, if_pos (by rw [htop]; exact WithTop.coe_lt_top _)]
          rw [e]
          refine Or.inr ⟨Nat.lt_succ_self k, rfl, ?_, ?_⟩
          · intro j hj
            have : j = k := by omega
            subst this; exact le_refl _
          · intro j hj
            have hj1 : j < k := hj
            omega
        · by_cases hc : vecDist v (sigAt m2.frames k) < d t.auxF2
          · have hc1 : ((vecDist v (sigAt m2.frames k) : ℚ) : WithTop ℚ) < t.auxDiff := by
              rw [hdiff]; exact WithTop.coe_lt_coe.mpr hc
            have e : t1 = ⟨((vecDist v (sigAt m2.frames k) : ℚ) : WithTop ℚ), k⟩ := by
              rw [ht1, if_pos hc1]
            rw [e]
            refine Or.inr ⟨Nat.lt_succ_self k, rfl, ?_, ?_⟩
            · intro j hj
              show d k ≤ d j
              by_cases hjk : j = k
              · subst hjk; exact le_refl _
              · exact le_trans hc.le (hmin j (by omega))
            · intro j hj
              have hj1 : j < k := hj
              show d k < d j
              exact lt_of_lt_of_le hc (hmin j hj1)
          · have hc1 : ¬ ((vecDist v (sigAt m2.frames k) : ℚ) : WithTop ℚ) < t.auxDiff := by
              rw [hdiff]; exact fun h => hc (WithTop.coe_lt_coe.mp h)
            have e : t1 = t := by rw [ht1, if_neg hc1]
            rw [e]
            refine Or.inr ⟨by omega, hdiff, ?_, hlow⟩
            intro j hj
            by_cases hjk : j = k
            · subst hjk; exact not_lt.mp hc
            · exact hmin j (by omega))
  refine ⟨hP.1, ?_⟩
  intro hpos
  rcases hP.2 with ⟨h0, _⟩ | ⟨hlt, _, hmin, hlow⟩
  · omega
  · exact ⟨hlt, hmin, hlow⟩

/-- A step of the outer loop of `mix` that returns has read a source frame with a root joint,
run the winner search and inserted its winner. -/
theorem mixOuter_of_ok (env : MathEnv) (A B : Motion) (f1 : Nat) (mm mm1 : mixMap)
    (h : mixOuter env A B f1 mm = .ok mm1) :
    ∃ fr1 s tMo, A.frames[f1]? = some fr1 ∧ fr1.value = .ok (sigAt A.frames f1) ∧
      mixSearch (sigAt A.frames f1) B = .ok s ∧ mm1 = mapInsert f1 (s.auxF2, tMo) mm := by
  unfold mixOuter at h
  cases hfr : A.frames[f1]? with
  | none => rw [hfr] at h; cases h
  | some fr1 =>
    rw [hfr] at h
    simp only at h
    cases hval : fr1.value with
    | error e => rw [hval] at h; cases h
    | ok f1Value =>
      rw [hval] at h
      simp only at h
      have hsig : sigAt A.frames f1 = f1Value := by
        simp [sigAt, hfr, Frame.valueD, hval]
      cases hs : mixSearch f1Value B with
      | error e => rw [hs] at h; cases h
      | ok s =>
        rw [hs] at h
        simp only at h
        cases ht : createTransitionMotion env A B f1 s.auxF2 with
        | error e => rw [ht] at h; cases h
        | ok tMo =>
          rw [ht] at h
          simp only [Except.ok.injEq] at h
          exact ⟨fr1, s, tMo, rfl, by rw [hsig]; exact hval, by rw [hsig]; exact hs, h.symm⟩

/-- A map that `mix` returns has the source indices as keys, in ascending order, each with the
winner of its search. -/
theorem mix_of_ok (env : MathEnv) (A B : Motion) (mm : mixMap) (h : A.mix env B = .ok mm) :
    mm.map Prod.fst = List.range A.frames.length ∧
      ∀ p ∈ mm, ∃ fr1 s, A.frames[p.1]? = some fr1 ∧ fr1.value = .ok (sigAt A.frames p.1) ∧
        mixSearch (sigAt A.frames p.1) B = .ok s ∧ p.2.1 = s.auxF2 := by
  let P : Nat → mixMap → Prop := fun k mm =>
    mm.map Prod.fst = List.range k ∧
      ∀ p ∈ mm, ∃ fr1 s, A.frames[p.1]? = some fr1 ∧ fr1.value = .ok (sigAt A.frames p.1) ∧
        mixSearch (sigAt A.frames p.1) B = .ok s ∧ p.2.1 = s.auxF2
  exact forRange_of_ok 0 A.frames.length (mixOuter env A B) P [] mm (Nat.zero_le _) h
    ⟨by simp, by simp⟩ (by
      intro k t t1 _ hk hPk hbody
      obtain ⟨hkeys, hvals⟩ := hPk
      obtain ⟨fr1, s, tMo, hfr, hval, hs, ht1⟩ := mixOuter_of_ok env A B k t t1 hbody
      have hlt : ∀ p ∈ t, p.1 < k := by
        intro p hp
        have : p.1 ∈ List.range k := hkeys ▸ List.mem_map_of_mem Prod.fst hp
        exact List.mem_range.mp this
      rw [ht1, mapInsert_append k _ t hlt]
      refine ⟨by simp [hkeys, List.range_succ], ?_⟩
      intro p hp
      rcases List.mem_append.mp hp with h1 | h1
      · exact hvals p h1
      · simp only [List.mem_singleton] at h1
        subst h1
        exact ⟨fr1, s, hfr, hval, hs, rfl⟩)

/-- The winner search returns when every target frame has a root joint. -/
theorem mixSearch_total (v : Vec3) (m2 : Motion)
    (hroot : ∀ fb ∈ m2.frames, 1 ≤ fb.rotations.length) : ∃ s, mixSearch v m2 = .ok s := by
  obtain ⟨s, hs, _⟩ := forRange_inv 0 m2.frames.length (mixInner v m2) (fun _ _ => True)
    ⟨⊤, 0⟩ (Nat.zero_le _) trivial (by
      intro k t _ hk _
      have hfr : m2.frames[k]? = some m2.frames[k] := List.getElem?_eq_getElem hk
      have hval := value_ok m2.frames[k] (hroot _ (List.getElem_mem hk))
      simp only [mixInner, hfr, hval]
      split
      · exact ⟨_, rfl, trivial⟩
      · exact ⟨_, rfl, trivial⟩)
  exact ⟨s, hs⟩

/-- The operation `mix` returns when every source frame has a root joint and no more joints
than any target frame. -/
theorem mix_total (env : MathEnv) (A B : Motion) (hB0 : B.frames ≠ [])
    (hjoints : ∀ fa ∈ A.frames, ∀ fb ∈ B.frames,
      1 ≤ fa.rotations.length ∧ fa.rotations.length ≤ fb.rotations.length) :
    ∃ mm, A.mix env B = .ok mm := by
  obtain ⟨mm, hmm, _⟩ := forRange_inv 0 A.frames.length (mixOuter env A B)
    (fun _ _ => True) [] (Nat.zero_le _) trivial (by
      intro k mm _ hk _
      have hfr : A.frames[k]? = some A.frames[k] := List.getElem?_eq_getElem hk
      have hmemA := List.getElem_mem hk
      have hB0len : 0 < B.frames.length := List.length_pos.mpr hB0
      have hrootA : 1 ≤ A.frames[k].rotations.length :=
        (hjoints _ hmemA _ (List.getElem_mem hB0len)).1
      have hrootB : ∀ fb ∈ B.frames, 1 ≤ fb.rotations.length := fun fb hfb =>
        le_trans (hjoints _ hmemA fb hfb).1 (hjoints _ hmemA fb hfb).2
      obtain ⟨s, hs⟩ := mixSearch_total A.frames[k].valueD B hrootB
      have ht := ((mixSearch_of_ok _ _ s hs).2 hB0len).1
      have hfb : B.frames[s.auxF2]? = some B.frames[s.auxF2] := List.getElem?_eq_getElem ht
      obtain ⟨fs, hfs, _⟩ := lerpTransitionIn_ok binary32 env A.frames[k]
        B.frames[s.auxF2] 10
        (fun alpha => lerpOne_eq_ref_of_le env _ _ alpha
          (hjoints _ hmemA _ (List.getElem_mem ht)).2 hrootA)
      have hfs1 : A.frames[k].lerpTransition env B.frames[s.auxF2] 10 = .ok fs := hfs
      simp only [mixOuter, hfr, value_ok _ hrootA, hs, createTransitionMotion, hfb, hfs1]
      exact ⟨_, rfl, trivial⟩)
  exact ⟨mm, hmm⟩

/-! ## Claims about `mix` -/

/-- C1: for every motion `A` and every motion `B` with at least one frame, in every map that
`A.mix(B)` returns the target stored under every frame index `f1` of `A` is the lowest index of `B`
that minimises the signature distance `d(f1, .)`: the distance to the target is at most the
distance to every index `j` of `B`, and strictly below it for every `j < target`. The map is
returned whenever every frame of `A` has a root joint and no more joints than any frame of
`B`. -/
theorem mix_target_lowest_minimiser (env : MathEnv) (A B : Motion) (hB0 : B.frames ≠ []) :
    (∀ mm, A.mix env B = .ok mm →
      ∀ (f1 : Nat) (h1 : f1 < A.frames.length), ∃ target tMo d,
        mapFind f1 mm = some (target, tMo) ∧
        ∃ (ht : target < B.frames.length),
          signatureDistance A.frames[f1] B.frames[target] = .ok d ∧
          ∀ (j : Nat) (hj : j < B.frames.length), ∃ dj,
            signatureDistance A.frames[f1] B.frames[j] = .ok dj ∧ d ≤ dj ∧
              (j < target → d < dj)) ∧
    ((∀ fa ∈ A.frames, ∀ fb ∈ B.frames,
        1 ≤ fa.rotations.length ∧ fa.rotations.length ≤ fb.rotations.length) →
      ∃ mm, A.mix env B = .ok mm) := by
  refine ⟨?_, mix_total env A B hB0⟩
  intro mm hmm f1 h1
  obtain ⟨hkeys, hvals⟩ := mix_of_ok env A B mm hmm
  have hmem : f1 ∈ mm.map Prod.fst := by rw [hkeys]; exact List.mem_range.mpr h1
  obtain ⟨p, hp, rfl⟩ := List.mem_map.mp hmem
  have hnd : (mm.map Prod.fst).Nodup := by rw [hkeys]; exact List.nodup_range _
  obtain ⟨fr1, s, hfr, hval, hs, hps⟩ := hvals p hp
  obtain ⟨hread, hwin⟩ := mixSearch_of_ok _ B s hs
  obtain ⟨ht, hmin, hlow⟩ := hwin (List.length_pos.mpr hB0)
  have hfr1 : fr1 = A.frames[p.1] := by
    rw [List.getElem?_eq_getElem h1] at hfr
    exact (Option.some.inj hfr).symm
  subst hfr1
  have hB : ∀ (j : Nat) (hj : j < B.frames.length),
      B.frames[j].value = .ok (sigAt B.frames j) := by
    intro j hj
    obtain ⟨fr, hfrj, hv⟩ := hread j hj
    rw [List.getElem?_eq_getElem hj] at hfrj
    rw [Option.some.inj hfrj]
    exact hv
  have hdist : ∀ (j : Nat) (hj : j < B.frames.length),
      signatureDistance A.frames[p.1] B.frames[j] =
        .ok (vecDist (sigAt A.frames p.1) (sigAt B.frames j)) := by
    intro j hj
    simp only [signatureDistance, hval, hB j hj, compAdd_abs_sub]
  have ht1 : p.2.1 < B.frames.length := by rw [hps]; exact ht
  refine ⟨p.2.1, p.2.2, vecDist (sigAt A.frames p.1) (sigAt B.frames p.2.1),
    mapFind_of_mem mm p hnd hp, ht1, hdist p.2.1 ht1, ?_⟩
  · intro j hj
    refine ⟨_, hdist j hj, ?_, ?_⟩
    · rw [hps]; exact hmin j hj
    · intro hjt
      rw [hps] at hjt ⊢
      exact hlow j hjt

/-- Witness of C1: a source clip of two one-joint frames against a target clip of two two-joint
frames: `mix` returns a map, with the lowest minimiser under each source index. -/
theorem mix_target_lowest_minimiser_witness :
    (clipOf [scenarioB, scenarioA]).frames ≠ [] ∧
    (∀ fa ∈ (clipOf [oneJoint, otherJoint]).frames, ∀ fb ∈ (clipOf [scenarioB, scenarioA]).frames,
      1 ≤ fa.rotations.length ∧ fa.rotations.length ≤ fb.rotations.length) ∧
    ∃ mm, (clipOf [oneJoint, otherJoint]).mix sampleEnv (clipOf [scenarioB, scenarioA]) = .ok mm ∧
      ∀ (f1 : Nat) (h1 : f1 < (clipOf [oneJoint, otherJoint]).frames.length), ∃ target tMo d,
        mapFind f1 mm = some (target, tMo) ∧
        ∃ (ht : target < (clipOf [scenarioB, scenarioA]).frames.length),
          signatureDistance (clipOf [oneJoint, otherJoint]).frames[f1]
            (clipOf [scenarioB, scenarioA]).frames[target] = .ok d ∧
          ∀ (j : Nat) (hj : j < (clipOf [scenarioB, scenarioA]).frames.length), ∃ dj,
            signatureDistance (clipOf [oneJoint, otherJoint]).frames[f1]
              (clipOf [scenarioB, scenarioA]).frames[j] = .ok dj ∧ d ≤ dj ∧
              (j < target → d < dj) :=
  have hB0 : (clipOf [scenarioB, scenarioA]).frames ≠ [] := by simp [clipOf]
  have hj : ∀ fa ∈ (clipOf [oneJoint, otherJoint]).frames,
      ∀ fb ∈ (clipOf [scenarioB, scenarioA]).frames,
      1 ≤ fa.rotations.length ∧ fa.rotations.length ≤ fb.rotations.length := by decide
  ⟨hB0, hj,
    ((mix_target_lowest_minimiser sampleEnv (clipOf [oneJoint, otherJoint])
      (clipOf [scenarioB, scenarioA]) hB0).2 hj).elim fun mm hmm =>
      ⟨mm, hmm, (mix_target_lowest_minimiser sampleEnv (clipOf [oneJoint, otherJoint])
        (clipOf [scenarioB, scenarioA]) hB0).1 mm hmm⟩⟩

/-- C2, counterexample: with one source frame and an empty target clip, `mix` returns no map:
the lookup `m2->frames.at(0)` of the transition fails. -/
theorem mix_empty_target_fails :
    (clipOf [oneJoint]).mix sampleEnv (clipOf []) = .error .outOfRange := by
  simp [Motion.mix, forRange, forLoop, mixOuter, mixSearch, createTransitionMotion, clipOf,
    Frame.value, oneJoint]

/-- C2, amended: for motions `A` and `B` whose frames share a non-zero joint count, with `B`
non-empty or `A` empty, `A.mix(B)` returns a map with exactly `|A.frames|` entries whose keys
are exactly `0 .. |A.frames| - 1` in ascending order, and every target index is below
`|B.frames|`. -/
theorem mix_keys_and_targets (env : MathEnv) (A B : Motion) (n : Nat) (hn : 1 ≤ n)
    (hA : JointCount n A.frames) (hB : JointCount n B.frames)
    (hne : B.frames ≠ [] ∨ A.frames = []) :
    ∃ mm, A.mix env B = .ok mm ∧ mm.length = A.frames.length ∧
      mm.map Prod.fst = List.range A.frames.length ∧
      ∀ p ∈ mm, p.2.1 < B.frames.length := by
  obtain ⟨mm, hmm, hkeys, htar, _⟩ := mix_winners env A B n hn hA hB hne
  refine ⟨mm, hmm, ?_, hkeys, htar⟩
  have := congrArg List.length hkeys
  simpa using this

/-- Witness of C2 (amended): a clip of two frames mixed with a clip of one frame. -/
theorem mix_keys_and_targets_witness :
    1 ≤ 2 ∧ JointCount 2 (clipOf [scenarioA, scenarioB]).frames ∧
    JointCount 2 (clipOf [scenarioB]).frames ∧
    ((clipOf [scenarioB]).frames ≠ [] ∨ (clipOf [scenarioA, scenarioB]).frames = []) ∧
    ∃ mm, (clipOf [scenarioA, scenarioB]).mix sampleEnv (clipOf [scenarioB]) = .ok mm ∧
      mm.length = (clipOf [scenarioA, scenarioB]).frames.length ∧
      mm.map Prod.fst = List.range (clipOf [scenarioA, scenarioB]).frames.length ∧
      ∀ p ∈ mm, p.2.1 < (clipOf [scenarioB]).frames.length :=
  ⟨by decide, by decide, by decide, Or.inl (by simp [clipOf]),
    mix_keys_and_targets sampleEnv (clipOf [scenarioA, scenarioB]) (clipOf [scenarioB]) 2
      (by decide) (by decide) (by decide) (Or.inl (by simp [clipOf]))⟩

/-- C3, counterexample: in a clip made of the same frame twice, the entry of frame 1 of the
clip mixed with itself has target 0, not 1. -/
theorem mix_self_repeated_frame :
    ∃ mm tMo, (clipOf [oneJoint, oneJoint]).mix sampleEnv (clipOf [oneJoint, oneJoint]) = .ok mm ∧
      mapFind 1 mm = some (0, tMo) := by
  obtain ⟨mm, hmm, _, _, hfind⟩ := mix_winners sampleEnv (clipOf [oneJoint, oneJoint])
    (clipOf [oneJoint, oneJoint]) 1 (le_refl 1) (by decide) (by decide) (Or.inl (by simp [clipOf]))
  obtain ⟨t, tMo, hf, ht, _, hlow⟩ := hfind 1 (by simp [clipOf])
  have ht2 : t < 2 := by simpa [clipOf] using ht
  have ht0 : t = 0 := by
    by_contra hne
    have h1 : t = 1 := by omega
    have := hlow 0 (by omega)
    rw [h1] at this
    simp [sigAt, clipOf, vecDist_self] at this
  subst ht0
  exact ⟨mm, tMo, hmm, hf⟩

/-- C3, amended: for a motion `A` with at least one frame, whose frames share a non-zero joint
count, mixing `A` with itself gives for every frame index `i` an entry whose target `t` is the
lowest index whose frame has the signature of frame `i`: `t <= i`, the signature distance is 0,
no frame before `t` has that signature, and `t = i` when no frame before `i` has it. -/
theorem mix_self_lowest_equal_signature (env : MathEnv) (A : Motion) (n : Nat) (hn : 1 ≤ n)
    (hA : JointCount n A.frames) (hA0 : A.frames ≠ []) :
    ∃ mm, A.mix env A = .ok mm ∧
      ∀ (i : Nat) (hi : i < A.frames.length), ∃ t tMo,
        mapFind i mm = some (t, tMo) ∧ t ≤ i ∧
        ∃ (ht : t < A.frames.length),
          signatureDistance A.frames[i] A.frames[t] = .ok 0 ∧
          A.frames[t].value = A.frames[i].value ∧
          (∀ (j : Nat) (hj : j < A.frames.length), j < t →
            A.frames[j].value ≠ A.frames[i].value) ∧
          ((∀ (j : Nat) (hj : j < A.frames.length), j < i →
            A.frames[j].value ≠ A.frames[i].value) → t = i) := by
  obtain ⟨mm, hmm, _, _, hfind⟩ := mix_winners env A A n hn hA hA (Or.inl hA0)
  refine ⟨mm, hmm, ?_⟩
  intro i hi
  obtain ⟨t, tMo, hf, ht, hmin, hlow⟩ := hfind i hi
  have hr : ∀ (j : Nat) (hj : j < A.frames.length), 1 ≤ A.frames[j].rotations.length := by
    intro j hj
    rw [hA _ (List.getElem_mem hj)]; exact hn
  have hd0 : vecDist (sigAt A.frames i) (sigAt A.frames t) = 0 := by
    have h1 := hmin i hi
    rw [vecDist_self] at h1
    exact le_antisymm h1 (vecDist_nonneg _ _)
  have hle : t ≤ i := by
    by_contra hgt
    have h1 := hlow i (by omega)
    rw [vecDist_self, hd0] at h1
    exact lt_irrefl _ h1
  have hsig : sigAt A.frames i = sigAt A.frames t := vecDist_eq_zero _ _ hd0
  have hval : A.frames[t].value = A.frames[i].value := by
    rw [value_ok _ (hr t ht), value_ok _ (hr i hi), ← sigAt_getElem _ _ ht,
      ← sigAt_getElem _ _ hi, hsig]
  have hbefore : ∀ (j : Nat) (hj : j < A.frames.length), j < t →
      A.frames[j].value ≠ A.frames[i].value := by
    intro j hj hjt hEq
    have h1 := hlow j hjt
    rw [value_ok _ (hr j hj), value_ok _ (hr i hi)] at hEq
    have h2 : sigAt A.frames j = sigAt A.frames i := by
      rw [sigAt_getElem _ _ hj, sigAt_getElem _ _ hi]
      exact Except.ok.inj hEq
    rw [hd0, h2, vecDist_self] at h1
    exact lt_irrefl _ h1
  refine ⟨t, tMo, hf, hle, ht, ?_, hval, hbefore, ?_⟩
  · rw [signatureDistance_ok _ _ (hr i hi) (hr t ht), ← sigAt_getElem _ _ hi,
      ← sigAt_getElem _ _ ht, hd0]
  · intro hnone
    by_contra hne
    exact hnone t ht (by omega) hval

/-- Witness of C3 (amended): a clip of two frames with two joints each. -/
theorem mix_self_lowest_equal_signature_witness :
    1 ≤ 2 ∧ JointCount 2 (clipOf [scenarioA, scenarioB]).frames ∧
    (clipOf [scenarioA, scenarioB]).frames ≠ [] ∧
    ∃ mm, (clipOf [scenarioA, scenarioB]).mix sampleEnv (clipOf [scenarioA, scenarioB]) = .ok mm ∧
      ∀ (i : Nat) (hi : i < (clipOf [scenarioA, scenarioB]).frames.length), ∃ t tMo,
        mapFind i mm = some (t, tMo) ∧ t ≤ i ∧
        ∃ (ht : t < (clipOf [scenarioA, scenarioB]).frames.length),
          signatureDistance (clipOf [scenarioA, scenarioB]).frames[i]
            (clipOf [scenarioA, scenarioB]).frames[t] = .ok 0 ∧
          (clipOf [scenarioA, scenarioB]).frames[t].value =
            (clipOf [scenarioA, scenarioB]).frames[i].value ∧
          (∀ (j : Nat) (hj : j < (clipOf [scenarioA, scenarioB]).frames.length), j < t →
            (clipOf [scenarioA, scenarioB]).frames[j].value ≠
              (clipOf [scenarioA, scenarioB]).frames[i].value) ∧
          ((∀ (j : Nat) (hj : j < (clipOf [scenarioA, scenarioB]).frames.length), j < i →
            (clipOf [scenarioA, scenarioB]).frames[j].value ≠
              (clipOf [scenarioA, scenarioB]).frames[i].value) → t = i) :=
  ⟨by decide, by decide, by simp [clipOf],
    mix_self_lowest_equal_signature sampleEnv (clipOf [scenarioA, scenarioB]) 2 (by decide)
      (by decide) (by simp [clipOf])⟩

/-! ## Claims about `lerpOne` and `lerpTransition` -/

/-- C4: for frames `A` and `B` with equal, non-zero joint counts, `A.lerpOne(B, 0)` has the
translation of `A` and, for every joint index `i >= 1`, rotation `i` of `A`; `A.lerpOne(B, 1)`
has the translation of `B` and, for every joint index `i >= 1`, rotation `i` of `B`. -/
theorem lerpOne_endpoints (env : MathEnv) (A B : Frame)
    (hlen : A.rotations.length = B.rotations.length) (hpos : 1 ≤ A.rotations.length) :
    (∃ out, A.lerpOne env B 0 = .ok out ∧ out.frame.translation = A.translation ∧
      ∀ i, 1 ≤ i → out.frame.rotations[i]? = A.rotations[i]?) ∧
    (∃ out, A.lerpOne env B 1 = .ok out ∧ out.frame.translation = B.translation ∧
      ∀ i, 1 ≤ i → out.frame.rotations[i]? = B.rotations[i]?) := by
  have hA : ∀ i, 1 ≤ i → A.rotations[i]? = A.rotations.tail[i - 1]? := by
    intro i hi
    obtain ⟨k, rfl⟩ : ∃ k, i = k + 1 := ⟨i - 1, by omega⟩
    cases A.rotations <;> simp
  have hB : ∀ i, 1 ≤ i → B.rotations[i]? = B.rotations.tail[i - 1]? := by
    intro i hi
    obtain ⟨k, rfl⟩ : ∃ k, i = k + 1 := ⟨i - 1, by omega⟩
    cases B.rotations <;> simp
  have htl : A.rotations.tail.length = B.rotations.tail.length := by simp [hlen]
  constructor
  · refine ⟨_, lerpOne_eq_ref env A B 0 hlen hpos, ?_, ?_⟩
    · simp [lerpOneRef, blend_zero]
    · intro i hi
      obtain ⟨k, rfl⟩ : ∃ k, i = k + 1 := ⟨i - 1, by omega⟩
      rw [hA _ hi]
      simp [lerpOneRef, zipWith_blend_zero _ _ htl]
  · refine ⟨_, lerpOne_eq_ref env A B 1 hlen hpos, ?_, ?_⟩
    · simp [lerpOneRef, blend_one]
    · intro i hi
      obtain ⟨k, rfl⟩ : ∃ k, i = k + 1 := ⟨i - 1, by omega⟩
      rw [hB _ hi]
      simp [lerpOneRef, zipWith_blend_one _ _ htl]

/-- Witness of C4: the two frames of the scenario of the spec. -/
theorem lerpOne_endpoints_witness :
    scenarioA.rotations.length = scenarioB.rotations.length ∧ 1 ≤ scenarioA.rotations.length ∧
    (∃ out, scenarioA.lerpOne sampleEnv scenarioB 0 = .ok out ∧
      out.frame.translation = scenarioA.translation ∧
      ∀ i, 1 ≤ i → out.frame.rotations[i]? = scenarioA.rotations[i]?) ∧
    (∃ out, scenarioA.lerpOne sampleEnv scenarioB 1 = .ok out ∧
      out.frame.translation = scenarioB.translation ∧
      ∀ i, 1 ≤ i → out.frame.rotations[i]? = scenarioB.rotations[i]?) :=
  ⟨by decide, by decide, lerpOne_endpoints sampleEnv scenarioA scenarioB (by decide) (by decide)⟩

/-- C5: for frames `A` and `B` with the same joint count `n >= 1` and every `alpha`,
`A.lerpOne(B, alpha)` is the reference frame: `n` rotations, translation
`(1 - alpha) * A.translation + alpha * B.translation`, rotation `i >= 1` equal to
`(1 - alpha) * A.rotations[i] + alpha * B.rotations[i]`, and rotation 0 equal to `(0, h, 0)` with
`h` the heading of `A.rotations[0]`, whatever `B` and `alpha` are. On the frames of the scenario
of the spec, `alpha = 1/2` gives translation `(5, 0, 0)` and joint-1 rotation `(15, 0, 0)`. -/
theorem lerpOne_refines_reference (env : MathEnv) (A B : Frame) (alpha : ℚ)
    (hlen : A.rotations.length = B.rotations.length) (hpos : 1 ≤ A.rotations.length) :
    A.lerpOne env B alpha = .ok ⟨lerpOneRef env A B alpha, false⟩ ∧
    (lerpOneRef env A B alpha).rotations.length = A.rotations.length ∧
    (∀ (r0 : Vec3), A.rotations[0]? = some r0 → ∀ (B1 : Frame) (alpha1 : ℚ),
      (lerpOneRef env A B1 alpha1).rotations[0]? = some ⟨0, heading env r0, 0⟩) ∧
    (∃ out, scenarioA.lerpOne env scenarioB (1 / 2) = .ok out ∧
      out.frame.translation = ⟨5, 0, 0⟩ ∧ out.frame.rotations[1]? = some ⟨15, 0, 0⟩) := by
  refine ⟨lerpOne_eq_ref env A B alpha hlen hpos, lerpOneRef_length env A B alpha hlen hpos,
    ?_, ?_⟩
  · intro r0 h0 B1 alpha1
    cases hr : A.rotations with
    | nil => rw [hr] at h0; simp at h0
    | cons a as =>
      rw [hr] at h0
      simp only [List.getElem?_cons_zero, Option.some.injEq] at h0
      simp [lerpOneRef, hr, h0]
  · refine ⟨_, lerpOne_eq_ref env scenarioA scenarioB (1 / 2) (by decide) (by decide), ?_, ?_⟩
    · norm_num [lerpOneRef, blend, scenarioA, scenarioB, Vec3.add, Vec3.smul]
    · norm_num [lerpOneRef, blend, scenarioA, scenarioB, Vec3.add, Vec3.smul]

/-- Witness of C5: the scenario of the spec, at `alpha = 1/2`. -/
theorem lerpOne_refines_reference_witness :
    scenarioA.rotations.length = scenarioB.rotations.length ∧ 1 ≤ scenarioA.rotations.length ∧
    (scenarioA.lerpOne sampleEnv scenarioB (1 / 2) =
      .ok ⟨lerpOneRef sampleEnv scenarioA scenarioB (1 / 2), false⟩ ∧
    (lerpOneRef sampleEnv scenarioA scenarioB (1 / 2)).rotations.length =
      scenarioA.rotations.length ∧
    (∀ (r0 : Vec3), scenarioA.rotations[0]? = some r0 → ∀ (B1 : Frame) (alpha1 : ℚ),
      (lerpOneRef sampleEnv scenarioA B1 alpha1).rotations[0]? =
        some ⟨0, heading sampleEnv r0, 0⟩) ∧
    (∃ out, scenarioA.lerpOne sampleEnv scenarioB (1 / 2) = .ok out ∧
      out.frame.translation = ⟨5, 0, 0⟩ ∧ out.frame.rotations[1]? = some ⟨15, 0, 0⟩)) :=
  ⟨by decide, by decide,
    lerpOne_refines_reference sampleEnv scenarioA scenarioB (1 / 2) (by decide) (by decide)⟩

/-- C6, evaluation at the failing inputs: with one joint against two, `lerpOne` returns a
one-joint frame and reports nothing; with two joints against one, the unchecked read
`f2.rotations[1]` is out of range. -/
theorem lerpOne_mismatch_unreported :
    oneJoint.lerpOne sampleEnv scenarioB (1 / 2) = .ok ⟨⟨⟨5, 0, 0⟩, [⟨0, 1, 0⟩]⟩, false⟩ ∧
    scenarioB.lerpOne sampleEnv oneJoint (1 / 2) = .error .undefinedBehaviour := by
  constructor
  · norm_num [Frame.lerpOne, lerpOneLoop, oneJoint, scenarioB, sampleEnv, Vec3.mix, Vec3.add,
      Vec3.muls, Vec3.smul, unitVecY, unitVecZ]
  · norm_num [Frame.lerpOne, lerpOneLoop, oneJoint, scenarioB, sampleEnv, Vec3.mix, Vec3.add,
      Vec3.muls, Vec3.smul, unitVecY, unitVecZ]

/-! ## The loop counter in binary32 -/

theorem roundEven_eq (y : ℚ) (m : ℤ) (h1 : (m : ℚ) - 1 / 2 < y) (h2 : y < (m : ℚ) + 1 / 2) :
    roundEven y = m := by
  unfold roundEven
  by_cases hym : (m : ℚ) ≤ y
  · have hf : ⌊y⌋ = m := Int.floor_eq_iff.mpr ⟨hym, by linarith⟩
    rw [hf]
    have h3 : y - (m : ℚ) < 1 / 2 := by linarith
    simp only [h3, if_true]
  · have hf : ⌊y⌋ = m - 1 := Int.floor_eq_iff.mpr ⟨by push_cast; linarith, by
      push_cast; linarith⟩
    rw [hf]
    have h3 : ¬ y - ((m - 1 : ℤ) : ℚ) < 1 / 2 := by push_cast; linarith
    have h4 : 1 / 2 < y - ((m - 1 : ℤ) : ℚ) := by push_cast; linarith
    simp only [h3, if_false, h4, if_true]
    ring

/-- The binary32 rounding of a positive `x` in the binade `[2^(p+23), 2^(p+24))`, from the
integer `m` nearest to `x / 2^p`. -/
theorem f32_eq (x y : ℚ) (p m : ℤ) (hx : 0 < x) (h1 : (2 : ℚ) ^ (p + 23) ≤ x)
    (h2 : x < (2 : ℚ) ^ (p + 24)) (hp : -149 ≤ p) (hm1 : (m : ℚ) - 1 / 2 < x / 2 ^ p)
    (hm2 : x / 2 ^ p < (m : ℚ) + 1 / 2) (hy : (m : ℚ) * 2 ^ p = y) : f32 x = y := by
  have hlog : Int.log 2 |x| = p + 23 := by
    rw [abs_of_pos hx]
    apply le_antisymm
    · have := (Int.lt_zpow_iff_log_lt (b := 2) (by norm_num) hx).mp
        (show x < ((2 : ℕ) : ℚ) ^ (p + 23 + 1) by
          rw [show p + 23 + 1 = p + 24 by ring]; exact_mod_cast h2)
      omega
    · exact (Int.zpow_le_iff_le_log (b := 2) (by norm_num) hx).mp (by exact_mod_cast h1)
  have he : max (Int.log 2 |x|) (-126) - 23 = p := by
    rw [hlog, max_eq_left (by omega)]
    ring
  unfold f32
  rw [if_neg hx.ne', he, roundEven_eq _ m hm1 hm2, hy]

theorem lerpTransitionLoop_congr (ar : LoopArith) (env : MathEnv) (A B : Frame) (alphaStep : ℚ)
    (hstep : 1 / 2 ^ 23 ≤ alphaStep ∧ alphaStep < 1) (a b : ℚ) (ha : 0 ≤ a) (hb : 0 ≤ b)
    (acc : List Frame) (h : a = b) :
    lerpTransitionLoop ar env A B alphaStep hstep a ha acc =
      lerpTransitionLoop ar env A B alphaStep hstep b hb acc := by
  subst h
  rfl

/-- The loop of `lerpTransition` on frames that `lerpOne` accepts, along a table of the values
of its counter: each value is the rounded sum of the one before and the increment, all are at
most `1` but `last`, the first above `1`. -/
theorem lerpTransitionLoop_of_chain (ar : LoopArith) (env : MathEnv) (A B : Frame)
    (alphaStep : ℚ) (hstep : 1 / 2 ^ 23 ≤ alphaStep ∧ alphaStep < 1)
    (hgood : ∀ alpha, A.lerpOne env B alpha = .ok ⟨lerpOneRef env A B alpha, false⟩)
    (last : ℚ) (hlast : ¬ last ≤ 1) :
    ∀ (l : List ℚ) (a : ℚ) (h0 : 0 ≤ a) (acc : List Frame),
      List.Chain (fun p q => ar.fl (p + alphaStep) = q) a (l ++ [last]) →
      (∀ x ∈ a :: l, x ≤ 1) →
      lerpTransitionLoop ar env A B alphaStep hstep a h0 acc =
        .ok (acc ++ (a :: l).map (lerpOneRef env A B)) := by
  intro l
  induction l with
  | nil =>
    intro a h0 acc hchain hle
    have ha : a ≤ 1 := hle a (List.mem_cons_self _ _)
    have hnext : ar.fl (a + alphaStep) = last := by
      simpa using hchain
    have hl0 : 0 ≤ last := by linarith [not_le.mp hlast]
    rw [lerpTransitionLoop]
    simp only [ha, dite_true, hgood]
    rw [lerpTransitionLoop_congr ar env A B alphaStep hstep _ last _ hl0 _ hnext,
      lerpTransitionLoop]
    simp [hlast]
  | cons b l ih =>
    intro a h0 acc hchain hle
    have ha : a ≤ 1 := hle a (List.mem_cons_self _ _)
    simp only [List.cons_append, List.chain_cons] at hchain
    have hb1 : b ≤ 1 := hle b (by simp)
    have hstep0 : (0 : ℚ) < 1 / 2 ^ 23 := by norm_num
    have hb0 : 0 ≤ b := by
      rw [← hchain.1]
      have := loopArith_progress ar alphaStep hstep a h0 ha
      linarith [show (0 : ℚ) < 1 / 2 ^ 24 by norm_num]
    rw [lerpTransitionLoop]
    simp only [ha, dite_true, hgood]
    rw [lerpTransitionLoop_congr ar env A B alphaStep hstep _ b _ hb0 _ hchain.1,
      ih b hb0 _ hchain.2 (fun x hx => hle x (List.mem_cons_of_mem _ hx))]
    simp

/-- The run of `lerpTransition` along a table of the values of its loop counter. -/
theorem lerpTransitionIn_of_chain (ar : LoopArith) (env : MathEnv) (A B : Frame) (steps : Nat)
    (hs : 1 ≤ steps)
    (hgood : ∀ alpha, A.lerpOne env B alpha = .ok ⟨lerpOneRef env A B alpha, false⟩)
    (step a last : ℚ) (l : List ℚ) (hstepv : ar.fl (1 / clamp (steps : ℚ) 2 100) = step)
    (ha : ar.fl (1 / 10) = a)
    (hchain : List.Chain (fun p q => ar.fl (p + step) = q) a (l ++ [last]))
    (hle : ∀ x ∈ a :: l, x ≤ 1) (hlast : ¬ last ≤ 1) :
    A.lerpTransitionIn ar env B steps = .ok ((a :: l).map (lerpOneRef env A B)) := by
  subst hstepv ha
  rw [lerpTransitionIn_unfold ar env A B steps hs,
    lerpTransitionLoop_of_chain ar env A B _ _ hgood last hlast l _ _ [] hchain hle]
  simp

theorem f32_tenth : binary32.fl (1 / 10) = (13421773 / 134217728 : ℚ) :=
  f32_eq ((1 / 10 : ℚ)) (13421773 / 134217728 : ℚ) (-27) 13421773
      (by norm_num) (by norm_num) (by norm_num) (by norm_num)
      (by norm_num) (by norm_num) (by norm_num)

theorem f32_hundredth : binary32.fl (1 / 100) = (5368709 / 536870912 : ℚ) :=
  f32_eq ((1 / 100 : ℚ)) (5368709 / 536870912 : ℚ) (-30) 10737418
      (by norm_num) (by norm_num) (by norm_num) (by norm_num)
      (by norm_num) (by norm_num) (by norm_num)

/-- The table `alphas10` is the run of the loop counter in binary32 for `steps = 10`: each value is
the rounded sum of the one before and the increment, and the value after the last is above `1`. -/
theorem alphas10_chain :
    List.Chain (fun p q => binary32.fl (p + (13421773 / 134217728 : ℚ)) = q)
      (13421773 / 134217728 : ℚ) (alphas10.tail ++ [(8388609 / 8388608 : ℚ)]) := by
  have c0 : binary32.fl ((13421773 / 134217728 : ℚ) + (13421773 / 134217728 : ℚ)) =
      (13421773 / 67108864 : ℚ) :=
    f32_eq ((13421773 / 134217728 : ℚ) + (13421773 / 134217728 : ℚ)) (13421773 / 67108864 : ℚ) (-26) 13421773
      (by norm_num) (by norm_num) (by norm_num) (by norm_num)
      (by norm_num) (by norm_num) (by norm_num)
  have c1 : binary32.fl ((13421773 / 67108864 : ℚ) + (13421773 / 134217728 : ℚ)) =
      (5033165 / 16777216 : ℚ) :=
    f32_eq ((13421773 / 67108864 : ℚ) + (13421773 / 134217728 : ℚ)) (5033165 / 16777216 : ℚ) (-25) 10066330
      (by norm_num) (by norm_num) (by norm_num) (by norm_num)
      (by norm_num) (by norm_num) (by norm_num)
  have c2 : binary32.fl ((5033165 / 16777216 : ℚ) + (13421773 / 134217728 : ℚ)) =
      (13421773 / 33554432 : ℚ) :=
    f32_eq ((5033165 / 16777216 : ℚ) + (13421773 / 134217728 : ℚ)) (13421773 / 33554432 : ℚ) (-25) 13421773
      (by norm_num) (by norm_num) (by norm_num) (by norm_num)
      (by norm_num) (by norm_num) (by norm_num)
  have c3 : binary32.fl ((13421773 / 33554432 : ℚ) + (13421773 / 134217728 : ℚ)) = (1 / 2 : ℚ) :=
    f32_eq ((13421773 / 33554432 : ℚ) + (13421773 / 134217728 : ℚ)) (1 / 2 : ℚ) (-24) 8388608
      (by norm_num) (by norm_num) (by norm_num) (by norm_num)
      (by norm_num) (by norm_num) (by norm_num)
  have c4 : binary32.fl ((1 / 2 : ℚ) + (13421773 / 134217728 : ℚ)) = (5033165 / 8388608 : ℚ) :=
    f32_eq ((1 / 2 : ℚ) + (13421773 / 134217728 : ℚ)) (5033165 / 8388608 : ℚ) (-24) 10066330
      (by norm_num) (by norm_num) (by norm_num) (by norm_num)
      (by norm_num) (by norm_num) (by norm_num)
  have c5 : binary32.fl ((5033165 / 8388608 : ℚ) + (13421773 / 134217728 : ℚ)) =
      (2936013 / 4194304 : ℚ) :=
    f32_eq ((5033165 / 8388608 : ℚ) + (13421773 / 134217728 : ℚ)) (2936013 / 4194304 : ℚ) (-24) 11744052
      (by norm_num) (by norm_num) (by norm_num) (by norm_num)
      (by norm_num) (by norm_num) (by norm_num)
  have c6 : binary32.fl ((2936013 / 4194304 : ℚ) + (13421773 / 134217728 : ℚ)) =
      (6710887 / 8388608 : ℚ) :=
    f32_eq ((2936013 / 4194304 : ℚ) + (13421773 / 134217728 : ℚ)) (6710887 / 8388608 : ℚ) (-24) 13421774
      (by norm_num) (by norm_num) (by norm_num) (by norm_num)
      (by norm_num) (by norm_num) (by norm_num)
  have c7 : binary32.fl ((6710887 / 8388608 : ℚ) + (13421773 / 134217728 : ℚ)) =
      (1887437 / 2097152 : ℚ) :=
    f32_eq ((6710887 / 8388608 : ℚ) + (13421773 / 134217728 : ℚ)) (1887437 / 2097152 : ℚ) (-24) 15099496
      (by norm_num) (by norm_num) (by norm_num) (by norm_num)
      (by norm_num) (by norm_num) (by norm_num)
  have c8 : binary32.fl ((1887437 / 2097152 : ℚ) + (13421773 / 134217728 : ℚ)) =
      (8388609 / 8388608 : ℚ) :=
    f32_eq ((1887437 / 2097152 : ℚ) + (13421773 / 134217728 : ℚ)) (8388609 / 8388608 : ℚ) (-23) 8388609
      (by norm_num) (by norm_num) (by norm_num) (by norm_num)
      (by norm_num) (by norm_num) (by norm_num)
  exact (.cons c0 (.cons c1 (.cons c2 (.cons c3 (.cons c4 (.cons c5 (.cons c6 (.cons c7 (.cons c8
    .nil)))))))))

/-- The table `alphas100` is the run of the loop counter in binary32 for `steps = 100`: each value is
the rounded sum of the one before and the increment, and the value after the last is above `1`. -/
theorem alphas100_chain :
    List.Chain (fun p q => binary32.fl (p + (5368709 / 536870912 : ℚ)) = q)
      (13421773 / 134217728 : ℚ) (alphas100.tail ++ [(8472489 / 8388608 : ℚ)]) := by
  have c0 : binary32.fl ((13421773 / 134217728 : ℚ) + (5368709 / 536870912 : ℚ)) =
      (7381975 / 67108864 : ℚ) :=
    f32_eq ((13421773 / 134217728 : ℚ) + (5368709 / 536870912 : ℚ)) (7381975 / 67108864 : ℚ) (-27) 14763950
      (by norm_num) (by norm_num) (by norm_num) (by norm_num)
      (by norm_num) (by norm_num) (by norm_num)
  have c1 : binary32.fl ((7381975 / 67108864 : ℚ) + (5368709 / 536870912 : ℚ)) =
      (16106127 / 134217728 : ℚ) :=
    f32_eq ((7381975 / 67108864 : ℚ) + (5368709 / 536870912 : ℚ)) (16106127 / 134217728 : ℚ) (-27) 16106127
      (by norm_num) (by norm_num) (by norm_num) (by norm_num)
      (by norm_num) (by norm_num) (by norm_num)
  have c2 : binary32.fl ((16106127 / 134217728 : ℚ) + (5368709 / 536870912 : ℚ)) =
      (1090519 / 8388608 : ℚ) :=
    f32_eq ((16106127 / 134217728 : ℚ) + (5368709 / 536870912 : ℚ)) (1090519 / 8388608 : ℚ) (-26) 8724152
      (by norm_num) (by norm_num) (by norm_num) (by norm_num)
      (by norm_num) (by norm_num) (by norm_num)
  have c3 : binary32.fl ((1090519 / 8388608 : ℚ) + (5368709 / 536870912 : ℚ)) =
      (9395241 / 67108864 : ℚ) :=
    f32_eq ((1090519 / 8388608 : ℚ) + (5368709 / 536870912 : ℚ)) (9395241 / 67108864 : ℚ) (-26) 9395241
      (by norm_num) (by norm_num) (by norm_num) (by norm_num)
      (by norm_num) (by norm_num) (by norm_num)
  have c4 : binary32.fl ((9395241 / 67108864 : ℚ) + (5368709 / 536870912 : ℚ)) =
      (5033165 / 33554432 : ℚ) :=
    f32_eq ((9395241 / 67108864 : ℚ) + (5368709 / 536870912 : ℚ)) (5033165 / 33554432 : ℚ) (-26) 10066330
      (by norm_num) (by norm_num) (by norm_num) (by norm_num)
      (by norm_num) (by norm_num) (by norm_num)
  have c5 : binary32.fl ((5033165 / 33554432 : ℚ) + (5368709 / 536870912 : ℚ)) =
      (10737419 / 67108864 : ℚ) :=
    f32_eq ((5033165 / 33554432 : ℚ) + (5368709 / 536870912 : ℚ)) (10737419 / 67108864 : ℚ) (-26) 10737419
      (by norm_num) (by norm_num) (by norm_num) (by norm_num)
      (by norm_num) (by norm_num) (by norm_num)
  have c6 : binary32.fl ((10737419 / 67108864 : ℚ) + (5368709 / 536870912 : ℚ)) =
      (2852127 / 16777216 : ℚ) :=
    f32_eq ((10737419 / 67108864 : ℚ) + (5368709 / 536870912 : ℚ)) (2852127 / 16777216 : ℚ) (-26) 11408508
      (by norm_num) (by norm_num) (by norm_num) (by norm_num)
      (by norm_num) (by norm_num) (by norm_num)
  have c7 : binary32.fl ((2852127 / 16777216 : ℚ) + (5368709 / 536870912 : ℚ)) =
      (12079597 / 67108864 : ℚ) :=
    f32_eq ((2852127 / 16777216 : ℚ) + (5368709 / 536870912 : ℚ)) (12079597 / 67108864 : ℚ) (-26) 12079597
      (by norm_num) (by norm_num) (by norm_num) (by norm_num)
      (by norm_num) (by norm_num) (by norm_num)
  have c8 : binary32.fl ((12079597 / 67108864 : ℚ) + (5368709 / 536870912 : ℚ)) =
      (6375343 / 33554432 : ℚ) :=
    f32_eq ((12079597 / 67108864 : ℚ) + (5368709 / 536870912 : ℚ)) (6375343 / 33554432 : ℚ) (-26) 12750686
      (by norm_num) (by norm_num) (by norm_num) (by norm_num)
      (by norm_num) (by norm_num) (by norm_num)
  have c9 : binary32.fl ((6375343 / 33554432 : ℚ) + (5368709 / 536870912 : ℚ)) =
      (13421775 / 67108864 : ℚ) :=
    f32_eq ((6375343 / 33554432 : ℚ) + (5368709 / 536870912 : ℚ)) (13421775 / 67108864 : ℚ) (-26) 13421775
      (by norm_num) (by norm_num) (by norm_num) (by norm_num)
      (by norm_num) (by norm_num) (by norm_num)
  have c10 : binary32.fl ((13421775 / 67108864 : ℚ) + (5368709 / 536870912 : ℚ)) =
      (220201 / 1048576 : ℚ) :=
    f32_eq ((13421775 / 67108864 : ℚ) + (5368709 / 536870912 : ℚ)) (220201 / 1048576 : ℚ) (-26) 14092864
      (by norm_num) (by norm_num) (by norm_num) (by norm_num)
      (by norm_num) (by norm_num) (by norm_num)
  have c11 : binary32.fl ((220201 / 1048576 : ℚ) + (5368709 / 536870912 : ℚ)) =
      (14763953 / 67108864 : ℚ) :=
    f32_eq ((220201 / 1048576 : ℚ) + (5368709 / 536870912 : ℚ)) (14763953 / 67108864 : ℚ) (-26) 14763953
      (by norm_num) (by norm_num) (by norm_num) (by norm_num)
      (by norm_num) (by norm_num) (by norm_num)
  have c12 : binary32.fl ((14763953 / 67108864 : ℚ) + (5368709 / 536870912 : ℚ)) =
      (7717521 / 33554432 : ℚ) :=
    f32_eq ((14763953 / 67108864 : ℚ) + (5368709 / 536870912 : ℚ)) (7717521 / 33554432 : ℚ) (-26) 15435042
      (by norm_num) (by norm_num) (by norm_num) (by norm_num)
      (by norm_num) (by norm_num) (by norm_num)
  have c13 : binary32.fl ((7717521 / 33554432 : ℚ) + (5368709 / 536870912 : ℚ)) =
      (16106131 / 67108864 : ℚ) :=
    f32_eq ((7717521 / 33554432 : ℚ) + (5368709 / 536870912 : ℚ)) (16106131 / 67108864 : ℚ) (-26) 16106131
      (by norm_num) (by norm_num) (by norm_num) (by norm_num)
      (by norm_num) (by norm_num) (by norm_num)
  have c14 : binary32.fl ((16106131 / 67108864 : ℚ) + (5368709 / 536870912 : ℚ)) =
      (4194305 / 16777216 : ℚ) :=
    f32_eq ((16106131 / 67108864 : ℚ) + (5368709 / 536870912 : ℚ)) (4194305 / 16777216 : ℚ) (-25) 8388610
      (by norm_num) (by norm_num) (by norm_num) (by norm_num)
      (by norm_num) (by norm_num) (by norm_num)
  have c15 : binary32.fl ((4194305 / 16777216 : ℚ) + (5368709 / 536870912 : ℚ)) =
      (4362077 / 16777216 : ℚ) :=
    f32_eq ((4194305 / 16777216 : ℚ) + (5368709 / 536870912 : ℚ)) (4362077 / 16777216 : ℚ) (-25) 8724154
      (by norm_num) (by norm_num) (by norm_num) (by norm_num)
      (by norm_num) (by norm_num) (by norm_num)
  have c16 : binary32.fl ((4362077 / 16777216 : ℚ) + (5368709 / 536870912 : ℚ)) =
      (4529849 / 16777216 : ℚ) :=
    f32_eq ((4362077 / 16777216 : ℚ) + (5368709 / 536870912 : ℚ)) (4529849 / 16777216 : ℚ) (-25) 9059698
      (by norm_num) (by norm_num) (by norm_num) (by norm_num)
      (by norm_num) (by norm_num) (by norm_num)
  have c17 : binary32.fl ((4529849 / 16777216 : ℚ) + (5368709 / 536870912 : ℚ)) =
      (4697621 / 16777216 : ℚ) :=
    f32_eq ((4529849 / 16777216 : ℚ) + (5368709 / 536870912 : ℚ)) (4697621 / 16777216 : ℚ) (-25) 9395242
      (by norm_num) (by norm_num) (by norm_num) (by norm_num)
      (by norm_num) (by norm_num) (by norm_num)
  have c18 : binary32.fl ((4697621 / 16777216 : ℚ) + (5368709 / 536870912 : ℚ)) =
      (4865393 / 16777216 : ℚ) :=
    f32_eq ((4697621 / 16777216 : ℚ) + (5368709 / 536870912 : ℚ)) (4865393 / 16777216 : ℚ) (-25) 9730786
      (by norm_num) (by norm_num) (by norm_num) (by norm_num)
      (by norm_num) (by norm_num) (by norm_num)
  have c19 : binary32.fl ((4865393 / 16777216 : ℚ) + (5368709 / 536870912 : ℚ)) =
      (5033165 / 16777216 : ℚ) :=
    f32_eq ((4865393 / 16777216 : ℚ) + (5368709 / 536870912 : ℚ)) (5033165 / 16777216 : ℚ) (-25) 10066330
      (by norm_num) (by norm_num) (by norm_num) (by norm_num)
      (by norm_num) (by norm_num) (by norm_num)
  have c20 : binary32.fl ((5033165 / 16777216 : ℚ) + (5368709 / 536870912 : ℚ)) =
      (5200937 / 16777216 : ℚ) :=
    f32_eq ((5033165 / 16777216 : ℚ) + (5368709 / 536870912 : ℚ)) (5200937 / 16777216 : ℚ) (-25) 10401874
      (by norm_num) (by norm_num) (by norm_num) (by norm_num)
      (by norm_num) (by norm_num) (by norm_num)
  have c21 : binary32.fl ((5200937 / 16777216 : ℚ) + (5368709 / 536870912 : ℚ)) =
      (5368709 / 16777216 : ℚ) :=
    f32_eq ((5200937 / 16777216 : ℚ) + (5368709 / 536870912 : ℚ)) (5368709 / 16777216 : ℚ) (-25) 10737418
      (by norm_num) (by norm_num) (by norm_num) (by norm_num)
      (by norm_num) (by norm_num) (by norm_num)
  have c22 : binary32.fl ((5368709 / 16777216 : ℚ) + (5368709 / 536870912 : ℚ)) =
      (5536481 / 16777216 : ℚ) :=
    f32_eq ((5368709 / 16777216 : ℚ) + (5368709 / 536870912 : ℚ)) (5536481 / 16777216 : ℚ) (-25) 11072962
      (by norm_num) (by norm_num) (by norm_num) (by norm_num)
      (by norm_num) (by norm_num) (by norm_num)
  have c23 : binary32.fl ((5536481 / 16777216 : ℚ) + (5368709 / 536870912 : ℚ)) =
      (5704253 / 16777216 : ℚ) :=
    f32_eq ((5536481 / 16777216 : ℚ) + (5368709 / 536870912 : ℚ)) (5704253 / 16777216 : ℚ) (-25) 11408506
      (by norm_num) (by norm_num) (by norm_num) (by norm_num)
      (by norm_num) (by norm_num) (by norm_num)
  have c24 : binary32.fl ((5704253 / 16777216 : ℚ) + (5368709 / 536870912 : ℚ)) =
      (5872025 / 16777216 : ℚ) :=
    f32_eq ((5704253 / 16777216 : ℚ) + (5368709 / 536870912 : ℚ)) (5872025 / 16777216 : ℚ) (-25) 11744050
      (by norm_num) (by norm_num) (by norm_num) (by norm_num)
      (by norm_num) (by norm_num) (by norm_num)
  have c25 : binary32.fl ((5872025 / 16777216 : ℚ) + (5368709 / 536870912 : ℚ)) =
      (6039797 / 16777216 : ℚ) :=
    f32_eq ((5872025 / 16777216 : ℚ) + (5368709 / 536870912 : ℚ)) (6039797 / 16777216 : ℚ) (-25) 12079594
      (by norm_num) (by norm_num) (by norm_num) (by norm_num)
      (by norm_num) (by norm_num) (by norm_num)
  have c26 : binary32.fl ((6039797 / 16777216 : ℚ) + (5368709 / 536870912 : ℚ)) =
      (6207569 / 16777216 : ℚ) :=
    f32_eq ((6039797 / 16777216 : ℚ) + (5368709 / 536870912 : ℚ)) (6207569 / 16777216 : ℚ) (-25) 12415138
      (by norm_num) (by norm_num) (by norm_num) (by norm_num)
      (by norm_num) (by norm_num) (by norm_num)
  have c27 : binary32.fl ((6207569 / 16777216 : ℚ) + (5368709 / 536870912 : ℚ)) =
      (6375341 / 16777216 : ℚ) :=
    f32_eq ((6207569 / 16777216 : ℚ) + (5368709 / 536870912 : ℚ)) (6375341 / 16777216 : ℚ) (-25) 12750682
      (by norm_num) (by norm_num) (by norm_num) (by norm_num)
      (by norm_num) (by norm_num) (by norm_num)
  have c28 : binary32.fl ((6375341 / 16777216 : ℚ) + (5368709 / 536870912 : ℚ)) =
      (6543113 / 16777216 : ℚ) :=
    f32_eq ((6375341 / 16777216 : ℚ) + (5368709 / 536870912 : ℚ)) (6543113 / 16777216 : ℚ) (-25) 13086226
      (by norm_num) (by norm_num) (by norm_num) (by norm_num)
      (by norm_num) (by norm_num) (by norm_num)
  have c29 : binary32.fl ((6543113 / 16777216 : ℚ) + (5368709 / 536870912 : ℚ)) =
      (6710885 / 16777216 : ℚ) :=
    f32_eq ((6543113 / 16777216 : ℚ) + (5368709 / 536870912 : ℚ)) (6710885 / 16777216 : ℚ) (-25) 13421770
      (by norm_num) (by norm_num) (by norm_num) (by norm_num)
      (by norm_num) (by norm_num) (by norm_num)
  have c30 : binary32.fl ((6710885 / 16777216 : ℚ) + (5368709 / 536870912 : ℚ)) =
      (6878657 / 16777216 : ℚ) :=
    f32_eq ((6710885 / 16777216 : ℚ) + (5368709 / 536870912 : ℚ)) (6878657 / 16777216 : ℚ) (-25) 13757314
      (by norm_num) (by norm_num) (by norm_num) (by norm_num)
      (by norm_num) (by norm_num) (by norm_num)
  have c31 : binary32.fl ((6878657 / 16777216 : ℚ) + (5368709 / 536870912 : ℚ)) =
      (7046429 / 16777216 : ℚ) :=
    f32_eq ((6878657 / 16777216 : ℚ) + (5368709 / 536870912 : ℚ)) (7046429 / 16777216 : ℚ) (-25) 14092858
      (by norm_num) (by norm_num) (by norm_num) (by norm_num)
      (by norm_num) (by norm_num) (by norm_num)
  have c32 : binary32.fl ((7046429 / 16777216 : ℚ) + (5368709 / 536870912 : ℚ)) =
      (7214201 / 16777216 : ℚ) :=
    f32_eq ((7046429 / 16777216 : ℚ) + (5368709 / 536870912 : ℚ)) (7214201 / 16777216 : ℚ) (-25) 14428402
      (by norm_num) (by norm_num) (by norm_num) (by norm_num)
      (by norm_num) (by norm_num) (by norm_num)
  have c33 : binary32.fl ((7214201 / 16777216 : ℚ) + (5368709 / 536870912 : ℚ)) =
      (7381973 / 16777216 : ℚ) :=
    f32_eq ((7214201 / 16777216 : ℚ) + (5368709 / 536870912 : ℚ)) (7381973 / 16777216 : ℚ) (-25) 14763946
      (by norm_num) (by norm_num) (by norm_num) (by norm_num)
      (by norm_num) (by norm_num) (by norm_num)
  have c34 : binary32.fl ((7381973 / 16777216 : ℚ) + (5368709 / 536870912 : ℚ)) =
      (7549745 / 16777216 : ℚ) :=
    f32_eq ((7381973 / 16777216 : ℚ) + (5368709 / 536870912 : ℚ)) (7549745 / 16777216 : ℚ) (-25) 15099490
      (by norm_num) (by norm_num) (by norm_num) (by norm_num)
      (by norm_num) (by norm_num) (by norm_num)
  have c35 : binary32.fl ((7549745 / 16777216 : ℚ) + (5368709 / 536870912 : ℚ)) =
      (7717517 / 16777216 : ℚ) :=
    f32_eq ((7549745 / 16777216 : ℚ) + (5368709 / 536870912 : ℚ)) (7717517 / 16777216 : ℚ) (-25) 15435034
      (by norm_num) (by norm_num) (by norm_num) (by norm_num)
      (by norm_num) (by norm_num) (by norm_num)
  have c36 : binary32.fl ((7717517 / 16777216 : ℚ) + (5368709 / 536870912 : ℚ)) =
      (7885289 / 16777216 : ℚ) :=
    f32_eq ((7717517 / 16777216 : ℚ) + (5368709 / 536870912 : ℚ)) (7885289 / 16777216 : ℚ) (-25) 15770578
      (by norm_num) (by norm_num) (by norm_num) (by norm_num)
      (by norm_num) (by norm_num) (by norm_num)
  have c37 : binary32.fl ((7885289 / 16777216 : ℚ) + (5368709 / 536870912 : ℚ)) =
      (8053061 / 16777216 : ℚ) :=
    f32_eq ((7885289 / 16777216 : ℚ) + (5368709 / 536870912 : ℚ)) (8053061 / 16777216 : ℚ) (-25) 16106122
      (by norm_num) (by norm_num) (by norm_num) (by norm_num)
      (by norm_num) (by norm_num) (by norm_num)
  have c38 : binary32.fl ((8053061 / 16777216 : ℚ) + (5368709 / 536870912 : ℚ)) =
      (8220833 / 16777216 : ℚ) :=
    f32_eq ((8053061 / 16777216 : ℚ) + (5368709 / 536870912 : ℚ)) (8220833 / 16777216 : ℚ) (-25) 16441666
      (by norm_num) (by norm_num) (by norm_num) (by norm_num)
      (by norm_num) (by norm_num) (by norm_num)
  have c39 : binary32.fl ((8220833 / 16777216 : ℚ) + (5368709 / 536870912 : ℚ)) =
      (8388605 / 16777216 : ℚ) :=
    f32_eq ((8220833 / 16777216 : ℚ) + (5368709 / 536870912 : ℚ)) (8388605 / 16777216 : ℚ) (-25) 16777210
      (by norm_num) (by norm_num) (by norm_num) (by norm_num)
      (by norm_num) (by norm_num) (by norm_num)
  have c40 : binary32.fl ((8388605 / 16777216 : ℚ) + (5368709 / 536870912 : ℚ)) =
      (8556377 / 16777216 : ℚ) :=
    f32_eq ((8388605 / 16777216 : ℚ) + (5368709 / 536870912 : ℚ)) (8556377 / 16777216 : ℚ) (-24) 8556377
      (by norm_num) (by norm_num) (by norm_num) (by norm_num)
      (by norm_num) (by norm_num) (by norm_num)
  have c41 : binary32.fl ((8556377 / 16777216 : ℚ) + (5368709 / 536870912 : ℚ)) =
      (8724149 / 16777216 : ℚ) :=
    f32_eq ((8556377 / 16777216 : ℚ) + (5368709 / 536870912 : ℚ)) (8724149 / 16777216 : ℚ) (-24) 8724149
      (by norm_num) (by norm_num) (by norm_num) (by norm_num)
      (by norm_num) (by norm_num) (by norm_num)
  have c42 : binary32.fl ((8724149 / 16777216 : ℚ) + (5368709 / 536870912 : ℚ)) =
      (8891921 / 16777216 : ℚ) :=
    f32_eq ((8724149 / 16777216 : ℚ) + (5368709 / 536870912 : ℚ)) (8891921 / 16777216 : ℚ) (-24) 8891921
      (by norm_num) (by norm_num) (by norm_num) (by norm_num)
      (by norm_num) (by norm_num) (by norm_num)
  have c43 : binary32.fl ((8891921 / 16777216 : ℚ) + (5368709 / 536870912 : ℚ)) =
      (9059693 / 16777216 : ℚ) :=
    f32_eq ((8891921 / 16777216 : ℚ) + (5368709 / 536870912 : ℚ)) (9059693 / 16777216 : ℚ) (-24) 9059693
      (by norm_num) (by norm_num) (by norm_num) (by norm_num)
      (by norm_num) (by norm_num) (by norm_num)
  have c44 : binary32.fl ((9059693 / 16777216 : ℚ) + (5368709 / 536870912 : ℚ)) =
      (9227465 / 16777216 : ℚ) :=
    f32_eq ((9059693 / 16777216 : ℚ) + (5368709 / 536870912 : ℚ)) (9227465 / 16777216 : ℚ) (-24) 9227465
      (by norm_num) (by norm_num) (by norm_num) (by norm_num)
      (by norm_num) (by norm_num) (by norm_num)
  have c45 : binary32.fl ((9227465 / 16777216 : ℚ) + (5368709 / 536870912 : ℚ)) =
      (9395237 / 16777216 : ℚ) :=
    f32_eq ((9227465 / 16777216 : ℚ) + (5368709 / 536870912 : ℚ)) (9395237 / 16777216 : ℚ) (-24) 9395237
      (by norm_num) (by norm_num) (by norm_num) (by norm_num)
      (by norm_num) (by norm_num) (by norm_num)
  have c46 : binary32.fl ((9395237 / 16777216 : ℚ) + (5368709 / 536870912 : ℚ)) =
      (9563009 / 16777216 : ℚ) :=
    f32_eq ((9395237 / 16777216 : ℚ) + (5368709 / 536870912 : ℚ)) (9563009 / 16777216 : ℚ) (-24) 9563009
      (by norm_num) (by norm_num) (by norm_num) (by norm_num)
      (by norm_num) (by norm_num) (by norm_num)
  have c47 : binary32.fl ((9563009 / 16777216 : ℚ) + (5368709 / 536870912 : ℚ)) =
      (9730781 / 16777216 : ℚ) :=
    f32_eq ((9563009 / 16777216 : ℚ) + (5368709 / 536870912 : ℚ)) (9730781 / 16777216 : ℚ) (-24) 9730781
      (by norm_num) (by norm_num) (by norm_num) (by norm_num)
      (by norm_num) (by norm_num) (by norm_num)
  have c48 : binary32.fl ((9730781 / 16777216 : ℚ) + (5368709 / 536870912 : ℚ)) =
      (9898553 / 16777216 : ℚ) :=
    f32_eq ((9730781 / 16777216 : ℚ) + (5368709 / 536870912 : ℚ)) (9898553 / 16777216 : ℚ) (-24) 9898553
      (by norm_num) (by norm_num) (by norm_num) (by norm_num)
      (by norm_num) (by norm_num) (by norm_num)
  have c49 : binary32.fl ((9898553 / 16777216 : ℚ) + (5368709 / 536870912 : ℚ)) =
      (10066325 / 16777216 : ℚ) :=
    f32_eq ((9898553 / 16777216 : ℚ) + (5368709 / 536870912 : ℚ)) (10066325 / 16777216 : ℚ) (-24) 10066325
      (by norm_num) (by norm_num) (by norm_num) (by norm_num)
      (by norm_num) (by norm_num) (by norm_num)
  have c50 : binary32.fl ((10066325 / 16777216 : ℚ) + (5368709 / 536870912 : ℚ)) =
      (10234097 / 16777216 : ℚ) :=
    f32_eq ((10066325 / 16777216 : ℚ) + (5368709 / 536870912 : ℚ)) (10234097 / 16777216 : ℚ) (-24) 10234097
      (by norm_num) (by norm_num) (by norm_num) (by norm_num)
      (by norm_num) (by norm_num) (by norm_num)
  have c51 : binary32.fl ((10234097 / 16777216 : ℚ) + (5368709 / 536870912 : ℚ)) =
      (10401869 / 16777216 : ℚ) :=
    f32_eq ((10234097 / 16777216 : ℚ) + (5368709 / 536870912 : ℚ)) (10401869 / 16777216 : ℚ) (-24) 10401869
      (by norm_num) (by norm_num) (by norm_num) (by norm_num)
      (by norm_num) (by norm_num) (by norm_num)
  have c52 : binary32.fl ((10401869 / 16777216 : ℚ) + (5368709 / 536870912 : ℚ)) =
      (10569641 / 16777216 : ℚ) :=
    f32_eq ((10401869 / 16777216 : ℚ) + (5368709 / 536870912 : ℚ)) (10569641 / 16777216 : ℚ) (-24) 10569641
      (by norm_num) (by norm_num) (by norm_num) (by norm_num)
      (by norm_num) (by norm_num) (by norm_num)
  have c53 : binary32.fl ((10569641 / 16777216 : ℚ) + (5368709 / 536870912 : ℚ)) =
      (10737413 / 16777216 : ℚ) :=
    f32_eq ((10569641 / 16777216 : ℚ) + (5368709 / 536870912 : ℚ)) (10737413 / 16777216 : ℚ) (-24) 10737413
      (by norm_num) (by norm_num) (by norm_num) (by norm_num)
      (by norm_num) (by norm_num) (by norm_num)
  have c54 : binary32.fl ((10737413 / 16777216 : ℚ) + (5368709 / 536870912 : ℚ)) =
      (10905185 / 16777216 : ℚ) :=
    f32_eq ((10737413 / 16777216 : ℚ) + (5368709 / 536870912 : ℚ)) (10905185 / 16777216 : ℚ) (-24) 10905185
      (by norm_num) (by norm_num) (by norm_num) (by norm_num)
      (by norm_num) (by norm_num) (by norm_num)
  have c55 : binary32.fl ((10905185 / 16777216 : ℚ) + (5368709 / 536870912 : ℚ)) =
      (11072957 / 16777216 : ℚ) :=
    f32_eq ((10905185 / 16777216 : ℚ) + (5368709 / 536870912 : ℚ)) (11072957 / 16777216 : ℚ) (-24) 11072957
      (by norm_num) (by norm_num) (by norm_num) (by norm_num)
      (by norm_num) (by norm_num) (by norm_num)
  have c56 : binary32.fl ((11072957 / 16777216 : ℚ) + (5368709 / 536870912 : ℚ)) =
      (11240729 / 16777216 : ℚ) :=
    f32_eq ((11072957 / 16777216 : ℚ) + (5368709 / 536870912 : ℚ)) (11240729 / 16777216 : ℚ) (-24) 11240729
      (by norm_num) (by norm_num) (by norm_num) (by norm_num)
      (by norm_num) (by norm_num) (by norm_num)
  have c57 : binary32.fl ((11240729 / 16777216 : ℚ) + (5368709 / 536870912 : ℚ)) =
      (11408501 / 16777216 : ℚ) :=
    f32_eq ((11240729 / 16777216 : ℚ) + (5368709 / 536870912 : ℚ)) (11408501 / 16777216 : ℚ) (-24) 11408501
      (by norm_num) (by norm_num) (by norm_num) (by norm_num)
      (by norm_num) (by norm_num) (by norm_num)
  have c58 : binary32.fl ((11408501 / 16777216 : ℚ) + (5368709 / 536870912 : ℚ)) =
      (11576273 / 16777216 : ℚ) :=
    f32_eq ((11408501 / 16777216 : ℚ) + (5368709 / 536870912 : ℚ)) (11576273 / 16777216 : ℚ) (-24) 11576273
      (by norm_num) (by norm_num) (by norm_num) (by norm_num)
      (by norm_num) (by norm_num) (by norm_num)
  have c59 : binary32.fl ((11576273 / 16777216 : ℚ) + (5368709 / 536870912 : ℚ)) =
      (11744045 / 16777216 : ℚ) :=
    f32_eq ((11576273 / 16777216 : ℚ) + (5368709 / 536870912 : ℚ)) (11744045 / 16777216 : ℚ) (-24) 11744045
      (by norm_num) (by norm_num) (by norm_num) (by norm_num)
      (by norm_num) (by norm_num) (by norm_num)
  have c60 : binary32.fl ((11744045 / 16777216 : ℚ) + (5368709 / 536870912 : ℚ)) =
      (11911817 / 16777216 : ℚ) :=
    f32_eq ((11744045 / 16777216 : ℚ) + (5368709 / 536870912 : ℚ)) (11911817 / 16777216 : ℚ) (-24) 11911817
      (by norm_num) (by norm_num) (by norm_num) (by norm_num)
      (by norm_num) (by norm_num) (by norm_num)
  have c61 : binary32.fl ((11911817 / 16777216 : ℚ) + (5368709 / 536870912 : ℚ)) =
      (12079589 / 16777216 : ℚ) :=
    f32_eq ((11911817 / 16777216 : ℚ) + (5368709 / 536870912 : ℚ)) (12079589 / 16777216 : ℚ) (-24) 12079589
      (by norm_num) (by norm_num) (by norm_num) (by norm_num)
      (by norm_num) (by norm_num) (by norm_num)
  have c62 : binary32.fl ((12079589 / 16777216 : ℚ) + (5368709 / 536870912 : ℚ)) =
      (12247361 / 16777216 : ℚ) :=
    f32_eq ((12079589 / 16777216 : ℚ) + (5368709 / 536870912 : ℚ)) (12247361 / 16777216 : ℚ) (-24) 12247361
      (by norm_num) (by norm_num) (by norm_num) (by norm_num)
      (by norm_num) (by norm_num) (by norm_num)
  have c63 : binary32.fl ((12247361 / 16777216 : ℚ) + (5368709 / 536870912 : ℚ)) =
      (12415133 / 16777216 : ℚ) :=
    f32_eq ((12247361 / 16777216 : ℚ) + (5368709 / 536870912 : ℚ)) (12415133 / 16777216 : ℚ) (-24) 12415133
      (by norm_num) (by norm_num) (by norm_num) (by norm_num)
      (by norm_num) (by norm_num) (by norm_num)
  have c64 : binary32.fl ((12415133 / 16777216 : ℚ) + (5368709 / 536870912 : ℚ)) =
      (12582905 / 16777216 : ℚ) :=
    f32_eq ((12415133 / 16777216 : ℚ) + (5368709 / 536870912 : ℚ)) (12582905 / 16777216 : ℚ) (-24) 12582905
      (by norm_num) (by norm_num) (by norm_num) (by norm_num)
      (by norm_num) (by norm_num) (by norm_num)
  have c65 : binary32.fl ((12582905 / 16777216 : ℚ) + (5368709 / 536870912 : ℚ)) =
      (12750677 / 16777216 : ℚ) :=
    f32_eq ((12582905 / 16777216 : ℚ) + (5368709 / 536870912 : ℚ)) (12750677 / 16777216 : ℚ) (-24) 12750677
      (by norm_num) (by norm_num) (by norm_num) (by norm_num)
      (by norm_num) (by norm_num) (by norm_num)
  have c66 : binary32.fl ((12750677 / 16777216 : ℚ) + (5368709 / 536870912 : ℚ)) =
      (12918449 / 16777216 : ℚ) :=
    f32_eq ((12750677 / 16777216 : ℚ) + (5368709 / 536870912 : ℚ)) (12918449 / 16777216 : ℚ) (-24) 12918449
      (by norm_num) (by norm_num) (by norm_num) (by norm_num)
      (by norm_num) (by norm_num) (by norm_num)
  have c67 : binary32.fl ((12918449 / 16777216 : ℚ) + (5368709 / 536870912 : ℚ)) =
      (13086221 / 16777216 : ℚ) :=
    f32_eq ((12918449 / 16777216 : ℚ) + (5368709 / 536870912 : ℚ)) (13086221 / 16777216 : ℚ) (-24) 13086221
      (by norm_num) (by norm_num) (by norm_num) (by norm_num)
      (by norm_num) (by norm_num) (by norm_num)
  have c68 : binary32.fl ((13086221 / 16777216 : ℚ) + (5368709 / 536870912 : ℚ)) =
      (13253993 / 16777216 : ℚ) :=
    f32_eq ((13086221 / 16777216 : ℚ) + (5368709 / 536870912 : ℚ)) (13253993 / 16777216 : ℚ) (-24) 13253993
      (by norm_num) (by norm_num) (by norm_num) (by norm_num)
      (by norm_num) (by norm_num) (by norm_num)
  have c69 : binary32.fl ((13253993 / 16777216 : ℚ) + (5368709 / 536870912 : ℚ)) =
      (13421765 / 16777216 : ℚ) :=
    f32_eq ((13253993 / 16777216 : ℚ) + (5368709 / 536870912 : ℚ)) (13421765 / 16777216 : ℚ) (-24) 13421765
      (by norm_num) (by norm_num) (by norm_num) (by norm_num)
      (by norm_num) (by norm_num) (by norm_num)
  have c70 : binary32.fl ((13421765 / 16777216 : ℚ) + (5368709 / 536870912 : ℚ)) =
      (13589537 / 16777216 : ℚ) :=
    f32_eq ((13421765 / 16777216 : ℚ) + (5368709 / 536870912 : ℚ)) (13589537 / 16777216 : ℚ) (-24) 13589537
      (by norm_num) (by norm_num) (by norm_num) (by norm_num)
      (by norm_num) (by norm_num) (by norm_num)
  have c71 : binary32.fl ((13589537 / 16777216 : ℚ) + (5368709 / 536870912 : ℚ)) =
      (13757309 / 16777216 : ℚ) :=
    f32_eq ((13589537 / 16777216 : ℚ) + (5368709 / 536870912 : ℚ)) (13757309 / 16777216 : ℚ) (-24) 13757309
      (by norm_num) (by norm_num) (by norm_num) (by norm_num)
      (by norm_num) (by norm_num) (by norm_num)
  have c72 : binary32.fl ((13757309 / 16777216 : ℚ) + (5368709 / 536870912 : ℚ)) =
      (13925081 / 16777216 : ℚ) :=
    f32_eq ((13757309 / 16777216 : ℚ) + (5368709 / 536870912 : ℚ)) (13925081 / 16777216 : ℚ) (-24) 13925081
      (by norm_num) (by norm_num) (by norm_num) (by norm_num)
      (by norm_num) (by norm_num) (by norm_num)
  have c73 : binary32.fl ((13925081 / 16777216 : ℚ) + (5368709 / 536870912 : ℚ)) =
      (14092853 / 16777216 : ℚ) :=
    f32_eq ((13925081 / 16777216 : ℚ) + (5368709 / 536870912 : ℚ)) (14092853 / 16777216 : ℚ) (-24) 14092853
      (by norm_num) (by norm_num) (by norm_num) (by norm_num)
      (by norm_num) (by norm_num) (by norm_num)
  have c74 : binary32.fl ((14092853 / 16777216 : ℚ) + (5368709 / 536870912 : ℚ)) =
      (14260625 / 16777216 : ℚ) :=
    f32_eq ((14092853 / 16777216 : ℚ) + (5368709 / 536870912 : ℚ)) (14260625 / 16777216 : ℚ) (-24) 14260625
      (by norm_num) (by norm_num) (by norm_num) (by norm_num)
      (by norm_num) (by norm_num) (by norm_num)
  have c75 : binary32.fl ((14260625 / 16777216 : ℚ) + (5368709 / 536870912 : ℚ)) =
      (14428397 / 16777216 : ℚ) :=
    f32_eq ((14260625 / 16777216 : ℚ) + (5368709 / 536870912 : ℚ)) (14428397 / 16777216 : ℚ) (-24) 14428397
      (by norm_num) (by norm_num) (by norm_num) (by norm_num)
      (by norm_num) (by norm_num) (by norm_num)
  have c76 : binary32.fl ((14428397 / 16777216 : ℚ) + (5368709 / 536870912 : ℚ)) =
      (14596169 / 16777216 : ℚ) :=
    f32_eq ((14428397 / 16777216 : ℚ) + (5368709 / 536870912 : ℚ)) (14596169 / 16777216 : ℚ) (-24) 14596169
      (by norm_num) (by norm_num) (by norm_num) (by norm_num)
      (by norm_num) (by norm_num) (by norm_num)
  have c77 : binary32.fl ((14596169 / 16777216 : ℚ) + (5368709 / 536870912 : ℚ)) =
      (14763941 / 16777216 : ℚ) :=
    f32_eq ((14596169 / 16777216 : ℚ) + (5368709 / 536870912 : ℚ)) (14763941 / 16777216 : ℚ) (-24) 14763941
      (by norm_num) (by norm_num) (by norm_num) (by norm_num)
      (by norm_num) (by norm_num) (by norm_num)
  have c78 : binary32.fl ((14763941 / 16777216 : ℚ) + (5368709 / 536870912 : ℚ)) =
      (14931713 / 16777216 : ℚ) :=
    f32_eq ((14763941 / 16777216 : ℚ) + (5368709 / 536870912 : ℚ)) (14931713 / 16777216 : ℚ) (-24) 14931713
      (by norm_num) (by norm_num) (by norm_num) (by norm_num)
      (by norm_num) (by norm_num) (by norm_num)
  have c79 : binary32.fl ((14931713 / 16777216 : ℚ) + (5368709 / 536870912 : ℚ)) =
      (15099485 / 16777216 : ℚ) :=
    f32_eq ((14931713 / 16777216 : ℚ) + (5368709 / 536870912 : ℚ)) (15099485 / 16777216 : ℚ) (-24) 15099485
      (by norm_num) (by norm_num) (by norm_num) (by norm_num)
      (by norm_num) (by norm_num) (by norm_num)
  have c80 : binary32.fl ((15099485 / 16777216 : ℚ) + (5368709 / 536870912 : ℚ)) =
      (15267257 / 16777216 : ℚ) :=
    f32_eq ((15099485 / 16777216 : ℚ) + (5368709 / 536870912 : ℚ)) (15267257 / 16777216 : ℚ) (-24) 15267257
      (by norm_num) (by norm_num) (by norm_num) (by norm_num)
      (by norm_num) (by norm_num) (by norm_num)
  have c81 : binary32.fl ((15267257 / 16777216 : ℚ) + (5368709 / 536870912 : ℚ)) =
      (15435029 / 16777216 : ℚ) :=
    f32_eq ((15267257 / 16777216 : ℚ) + (5368709 / 536870912 : ℚ)) (15435029 / 16777216 : ℚ) (-24) 15435029
      (by norm_num) (by norm_num) (by norm_num) (by norm_num)
      (by norm_num) (by norm_num) (by norm_num)
  have c82 : binary32.fl ((15435029 / 16777216 : ℚ) + (5368709 / 536870912 : ℚ)) =
      (15602801 / 16777216 : ℚ) :=
    f32_eq ((15435029 / 16777216 : ℚ) + (5368709 / 536870912 : ℚ)) (15602801 / 16777216 : ℚ) (-24) 15602801
      (by norm_num) (by norm_num) (by norm_num) (by norm_num)
      (by norm_num) (by norm_num) (by norm_num)
  have c83 : binary32.fl ((15602801 / 16777216 : ℚ) + (5368709 / 536870912 : ℚ)) =
      (15770573 / 16777216 : ℚ) :=
    f32_eq ((15602801 / 16777216 : ℚ) + (5368709 / 536870912 : ℚ)) (15770573 / 16777216 : ℚ) (-24) 15770573
      (by norm_num) (by norm_num) (by norm_num) (by norm_num)
      (by norm_num) (by norm_num) (by norm_num)
  have c84 : binary32.fl ((15770573 / 16777216 : ℚ) + (5368709 / 536870912 : ℚ)) =
      (15938345 / 16777216 : ℚ) :=
    f32_eq ((15770573 / 16777216 : ℚ) + (5368709 / 536870912 : ℚ)) (15938345 / 16777216 : ℚ) (-24) 15938345
      (by norm_num) (by norm_num) (by norm_num) (by norm_num)
      (by norm_num) (by norm_num) (by norm_num)
  have c85 : binary32.fl ((15938345 / 16777216 : ℚ) + (5368709 / 536870912 : ℚ)) =
      (16106117 / 16777216 : ℚ) :=
    f32_eq ((15938345 / 16777216 : ℚ) + (5368709 / 536870912 : ℚ)) (16106117 / 16777216 : ℚ) (-24) 16106117
      (by norm_num) (by norm_num) (by norm_num) (by norm_num)
      (by norm_num) (by norm_num) (by norm_num)
  have c86 : binary32.fl ((16106117 / 16777216 : ℚ) + (5368709 / 536870912 : ℚ)) =
      (16273889 / 16777216 : ℚ) :=
    f32_eq ((16106117 / 16777216 : ℚ) + (5368709 / 536870912 : ℚ)) (16273889 / 16777216 : ℚ) (-24) 16273889
      (by norm_num) (by norm_num) (by norm_num) (by norm_num)
      (by norm_num) (by norm_num) (by norm_num)
  have c87 : binary32.fl ((16273889 / 16777216 : ℚ) + (5368709 / 536870912 : ℚ)) =
      (16441661 / 16777216 : ℚ) :=
    f32_eq ((16273889 / 16777216 : ℚ) + (5368709 / 536870912 : ℚ)) (16441661 / 16777216 : ℚ) (-24) 16441661
      (by norm_num) (by norm_num) (by norm_num) (by norm_num)
      (by norm_num) (by norm_num) (by norm_num)
  have c88 : binary32.fl ((16441661 / 16777216 : ℚ) + (5368709 / 536870912 : ℚ)) =
      (16609433 / 16777216 : ℚ) :=
    f32_eq ((16441661 / 16777216 : ℚ) + (5368709 / 536870912 : ℚ)) (16609433 / 16777216 : ℚ) (-24) 16609433
      (by norm_num) (by norm_num) (by norm_num) (by norm_num)
      (by norm_num) (by norm_num) (by norm_num)
  have c89 : binary32.fl ((16609433 / 16777216 : ℚ) + (5368709 / 536870912 : ℚ)) =
      (16777205 / 16777216 : ℚ) :=
    f32_eq ((16609433 / 16777216 : ℚ) + (5368709 / 536870912 : ℚ)) (16777205 / 16777216 : ℚ) (-24) 16777205
      (by norm_num) (by norm_num) (by norm_num) (by norm_num)
      (by norm_num) (by norm_num) (by norm_num)
  have c90 : binary32.fl ((16777205 / 16777216 : ℚ) + (5368709 / 536870912 : ℚ)) =
      (8472489 / 8388608 : ℚ) :=
    f32_eq ((16777205 / 16777216 : ℚ) + (5368709 / 536870912 : ℚ)) (8472489 / 8388608 : ℚ) (-23) 8472489
      (by norm_num) (by norm_num) (by norm_num) (by norm_num)
      (by norm_num) (by norm_num) (by norm_num)
  exact (.cons c0 (.cons c1 (.cons c2 (.cons c3 (.cons c4 (.cons c5 (.cons c6 (.cons c7 (.cons c8
    (.cons c9 (.cons c10 (.cons c11 (.cons c12 (.cons c13 (.cons c14 (.cons c15 (.cons c16 (.cons
    c17 (.cons c18 (.cons c19 (.cons c20 (.cons c21 (.cons c22 (.cons c23 (.cons c24 (.cons c25
    (.cons c26 (.cons c27 (.cons c28 (.cons c29 (.cons c30 (.cons c31 (.cons c32 (.cons c33 (.cons
    c34 (.cons c35 (.cons c36 (.cons c37 (.cons c38 (.cons c39 (.cons c40 (.cons c41 (.cons c42
    (.cons c43 (.cons c44 (.cons c45 (.cons c46 (.cons c47 (.cons c48 (.cons c49 (.cons c50 (.cons
    c51 (.cons c52 (.cons c53 (.cons c54 (.cons c55 (.cons c56 (.cons c57 (.cons c58 (.cons c59
    (.cons c60 (.cons c61 (.cons c62 (.cons c63 (.cons c64 (.cons c65 (.cons c66 (.cons c67 (.cons
    c68 (.cons c69 (.cons c70 (.cons c71 (.cons c72 (.cons c73 (.cons c74 (.cons c75 (.cons c76
    (.cons c77 (.cons c78 (.cons c79 (.cons c80 (.cons c81 (.cons c82 (.cons c83 (.cons c84 (.cons
    c85 (.cons c86 (.cons c87 (.cons c88 (.cons c89 (.cons c90
    .nil)))))))))))))))))))))))))))))))))))))))))))))))))))))))))))))))))))))))))))))))))))))))))))

/-- With ten steps and the loop counter in binary32, `lerpTransition` returns the nine
interpolations at the values of `alphas10`. -/
theorem lerpTransition_ten_eq (env : MathEnv) (A B : Frame)
    (hgood : ∀ alpha, A.lerpOne env B alpha = .ok ⟨lerpOneRef env A B alpha, false⟩) :
    A.lerpTransition env B 10 = .ok (alphas10.map (lerpOneRef env A B)) := by
  have hc : (1 : ℚ) / clamp ((10 : Nat) : ℚ) 2 100 = 1 / 10 := by norm_num [clamp]
  exact lerpTransitionIn_of_chain binary32 env A B 10 (by decide) hgood _ _ _ alphas10.tail
    (by rw [hc]; exact f32_tenth) f32_tenth alphas10_chain
    (by
      intro x hx
      simp only [alphas10, List.tail_cons, List.mem_cons, List.mem_singleton,
        List.not_mem_nil, or_false] at hx
      rcases hx with rfl | rfl | rfl | rfl | rfl | rfl | rfl | rfl | rfl <;> norm_num)
    (by norm_num)

/-- With a hundred steps and the loop counter in binary32, `lerpTransition` returns the 91
interpolations at the values of `alphas100`. -/
theorem lerpTransition_hundred_eq (env : MathEnv) (A B : Frame)
    (hgood : ∀ alpha, A.lerpOne env B alpha = .ok ⟨lerpOneRef env A B alpha, false⟩) :
    A.lerpTransition env B 100 = .ok (alphas100.map (lerpOneRef env A B)) := by
  have hc : (1 : ℚ) / clamp ((100 : Nat) : ℚ) 2 100 = 1 / 100 := by norm_num [clamp]
  have hle : ∀ x ∈ alphas100, x ≤ 1 := by
    intro x hx
    simp only [alphas100, List.mem_cons, List.mem_singleton, List.not_mem_nil, or_false] at hx
    rcases hx with rfl | rfl | rfl | rfl | rfl | rfl | rfl | rfl | rfl | rfl | rfl | rfl | rfl |
      rfl | rfl | rfl | rfl | rfl | rfl | rfl | rfl | rfl | rfl | rfl | rfl | rfl | rfl | rfl |
      rfl | rfl | rfl | rfl | rfl | rfl | rfl | rfl | rfl | rfl | rfl | rfl | rfl | rfl | rfl |
      rfl | rfl | rfl | rfl | rfl | rfl | rfl | rfl | rfl | rfl | rfl | rfl | rfl | rfl | rfl |
      rfl | rfl | rfl | rfl | rfl | rfl | rfl | rfl | rfl | rfl | rfl | rfl | rfl | rfl | rfl |
      rfl | rfl | rfl | rfl | rfl | rfl | rfl | rfl | rfl | rfl | rfl | rfl | rfl | rfl | rfl |
      rfl | rfl | rfl <;> norm_num
  exact lerpTransitionIn_of_chain binary32 env A B 100 (by decide) hgood _ _ _ alphas100.tail
    (by rw [hc]; exact f32_hundredth) f32_tenth alphas100_chain hle (by norm_num)

/-- C7, counterexample: on the frames of the scenario of the spec, `lerpTransition` with
`steps = 100` returns 91 frames, not 9. -/
theorem lerpTransition_hundred_not_nine :
    (∃ fs, scenarioA.lerpTransition sampleEnv scenarioB 100 = .ok fs ∧ fs.length = 91) ∧
    ¬ ∃ fs, scenarioA.lerpTransition sampleEnv scenarioB 100 = .ok fs ∧ fs.length = 9 := by
  have h := lerpTransition_hundred_eq sampleEnv scenarioA scenarioB
    (fun alpha => lerpOne_eq_ref sampleEnv scenarioA scenarioB alpha (by decide) (by decide))
  have hl : (alphas100.map (lerpOneRef sampleEnv scenarioA scenarioB)).length = 91 := by
    rw [List.length_map]; rfl
  constructor
  · exact ⟨_, h, hl⟩
  · rintro ⟨fs, hfs, hlen⟩
    rw [h] at hfs
    have e := Except.ok.inj hfs
    rw [← e, hl] at hlen
    omega

/-- C7, amended: for frames `A` and `B` with equal, non-zero joint counts,
`A.lerpTransition(B, 100)` returns exactly 91 frames, and with alpha computed in exact
arithmetic (alpha `0.10, 0.11, ..., 1.00`) it returns exactly 91 frames, the last of which is
the interpolation at alpha 1. -/
theorem lerpTransition_hundred (env : MathEnv) (A B : Frame)
    (hlen : A.rotations.length = B.rotations.length) (hpos : 1 ≤ A.rotations.length) :
    (∃ fs, A.lerpTransition env B 100 = .ok fs ∧ fs.length = 91) ∧
    ∃ fs, A.lerpTransitionExact env B 100 = .ok fs ∧ fs.length = 91 ∧
      ∃ out, A.lerpOne env B 1 = .ok out ∧ fs.getLast? = some out.frame := by
  refine ⟨⟨_, lerpTransition_hundred_eq env A B
      (fun alpha => lerpOne_eq_ref env A B alpha hlen hpos), by rw [List.length_map]; rfl⟩,
    _, lerpTransitionExact_eq env A B 100 (by decide) hlen hpos, by
    simp [transitionCount_hundred], _, lerpOne_eq_ref env A B 1 hlen hpos, ?_⟩
  rw [List.getLast?_eq_getElem?]
  simp only [List.length_map, List.length_range, transitionCount_hundred]
  rw [List.getElem?_map, List.getElem?_range (by decide)]
  have e : (1 : ℚ) / 10 + ((91 - 1 : Nat) : ℚ) * (1 / clamp ((100 : Nat) : ℚ) 2 100) = 1 := by
    norm_num [clamp]
  simp only [Option.map, e]

/-- Witness of C7 (amended): the frames of the scenario of the spec. -/
theorem lerpTransition_hundred_witness :
    scenarioA.rotations.length = scenarioB.rotations.length ∧ 1 ≤ scenarioA.rotations.length ∧
    (∃ fs, scenarioA.lerpTransition sampleEnv scenarioB 100 = .ok fs ∧ fs.length = 91) ∧
    ∃ fs, scenarioA.lerpTransitionExact sampleEnv scenarioB 100 = .ok fs ∧ fs.length = 91 ∧
      ∃ out, scenarioA.lerpOne sampleEnv scenarioB 1 = .ok out ∧
        fs.getLast? = some out.frame :=
  ⟨by decide, by decide, lerpTransition_hundred sampleEnv scenarioA scenarioB (by decide)
    (by decide)⟩

/-- C8, evaluation at the failing input `steps = 10`: the claim lists the ten values
`1/10 + k/10`, `k = 0 .. 9`, the last of them `1`, and with alpha in exact arithmetic ten frames
are returned; the code accumulates alpha in binary32 and returns the nine interpolations at the
values of `alphas10`, all below `1`: the tenth value of the counter is `1 + 2^-23`, above `1`, so
the interpolation at alpha 1 is not among the frames returned. -/
theorem lerpTransition_ten_misses_last :
    scenarioA.lerpTransition sampleEnv scenarioB 10 =
      .ok (alphas10.map (lerpOneRef sampleEnv scenarioA scenarioB)) ∧
    alphas10.length = 9 ∧ (∀ a ∈ alphas10, a < 1) ∧
    (∃ out, scenarioA.lerpOne sampleEnv scenarioB 1 = .ok out ∧
      out.frame ∉ alphas10.map (lerpOneRef sampleEnv scenarioA scenarioB)) ∧
    (∀ k : Nat, k < 10 ↔ 1 / 10 + (k : ℚ) / clamp ((10 : Nat) : ℚ) 2 100 ≤ 1) ∧
    (1 : ℚ) / 10 + ((9 : Nat) : ℚ) / clamp ((10 : Nat) : ℚ) 2 100 = 1 ∧
    ∃ fs, scenarioA.lerpTransitionExact sampleEnv scenarioB 10 = .ok fs ∧ fs.length = 10 := by
  have hcount : transitionCount 10 = 10 := by
    norm_num [transitionCount, clamp]
    rfl
  have hlt : ∀ a ∈ alphas10, a < 1 := by
    intro a ha
    simp only [alphas10, List.mem_cons, List.mem_singleton, List.not_mem_nil, or_false] at ha
    rcases ha with rfl | rfl | rfl | rfl | rfl | rfl | rfl | rfl | rfl <;> norm_num
  refine ⟨lerpTransition_ten_eq sampleEnv scenarioA scenarioB
      (fun alpha => lerpOne_eq_ref sampleEnv scenarioA scenarioB alpha (by decide) (by decide)),
    rfl, hlt, ⟨_, lerpOne_eq_ref sampleEnv scenarioA scenarioB 1 (by decide) (by decide), ?_⟩,
    ?_, by norm_num [clamp],
    _, lerpTransitionExact_eq sampleEnv scenarioA scenarioB 10 (by decide) (by decide)
      (by decide), by simp [hcount]⟩
  · intro hmem
    obtain ⟨a, ha, he⟩ := List.mem_map.mp hmem
    have hx : (lerpOneRef sampleEnv scenarioA scenarioB a).translation.x =
        (lerpOneRef sampleEnv scenarioA scenarioB 1).translation.x := by rw [he]
    have ha1 := hlt a ha
    norm_num [lerpOneRef, blend, Vec3.add, Vec3.smul, scenarioA, scenarioB] at hx
    linarith
  · intro k
    have h := transitionCount_spec 10 k
    rw [hcount] at h
    exact h

/-! ## The splice search of `clean` -/

theorem limitA_eq (n : Nat) : limitA n = n / 2 := by
  unfold limitA
  rw [show (2 : ℚ) = ((2 : Nat) : ℚ) by norm_num, Nat.floor_div_eq_div]

theorem spliceInv_congr (frames : List Frame) (vis vis1 : Nat → Nat → Prop) (s : SpliceScan)
    (h : ∀ a b, vis a b ↔ vis1 a b) (hs : SpliceInv frames vis s) : SpliceInv frames vis1 s := by
  obtain ⟨hmin, hsel⟩ := hs
  refine ⟨fun a b hv => hmin a b ((h a b).mpr hv), ?_⟩
  rcases hsel with hnone | ⟨b, e, hb, he, hv, hd, hlt⟩
  · exact Or.inl hnone
  · exact Or.inr ⟨b, e, hb, he, (h b e).mp hv, hd, hlt⟩

/-- One step of the inner loop of the splice search keeps the invariant and adds the pair
`(f1, f2)` to the visited ones. -/
theorem spliceInner_step (frames : List Frame) (n f1 f2 : Nat) (hn : 1 ≤ n)
    (hjc : JointCount n frames) (h2 : f2 < frames.length) (vis : Nat → Nat → Prop)
    (s : SpliceScan) (hs : SpliceInv frames vis s) :
    ∃ s1, spliceInner frames (sigAt frames f1) f1 f2 s = .ok s1 ∧
      SpliceInv frames (fun a b => vis a b ∨ (a = f1 ∧ b = f2)) s1 := by
  obtain ⟨fr, hfr, _, hval⟩ := sigAt_ok frames n f2 hn hjc h2
  obtain ⟨hmin, hsel⟩ := hs
  have hmax : s.auxDiff ≤ fltMax := by
    rcases hsel with ⟨_, _, h⟩ | ⟨_, _, _, _, _, _, h⟩
    · exact h.le
    · exact h.le
  simp only [spliceInner, hfr, hval, compAdd_abs_sub]
  by_cases hc : vecDist (sigAt frames f1) (sigAt frames f2) < s.auxDiff
  · simp only [hc, if_true]
    refine ⟨_, rfl, ?_, Or.inr ⟨f1, f2, rfl, rfl, Or.inr ⟨rfl, rfl⟩, rfl, lt_of_lt_of_le hc hmax⟩⟩
    intro a b hv
    rcases hv with hv | ⟨rfl, rfl⟩
    · exact le_trans hc.le (hmin a b hv)
    · exact le_refl _
  · simp only [hc, if_false]
    refine ⟨_, rfl, ?_, ?_⟩
    · intro a b hv
      rcases hv with hv | ⟨rfl, rfl⟩
      · exact hmin a b hv
      · exact not_lt.mp hc
    · rcases hsel with hnone | ⟨b, e, hb, he, hv, hd, hlt⟩
      · exact Or.inl hnone
      · exact Or.inr ⟨b, e, hb, he, Or.inl hv, hd, hlt⟩

/-- One step of the outer loop of the splice search: the whole row `f1` is visited. -/
theorem spliceOuter_step (frames : List Frame) (n lb f1 : Nat) (hn : 1 ≤ n)
    (hjc : JointCount n frames) (h1 : f1 < frames.length) (hlb : lb ≤ frames.length)
    (s : SpliceScan)
    (hs : SpliceInv frames (fun a b => a < f1 ∧ lb ≤ b ∧ b < frames.length) s) :
    ∃ s1, spliceOuter frames lb frames.length f1 s = .ok s1 ∧
      SpliceInv frames (fun a b => a < f1 + 1 ∧ lb ≤ b ∧ b < frames.length) s1 := by
  obtain ⟨fr, hfr, _, hval⟩ := sigAt_ok frames n f1 hn hjc h1
  simp only [spliceOuter, hfr, hval]
  let P : Nat → SpliceScan → Prop := fun k t =>
    SpliceInv frames
      (fun a b => (a < f1 ∧ lb ≤ b ∧ b < frames.length) ∨ (a = f1 ∧ lb ≤ b ∧ b < k)) t
  obtain ⟨s1, hs1, hP⟩ := forRange_inv lb frames.length
    (spliceInner frames (sigAt frames f1) f1) P s hlb
    (spliceInv_congr frames _ _ s (by intro a b; constructor
                                      · intro h; exact Or.inl h
                                      · rintro (h | h)
                                        · exact h
                                        · omega) hs)
    (by
      intro k t hlk hk hPk
      obtain ⟨t1, ht1, hinv⟩ := spliceInner_step frames n f1 k hn hjc hk _ t hPk
      refine ⟨t1, ht1, spliceInv_congr frames _ _ t1 ?_ hinv⟩
      intro a b
      constructor
      · rintro ((h | h) | ⟨rfl, rfl⟩)
        · exact Or.inl h
        · exact Or.inr ⟨h.1, h.2.1, by omega⟩
        · exact Or.inr ⟨rfl, hlk, by omega⟩
      · rintro (h | ⟨ha, hb1, hb2⟩)
        · exact Or.inl (Or.inl h)
        · by_cases hbk : b = k
          · exact Or.inr ⟨ha, hbk⟩
          · exact Or.inl (Or.inr ⟨ha, hb1, by omega⟩))
  refine ⟨s1, hs1, spliceInv_congr frames _ _ s1 ?_ hP⟩
  intro a b
  constructor
  · rintro (h | h)
    · exact ⟨by omega, h.2⟩
    · exact ⟨by omega, h.2⟩
  · rintro ⟨ha, hb⟩
    by_cases haf : a = f1
    · exact Or.inr ⟨haf, hb⟩
    · exact Or.inl ⟨by omega, hb⟩

/-- The splice search on frames that share a non-zero joint count runs to the end, and its
result satisfies the invariant over all candidate pairs. -/
theorem spliceSearch_spec (frames : List Frame) (n : Nat) (hn : 1 ≤ n)
    (hjc : JointCount n frames) :
    ∃ s, spliceSearch frames = .ok s ∧
      SpliceInv frames (fun a b => a < frames.length / 2 ∧
        frames.length - frames.length / 2 ≤ b ∧ b < frames.length) s := by
  simp only [spliceSearch, limitA_eq]
  let P : Nat → SpliceScan → Prop := fun k t =>
    SpliceInv frames (fun a b => a < k ∧
      frames.length - frames.length / 2 ≤ b ∧ b < frames.length) t
  exact forRange_inv 0 (frames.length / 2) _ P ⟨fltMax, none, none⟩ (Nat.zero_le _)
    ⟨fun a b h => by omega, Or.inl ⟨rfl, rfl, rfl⟩⟩
    (fun k t _ hk hPk =>
      spliceOuter_step frames n _ k hn hjc (by omega) (by omega) t hPk)

/-! ## Trimming and closing the loop -/

/-- The copy loop returns the frames `[B, E)` of the sequence. -/
theorem copyRange_eq (frames : List Frame) (B E : Nat) (hBE : B ≤ E) (hE : E ≤ frames.length) :
    copyRange frames B E = .ok ((frames.take E).drop B) := by
  let P : Nat → List Frame → Prop := fun f aux => aux = (frames.take f).drop B
  obtain ⟨res, hres, hP⟩ := forRange_inv B E
    (fun f auxFrames =>
      match frames[f]? with
      | none => .error .outOfRange
      | some fr => .ok (auxFrames ++ [fr])) P [] hBE (by simp [P])
    (by
      intro f aux hBf hfE hPf
      have hf : f < frames.length := by omega
      refine ⟨aux ++ [frames[f]], by simp [List.getElem?_eq_getElem hf], ?_⟩
      simp only [P] at hPf ⊢
      rw [hPf, List.take_succ, List.getElem?_eq_getElem hf, Option.toList_some,
        List.drop_append_of_le_length (by simp; omega)])
  simp only [P] at hP
  rw [← hP]
  exact hres

/-- The last pass of `clean` on frames that all have a root joint returns a sequence of the same
length. -/
theorem lookForward_length (env : MathEnv) (frames : List Frame)
    (hroot : ∀ f ∈ frames, 1 ≤ f.rotations.length) :
    ∃ res, forRange 0 frames.length (lookForwardBody env) frames = .ok res ∧
      res.length = frames.length := by
  let P : Nat → List Frame → Prop := fun _ fs =>
    fs.length = frames.length ∧ ∀ f ∈ fs, 1 ≤ f.rotations.length
  obtain ⟨res, hres, hP⟩ := forRange_inv 0 frames.length (lookForwardBody env) P frames
    (Nat.zero_le _) ⟨rfl, hroot⟩ (by
      intro i fs _ hi hPi
      obtain ⟨hl, hr⟩ := hPi
      have hi1 : i < fs.length := by omega
      have hr1 := hr _ (List.getElem_mem hi1)
      have hr0 : 0 < fs[i].rotations.length := by omega
      have hbody : lookForwardBody env i fs = .ok (fs.set i { fs[i] with
          rotations := fs[i].rotations.set 0 (env.lookForward fs[i].rotations[0]) }) := by
        simp only [lookForwardBody, List.getElem?_eq_getElem hi1, List.getElem?_eq_getElem hr0]
      refine ⟨_, hbody, ?_, ?_⟩
      · simp [hl]
      · intro f hf
        rcases List.mem_or_eq_of_mem_set hf with h | h
        · exact hr f h
        · rw [h]; simp only [List.length_set]; exact hr1)
  exact ⟨res, hres, hP.1⟩

/-- The closing part of `clean` on a non-empty sequence whose frames share a non-zero joint
count: the transition from the last frame to the first is appended and the length is kept by the
last pass. -/
theorem closeLoop_length (env : MathEnv) (frames : List Frame) (steps n : Nat) (hn : 1 ≤ n)
    (hjc : JointCount n frames) (hne : frames ≠ []) :
    ∃ first last lerped res, frames.head? = some first ∧ frames.getLast? = some last ∧
      last.lerpTransition env first steps = .ok lerped ∧
      closeLoop env frames steps = .ok res ∧ res.length = frames.length + lerped.length := by
  have hfirst : frames.head? = some (frames.head hne) := List.head?_eq_head hne
  have hlast : frames.getLast? = some (frames.getLast hne) := List.getLast?_eq_getLast _ hne
  have h1 := hjc _ (List.head_mem hne)
  have h2 := hjc _ (List.getLast_mem hne)
  obtain ⟨lerped, hlerp, hlj⟩ := lerpTransition_ok env (frames.getLast hne) (frames.head hne)
    steps (by rw [h1, h2]) (by rw [h2]; exact hn)
  obtain ⟨res, hres, hlenres⟩ := lookForward_length env (frames ++ lerped) (by
    intro f hf
    rcases List.mem_append.mp hf with h | h
    · rw [hjc f h]; exact hn
    · rw [hlj f h, h2]; exact hn)
  refine ⟨_, _, lerped, res, hfirst, hlast, hlerp, ?_, by simpa using hlenres⟩
  simp only [closeLoop, hfirst, hlast, hlerp]
  exact hres

/-! ## Claims about `clean` -/

/-- C9: for a motion with at least one frame and every `steps`, `clean(none, steps)` returns
with the frames of the motion minus the first one: the length drops by exactly one and the
remaining frames are unchanged, in the same order (no trim, no transition, no rewrite). -/
theorem clean_none_drops_first (env : MathEnv) (m : Motion) (steps : Nat)
    (hne : m.frames ≠ []) :
    ∃ m1, m.clean env loopMode.none steps = .ok m1 ∧ m1.frames = m.frames.tail ∧
      m1.frames.length + 1 = m.frames.length ∧
      ∀ i, m1.frames[i]? = m.frames[i + 1]? := by
  cases hf : m.frames with
  | nil => exact absurd hf hne
  | cons t rest =>
    refine ⟨{ m with frames := rest }, ?_, ?_, ?_, ?_⟩
    · simp [Motion.clean, hf]
    · simp
    · simp
    · intro i; simp

/-- Witness of C9: a clip of three frames. -/
theorem clean_none_drops_first_witness :
    (clipOf [oneJoint, otherJoint, oneJoint]).frames ≠ [] ∧
    ∃ m1, (clipOf [oneJoint, otherJoint, oneJoint]).clean sampleEnv loopMode.none 10 = .ok m1 ∧
      m1.frames = (clipOf [oneJoint, otherJoint, oneJoint]).frames.tail ∧
      m1.frames.length + 1 = (clipOf [oneJoint, otherJoint, oneJoint]).frames.length ∧
      ∀ i, m1.frames[i]? = (clipOf [oneJoint, otherJoint, oneJoint]).frames[i + 1]? :=
  ⟨by simp [clipOf],
    clean_none_drops_first sampleEnv (clipOf [oneJoint, otherJoint, oneJoint]) 10
      (by simp [clipOf])⟩

/-- C10, counterexample: with a single frame left after the T-pose there is no candidate pair,
and with two frames at signature distance `2 * fltMax` no pair is below the initial `auxDiff`:
in both cases `B` and `E` are never assigned and `clean(shortLoop, 10)` reads them
uninitialised. -/
theorem clean_shortLoop_no_splice :
    (spliceSearch [oneJoint] = .ok ⟨fltMax, none, none⟩ ∧
      (clipOf [oneJoint, oneJoint]).clean sampleEnv loopMode.shortLoop 10 =
        .error .undefinedBehaviour) ∧
    (spliceSearch [oneJoint, farJoint] = .ok ⟨fltMax, none, none⟩ ∧
      (clipOf [oneJoint, oneJoint, farJoint]).clean sampleEnv loopMode.shortLoop 10 =
        .error .undefinedBehaviour) := by
  have h1 : spliceSearch [oneJoint] = .ok ⟨fltMax, none, none⟩ := by
    simp [spliceSearch, limitA_eq, forRange, forLoop]
  have h2 : spliceSearch [oneJoint, farJoint] = .ok ⟨fltMax, none, none⟩ := by
    norm_num [spliceSearch, limitA_eq, forRange, forLoop, spliceOuter, spliceInner, Frame.value,
      oneJoint, farJoint, fltMax, Vec3.mul, Vec3.add, Vec3.sub, Vec3.abs, Vec3.compAdd,
      Vec3.splat]
  refine ⟨⟨h1, ?_⟩, ⟨h2, ?_⟩⟩
  · simp [Motion.clean, clipOf, spliceTrim, h1]
  · simp [Motion.clean, clipOf, spliceTrim, h2]

/-- C10, amended: for a motion whose sequence after the T-pose has frames that share a non-zero
joint count and has a candidate pair (`f1 < floor(n/2)`, `f2 >= n - floor(n/2)`) at signature
distance below `FLT_MAX` (so `n >= 2`), `clean(shortLoop, steps)` selects splice indices `B`
and `E` with `B < E`, `B` in the first half and `E` in the second half of the pre-trim sequence,
keeps the frames `[B, E)`, and returns with `(E - B)` plus the number of frames of
`last.lerpTransition(first, steps)` of the trimmed clip. -/
theorem clean_shortLoop_splice (env : MathEnv) (m : Motion) (steps n : Nat) (hn : 1 ≤ n)
    (hjc : JointCount n m.frames.tail)
    (hfin : ∃ f1 f2 a b d, m.frames.tail[f1]? = some a ∧ m.frames.tail[f2]? = some b ∧
      f1 < m.frames.tail.length / 2 ∧
      m.frames.tail.length - m.frames.tail.length / 2 ≤ f2 ∧
      signatureDistance a b = .ok d ∧ d < fltMax) :
    ∃ s B E trimmed first last lerped m1,
      2 ≤ m.frames.tail.length ∧
      spliceSearch m.frames.tail = .ok s ∧ s.B = some B ∧ s.E = some E ∧
      B < E ∧ B < m.frames.tail.length / 2 ∧ m.frames.tail.length / 2 ≤ E ∧
      E < m.frames.tail.length ∧
      spliceTrim m.frames.tail = .ok trimmed ∧ trimmed = (m.frames.tail.take E).drop B ∧
      trimmed.head? = some first ∧ trimmed.getLast? = some last ∧
      last.lerpTransition env first steps = .ok lerped ∧
      m.clean env loopMode.shortLoop steps = .ok m1 ∧
      m1.frames.length = (E - B) + lerped.length := by
  obtain ⟨f1, f2, a, b, d, ha, hb, hf1, hf2, hd, hdlt⟩ := hfin
  obtain ⟨h2len, hbe⟩ := List.getElem?_eq_some_iff.mp hb
  obtain ⟨h1len, hae⟩ := List.getElem?_eq_some_iff.mp ha
  have hra : 1 ≤ a.rotations.length := by
    rw [hjc a (hae ▸ List.getElem_mem h1len)]; exact hn
  have hrb : 1 ≤ b.rotations.length := by
    rw [hjc b (hbe ▸ List.getElem_mem h2len)]; exact hn
  have hdv : vecDist (sigAt m.frames.tail f1) (sigAt m.frames.tail f2) = d := by
    rw [signatureDistance_ok a b hra hrb] at hd
    rw [sigAt_getElem _ _ h1len, sigAt_getElem _ _ h2len, hae, hbe]
    exact Except.ok.inj hd
  obtain ⟨s, hs, hmin, hsel⟩ := spliceSearch_spec m.frames.tail n hn hjc
  have haux : s.auxDiff < fltMax :=
    lt_of_le_of_lt (hdv ▸ hmin f1 f2 ⟨hf1, hf2, h2len⟩) hdlt
  rcases hsel with ⟨_, _, hnone⟩ | ⟨B, E, hB, hE, ⟨hB1, hE1, hE2⟩, _, _⟩
  · rw [hnone] at haux; exact absurd haux (lt_irrefl _)
  · have hBE : B < E := by omega
    have htrim : spliceTrim m.frames.tail = .ok ((m.frames.tail.take E).drop B) := by
      simp only [spliceTrim, hs, hB, hE]
      exact copyRange_eq m.frames.tail B E hBE.le hE2.le
    have htl : ((m.frames.tail.take E).drop B).length = E - B := by
      simp only [List.length_drop, List.length_take]
      omega
    have htne : (m.frames.tail.take E).drop B ≠ [] := by
      intro h
      rw [h] at htl
      simp at htl
      omega
    have htjc : JointCount n ((m.frames.tail.take E).drop B) := fun f hf =>
      hjc f (List.mem_of_mem_take (List.mem_of_mem_drop hf))
    obtain ⟨first, last, lerped, res, hfirst, hlast, hlerp, hclose, hreslen⟩ :=
      closeLoop_length env _ steps n hn htjc htne
    refine ⟨s, B, E, _, first, last, lerped, { m with frames := res }, by omega, hs, hB, hE,
      hBE, hB1, by omega, hE2, htrim, rfl, hfirst, hlast, hlerp, ?_, ?_⟩
    · cases hmf : m.frames with
      | nil => rw [hmf] at h1len; simp at h1len
      | cons t rest =>
        rw [hmf] at htrim hclose
        simp only [List.tail_cons] at htrim hclose
        simp [Motion.clean, hmf, htrim, hclose]
    · simp only [hreslen, htl]

/-- Witness of C10 (amended): a T-pose followed by two frames of different signatures. -/
theorem clean_shortLoop_splice_witness :
    1 ≤ 1 ∧ JointCount 1 (clipOf [oneJoint, oneJoint, otherJoint]).frames.tail ∧
    (∃ f1 f2 a b d, (clipOf [oneJoint, oneJoint, otherJoint]).frames.tail[f1]? = some a ∧
      (clipOf [oneJoint, oneJoint, otherJoint]).frames.tail[f2]? = some b ∧
      f1 < (clipOf [oneJoint, oneJoint, otherJoint]).frames.tail.length / 2 ∧
      (clipOf [oneJoint, oneJoint, otherJoint]).frames.tail.length -
        (clipOf [oneJoint, oneJoint, otherJoint]).frames.tail.length / 2 ≤ f2 ∧
      signatureDistance a b = .ok d ∧ d < fltMax) ∧
    ∃ s B E trimmed first last lerped m1,
      2 ≤ (clipOf [oneJoint, oneJoint, otherJoint]).frames.tail.length ∧
      spliceSearch (clipOf [oneJoint, oneJoint, otherJoint]).frames.tail = .ok s ∧
      s.B = some B ∧ s.E = some E ∧
      B < E ∧ B < (clipOf [oneJoint, oneJoint, otherJoint]).frames.tail.length / 2 ∧
      (clipOf [oneJoint, oneJoint, otherJoint]).frames.tail.length / 2 ≤ E ∧
      E < (clipOf [oneJoint, oneJoint, otherJoint]).frames.tail.length ∧
      spliceTrim (clipOf [oneJoint, oneJoint, otherJoint]).frames.tail = .ok trimmed ∧
      trimmed = ((clipOf [oneJoint, oneJoint, otherJoint]).frames.tail.take E).drop B ∧
      trimmed.head? = some first ∧ trimmed.getLast? = some last ∧
      last.lerpTransition sampleEnv first 10 = .ok lerped ∧
      (clipOf [oneJoint, oneJoint, otherJoint]).clean sampleEnv loopMode.shortLoop 10 = .ok m1 ∧
      m1.frames.length = (E - B) + lerped.length :=
  have hpair : ∃ f1 f2 a b d, (clipOf [oneJoint, oneJoint, otherJoint]).frames.tail[f1]? = some a ∧
      (clipOf [oneJoint, oneJoint, otherJoint]).frames.tail[f2]? = some b ∧
      f1 < (clipOf [oneJoint, oneJoint, otherJoint]).frames.tail.length / 2 ∧
      (clipOf [oneJoint, oneJoint, otherJoint]).frames.tail.length -
        (clipOf [oneJoint, oneJoint, otherJoint]).frames.tail.length / 2 ≤ f2 ∧
      signatureDistance a b = .ok d ∧ d < fltMax :=
    ⟨0, 1, oneJoint, otherJoint, 14, rfl, rfl, by decide, by decide, by
        norm_num [signatureDistance, Frame.value, oneJoint, otherJoint, Vec3.mul, Vec3.add,
          Vec3.sub, Vec3.abs, Vec3.compAdd, Vec3.splat],
      by norm_num [fltMax]⟩
  ⟨le_refl 1, by decide, hpair,
    clean_shortLoop_splice sampleEnv (clipOf [oneJoint, oneJoint, otherJoint]) 10 1 (le_refl 1)
      (by decide) hpair⟩

/-! ## Claims about `linkedFrame` -/

/-- C12, evaluation at the failing input: for a motion of two frames linked to a motion of four
frames, `linkedFrame(1, 1/2)` computes `cf = floor(1 * 4 / 2) = 2`, and the lookup
`frames.at(2)` in the two-frame sequence fails with `std::out_of_range`. -/
theorem linkedFrame_scaled_index_out_of_range :
    Motion.linkedFrame sampleEnv
      { clipOf [scenarioA, scenarioB] with
        linked := some [scenarioA, scenarioB, scenarioA, scenarioB] } 1 (1 / 2) =
      .error .outOfRange := by
  have h : ⌊((1 : Nat) : ℚ) * (((4 : Nat) : ℚ) / ((2 : Nat) : ℚ))⌋₊ = 2 := by
    rw [show ((1 : Nat) : ℚ) * (((4 : Nat) : ℚ) / ((2 : Nat) : ℚ)) = ((2 : Nat) : ℚ) by norm_num,
      Nat.floor_natCast]
  simp only [Motion.linkedFrame, clipOf, Motion.blank, List.length_cons, List.length_nil, h]
  rfl

/-! ## The two loops of `create` -/

theorem minInv_step (proj : Vec3 → ℚ) (frames : List Frame) (k : Nat) (v : ℚ) (f : Frame)
    (hk : 1 ≤ k) (hf : frames[k]? = some f) (h : MinInv proj frames k v) :
    MinInv proj frames (k + 1)
      (if proj f.translation < v then proj f.translation else v) := by
  obtain ⟨hlow, hmax, hatt⟩ := h
  by_cases hc : proj f.translation < v
  · simp only [hc, if_true]
    refine ⟨?_, le_trans hc.le hmax, Or.inr ⟨k, f, hk, by omega, hf, rfl⟩⟩
    intro i g hi hik hg
    by_cases hik1 : i = k
    · subst hik1
      rw [hf] at hg
      rw [← Option.some.inj hg]
    · exact le_trans hc.le (hlow i g hi (by omega) hg)
  · simp only [hc, if_false]
    refine ⟨?_, hmax, ?_⟩
    · intro i g hi hik hg
      by_cases hik1 : i = k
      · subst hik1
        rw [hf] at hg
        rw [← Option.some.inj hg]
        exact not_lt.mp hc
      · exact hlow i g hi (by omega) hg
    · rcases hatt with h0 | ⟨i, g, hi, hik, hg, hv⟩
      · exact Or.inl h0
      · exact Or.inr ⟨i, g, hi, by omega, hg, hv⟩

theorem maxInv_step (distance : Vec3 → Vec3 → ℚ) (hdist : ∀ a b, 0 ≤ distance a b)
    (frames : List Frame) (k : Nat) (ms : ℚ) (hk : 1 ≤ k)
    (h : MaxInv distance frames k ms) :
    MaxInv distance frames (k + 1)
      (if k < frames.length - 2 then
        (if stepAt distance frames k > ms then stepAt distance frames k else ms)
      else ms) := by
  obtain ⟨hub, hatt⟩ := h
  have hnn : 0 ≤ stepAt distance frames k := by
    unfold stepAt
    split
    · exact hdist _ _
    · exact le_refl _
  by_cases hin : k < frames.length - 2
  · simp only [hin, if_true]
    by_cases hc : stepAt distance frames k > ms
    · simp only [hc, if_true]
      refine ⟨?_, Or.inl ⟨k, hk, by omega, hin, rfl⟩⟩
      intro i hi hik hil
      by_cases hik1 : i = k
      · subst hik1; exact le_refl _
      · exact le_trans (hub i hi (by omega) hil) (le_of_lt hc)
    · simp only [hc, if_false]
      have hle : stepAt distance frames k ≤ ms := not_lt.mp hc
      refine ⟨?_, ?_⟩
      · intro i hi hik hil
        by_cases hik1 : i = k
        · subst hik1; exact hle
        · exact hub i hi (by omega) hil
      · rcases hatt with ⟨i, hi, hik, hil, hv⟩ | ⟨_, h0⟩
        · exact Or.inl ⟨i, hi, by omega, hil, hv⟩
        · refine Or.inl ⟨k, hk, by omega, hin, ?_⟩
          rw [h0] at hle ⊢
          exact le_antisymm hnn hle
  · simp only [hin, if_false]
    refine ⟨?_, ?_⟩
    · intro i hi hik hil
      by_cases hik1 : i = k
      · subst hik1; exact absurd hil hin
      · exact hub i hi (by omega) hil
    · rcases hatt with ⟨i, hi, hik, hil, hv⟩ | ⟨hnone, h0⟩
      · exact Or.inl ⟨i, hi, by omega, hil, hv⟩
      · refine Or.inr ⟨?_, h0⟩
        intro i hi hik
        by_cases hik1 : i = k
        · subst hik1; exact hin
        · exact hnone i hi (by omega)

/-- One step of the first loop of `create` on a frame that has a root joint: no fault, and the
new running values are the updated maximum and minima. -/
theorem createIter1_eq (distance : Vec3 → Vec3 → ℚ) (frames : List Frame) (k : Nat)
    (s : CreateScan) (f : Frame) (hf : frames[k]? = some f) (hroot : 1 ≤ f.rotations.length) :
    createIter1 distance frames k s =
      .ok ⟨(if k < frames.length - 2 then
            (if stepAt distance frames k > s.maxStep then stepAt distance frames k
             else s.maxStep)
          else s.maxStep),
        if f.translation.x < s.minTX then f.translation.x else s.minTX,
        if f.translation.y < s.minTY then f.translation.y else s.minTY,
        if f.translation.z < s.minTZ then f.translation.z else s.minTZ⟩ := by
  have hr : f.rotations[0]? = some f.rotations[0] := List.getElem?_eq_getElem (by omega)
  by_cases hin : k < frames.length - 2
  · have hk1 : k + 1 < frames.length := by omega
    have hn : frames[k + 1]? = some frames[k + 1] := List.getElem?_eq_getElem hk1
    have hst : stepAt distance frames k = distance frames[k + 1].translation f.translation := by
      simp only [stepAt, hn, hf]
    simp only [createIter1, hf, hr, hin, if_true, hn, hst]
    by_cases hc : distance frames[k + 1].translation f.translation > s.maxStep
    · simp only [hc, if_true]
    · simp only [hc, if_false]
  · simp only [createIter1, hf, hr, hin, if_false]

/-- The first loop of `create` on frames that all have a root joint after the first one: it runs
to the end, and the running values satisfy their invariants over the frames `1 .. size - 1` (the
one of the maximum step for a distance that is never negative). -/
theorem createIter1_run (distance : Vec3 → Vec3 → ℚ)
    (t : Frame) (rest : List Frame) (hroot : ∀ f ∈ rest, 1 ≤ f.rotations.length) :
    ∃ s, forRange 1 (t :: rest).length (createIter1 distance (t :: rest))
        ⟨0, fltMax, fltMax, fltMax⟩ = .ok s ∧
      ((∀ a b, 0 ≤ distance a b) →
        MaxInv distance (t :: rest) (t :: rest).length s.maxStep) ∧
      MinInv Vec3.x (t :: rest) (t :: rest).length s.minTX ∧
      MinInv Vec3.y (t :: rest) (t :: rest).length s.minTY ∧
      MinInv Vec3.z (t :: rest) (t :: rest).length s.minTZ := by
  let P : Nat → CreateScan → Prop := fun k s =>
    ((∀ a b, 0 ≤ distance a b) → MaxInv distance (t :: rest) k s.maxStep) ∧
    MinInv Vec3.x (t :: rest) k s.minTX ∧
    MinInv Vec3.y (t :: rest) k s.minTY ∧
    MinInv Vec3.z (t :: rest) k s.minTZ
  have hmin0 : ∀ proj : Vec3 → ℚ, MinInv proj (t :: rest) 1 fltMax := fun proj =>
    ⟨fun i f hi hik _ => by omega, le_refl _, Or.inl rfl⟩
  exact forRange_inv 1 (t :: rest).length _ P ⟨0, fltMax, fltMax, fltMax⟩
    (by simp) ⟨fun _ => ⟨fun i hi hik _ => by omega, Or.inr ⟨fun i hi hik => by omega, rfl⟩⟩,
      hmin0 _, hmin0 _, hmin0 _⟩
    (by
      intro k s hk hklen hPk
      obtain ⟨hmax, hx, hy, hz⟩ := hPk
      have hf : (t :: rest)[k]? = some (t :: rest)[k] := List.getElem?_eq_getElem hklen
      have hmem : (t :: rest)[k] ∈ rest := by
        obtain ⟨j, rfl⟩ : ∃ j, k = j + 1 := ⟨k - 1, by omega⟩
        simp only [List.getElem_cons_succ]
        exact List.getElem_mem _
      refine ⟨_, createIter1_eq distance (t :: rest) k s _ hf (hroot _ hmem), ?_, ?_, ?_, ?_⟩
      · exact fun hdist => maxInv_step distance hdist (t :: rest) k s.maxStep hk (hmax hdist)
      · exact minInv_step Vec3.x (t :: rest) k s.minTX _ hk hf hx
      · exact minInv_step Vec3.y (t :: rest) k s.minTY _ hk hf hy
      · exact minInv_step Vec3.z (t :: rest) k s.minTZ _ hk hf hz)

/-- The second loop of `create`: the first frame is kept and the vector of the three minima is
subtracted from the translation of every other frame. -/
theorem createIter2_run (a b c : ℚ) (t : Frame) (rest : List Frame) :
    forRange 1 (t :: rest).length (createIter2 a b c) (t :: rest) =
      .ok (t :: rest.map (rebase ⟨a, b, c⟩)) := by
  let P : Nat → List Frame → Prop := fun k fs =>
    fs.length = (t :: rest).length ∧
    ∀ j, fs[j]? = if 1 ≤ j ∧ j < k then ((t :: rest)[j]?).map (rebase ⟨a, b, c⟩)
      else (t :: rest)[j]?
  obtain ⟨fs, hfs, hlen, hget⟩ := forRange_inv 1 (t :: rest).length (createIter2 a b c) P
    (t :: rest) (by simp) ⟨rfl, fun j => by
      have : ¬ (1 ≤ j ∧ j < 1) := by omega
      simp only [this, if_false]⟩
    (by
      intro k fs hk hklen hPk
      obtain ⟨hl, hg⟩ := hPk
      have hkk : ¬ (1 ≤ k ∧ k < k) := by omega
      have hfk : fs[k]? = some (t :: rest)[k] := by
        rw [hg k]
        simp only [hkk, if_false]
        exact List.getElem?_eq_getElem hklen
      refine ⟨fs.set k (rebase ⟨a, b, c⟩ (t :: rest)[k]), ?_, ?_, ?_⟩
      · simp only [createIter2, hfk]
        rfl
      · simp [hl]
      · intro j
        rw [List.getElem?_set]
        by_cases hjk : k = j
        · subst hjk
          have h1 : 1 ≤ k ∧ k < k + 1 := by omega
          have h2 : k < fs.length := by omega
          simp only [if_true, h1, h2, and_self, List.getElem?_eq_getElem hklen, Option.map_some']
        · have h3 : (1 ≤ j ∧ j < k + 1) ↔ (1 ≤ j ∧ j < k) := by omega
          simp only [hjk, if_false, hg j, h3])
  rw [hfs]
  congr 1
  apply List.ext_getElem?
  intro j
  rw [hget j]
  cases j with
  | zero => simp
  | succ i =>
    by_cases hi : i < rest.length
    · have h1 : 1 ≤ i + 1 ∧ i + 1 < (t :: rest).length := by
        simp only [List.length_cons]; omega
      simp only [h1, and_self, if_true, List.getElem?_cons_succ, List.getElem?_map]
    · have h1 : ¬ (1 ≤ i + 1 ∧ i + 1 < (t :: rest).length) := by
        simp only [List.length_cons]; omega
      have h2 : rest[i]? = none := List.getElem?_eq_none (by omega)
      simp only [h1, if_false, List.getElem?_cons_succ, List.getElem?_map, h2, Option.map_none']

/-- On a loaded motion whose frames after the first all have a root joint, `create` is `clean`
applied to the loaded motion with the new name, the maximum step of the first loop and the
re-based frames. -/
theorem create_eq_clean (env : MathEnv) (distance : Vec3 → Vec3 → ℚ)
    (loaded : Motion) (name : String)
    (t : Frame) (rest : List Frame) (hfr : loaded.frames = t :: rest)
    (hroot : ∀ f ∈ rest, 1 ≤ f.rotations.length) :
    ∃ s : CreateScan,
      ((∀ a b, 0 ≤ distance a b) →
        MaxInv distance (t :: rest) (t :: rest).length s.maxStep) ∧
      MinInv Vec3.x (t :: rest) (t :: rest).length s.minTX ∧
      MinInv Vec3.y (t :: rest) (t :: rest).length s.minTY ∧
      MinInv Vec3.z (t :: rest) (t :: rest).length s.minTZ ∧
      ∀ (lm : loopMode) (steps : Nat),
        Motion.create env distance loaded name lm steps =
          Motion.clean env { loaded with
            name := name
            maxStep := s.maxStep
            frames := t :: rest.map (rebase ⟨s.minTX, s.minTY, s.minTZ⟩) } lm steps := by
  obtain ⟨s, hs, hmax, hx, hy, hz⟩ := createIter1_run distance t rest hroot
  refine ⟨s, hmax, hx, hy, hz, ?_⟩
  intro lm steps
  simp only [Motion.create, hfr, hs, createIter2_run s.minTX s.minTY s.minTZ t rest]

/-! ## Cleaning after construction -/

theorem clean_none_eq (env : MathEnv) (m : Motion) (steps : Nat) (t : Frame) (r : List Frame)
    (hm : m.frames = t :: r) :
    m.clean env loopMode.none steps = .ok { m with frames := r } := by
  simp [Motion.clean, hm]

/-- The operation `clean` changes nothing but the frames. -/
theorem clean_keeps_maxStep (env : MathEnv) (m m1 : Motion) (lm : loopMode) (steps : Nat)
    (h : m.clean env lm steps = .ok m1) : m1.maxStep = m.maxStep ∧ m1.name = m.name := by
  unfold Motion.clean at h
  split at h
  · cases h
  · split at h
    · cases h; exact ⟨rfl, rfl⟩
    · split at h
      · cases h
      · split at h
        · cases h
        · cases h; exact ⟨rfl, rfl⟩

theorem rebase_value (mn : Vec3) (f : Frame) :
    (rebase mn f).value =
      match f.value with
      | .ok v => .ok (Vec3.sub v ⟨0, mn.y * 2, 0⟩)
      | .error e => .error e := by
  obtain ⟨tr, rots⟩ := f
  cases rots with
  | nil => simp [rebase, Frame.value]
  | cons a as =>
    simp only [rebase, Frame.value, List.getElem?_cons_zero, Vec3.sub, Vec3.add, Vec3.mul,
      Except.ok.injEq, Vec3.mk.injEq]
    refine ⟨?_, ?_, ?_⟩ <;> ring

theorem vecDist_sub_right (a b c : Vec3) : vecDist (Vec3.sub a c) (Vec3.sub b c) = vecDist a b := by
  simp only [vecDist, Vec3.sub, Vec3.abs, Vec3.compAdd, sub_sub_sub_cancel_right]

/-- Re-basing two frames by the same vector does not change their signature distance. -/
theorem signatureDistance_rebase (mn : Vec3) (a b : Frame) :
    signatureDistance (rebase mn a) (rebase mn b) = signatureDistance a b := by
  simp only [signatureDistance, rebase_value]
  cases ha : a.value with
  | error e => simp
  | ok va =>
    cases hb : b.value with
    | error e => simp
    | ok vb =>
      simp only [compAdd_abs_sub, vecDist_sub_right]

theorem jointCount_map_rebase (mn : Vec3) (n : Nat) (frames : List Frame)
    (h : JointCount n frames) : JointCount n (frames.map (rebase mn)) := by
  intro f hf
  obtain ⟨g, hg, rfl⟩ := List.mem_map.mp hf
  exact h g hg

/-- The `shortLoop` block on frames that share a non-zero joint count and have a candidate pair
below `fltMax`: a pair `(B, E)` of least distance among the candidate pairs is selected, and the
frames `[B, E)`, at least one, are kept. -/
theorem spliceTrim_spec (frames : List Frame) (n : Nat) (hn : 1 ≤ n)
    (hjc : JointCount n frames)
    (hfin : ∃ f1 f2 a b d, frames[f1]? = some a ∧ frames[f2]? = some b ∧
      f1 < frames.length / 2 ∧ frames.length - frames.length / 2 ≤ f2 ∧
      signatureDistance a b = .ok d ∧ d < fltMax) :
    ∃ s B E, spliceSearch frames = .ok s ∧ s.B = some B ∧ s.E = some E ∧
      B < frames.length / 2 ∧ frames.length - frames.length / 2 ≤ E ∧ E < frames.length ∧
      (∀ f1 f2, f1 < frames.length / 2 → frames.length - frames.length / 2 ≤ f2 →
        f2 < frames.length →
        vecDist (sigAt frames B) (sigAt frames E) ≤ vecDist (sigAt frames f1) (sigAt frames f2)) ∧
      spliceTrim frames = .ok ((frames.take E).drop B) ∧
      ((frames.take E).drop B).length = E - B ∧
      (frames.take E).drop B ≠ [] ∧ JointCount n ((frames.take E).drop B) := by
  obtain ⟨f1, f2, a, b, d, ha, hb, hf1, hf2, hd, hdlt⟩ := hfin
  obtain ⟨h2len, hbe⟩ := List.getElem?_eq_some_iff.mp hb
  obtain ⟨h1len, hae⟩ := List.getElem?_eq_some_iff.mp ha
  have hra : 1 ≤ a.rotations.length := by
    rw [hjc a (hae ▸ List.getElem_mem h1len)]; exact hn
  have hrb : 1 ≤ b.rotations.length := by
    rw [hjc b (hbe ▸ List.getElem_mem h2len)]; exact hn
  have hdv : vecDist (sigAt frames f1) (sigAt frames f2) = d := by
    rw [signatureDistance_ok a b hra hrb] at hd
    rw [sigAt_getElem _ _ h1len, sigAt_getElem _ _ h2len, hae, hbe]
    exact Except.ok.inj hd
  obtain ⟨s, hs, hmin, hsel⟩ := spliceSearch_spec frames n hn hjc
  have haux : s.auxDiff < fltMax :=
    lt_of_le_of_lt (hdv ▸ hmin f1 f2 ⟨hf1, hf2, h2len⟩) hdlt
  rcases hsel with ⟨_, _, hnone⟩ | ⟨B, E, hB, hE, ⟨hB1, hE1, hE2⟩, hdBE, _⟩
  · rw [hnone] at haux; exact absurd haux (lt_irrefl _)
  · have hBE : B < E := by omega
    have htl : ((frames.take E).drop B).length = E - B := by
      simp only [List.length_drop, List.length_take]
      omega
    refine ⟨s, B, E, hs, hB, hE, hB1, hE1, hE2, ?_, ?_, htl, ?_, ?_⟩
    · intro g1 g2 hg1 hg2 hg3
      rw [← hdBE]
      exact hmin g1 g2 ⟨hg1, hg2, hg3⟩
    · simp only [spliceTrim, hs, hB, hE]
      exact copyRange_eq frames B E hBE.le hE2.le
    · intro h
      rw [h] at htl
      simp at htl
      omega
    · exact fun f hf => hjc f (List.mem_of_mem_take (List.mem_of_mem_drop hf))

/-- The looping modes of `clean`, once the frames `frames1` to close are known to be at least
one and to share a non-zero joint count: the loop is closed and the result has at least one
frame. -/
theorem clean_loop_ok (env : MathEnv) (m : Motion) (lm : loopMode) (steps n : Nat)
    (t : Frame) (r frames1 : List Frame) (hm : m.frames = t :: r) (hlm : lm ≠ loopMode.none)
    (htrim : (if lm = loopMode.shortLoop then spliceTrim r else .ok r) = .ok frames1)
    (hn : 1 ≤ n) (hjc : JointCount n frames1) (hne : frames1 ≠ []) :
    ∃ res, closeLoop env frames1 steps = .ok res ∧ res ≠ [] ∧
      m.clean env lm steps = .ok { m with frames := res } := by
  obtain ⟨first, last, lerped, res, _, _, _, hclose, hlen⟩ :=
    closeLoop_length env frames1 steps n hn hjc hne
  refine ⟨res, hclose, ?_, ?_⟩
  · intro h
    rw [h] at hlen
    have := List.length_pos.mpr hne
    simp at hlen
    omega
  · simp only [Motion.clean, hm, hlm, if_false, htrim, hclose]

theorem sampleDistance_nonneg (a b : Vec3) : 0 ≤ sampleDistance a b := by
  simp only [sampleDistance, Vec3.sub, Vec3.abs, Vec3.compAdd]
  positivity

/-! ## Claims about `create` -/

/-- C11, counterexample: when the loader returns the T-pose frame alone, `create` with mode
`none` returns a motion with no frames, and with the two looping modes it does not return. -/
theorem create_tpose_only_empty :
    (∃ m, Motion.create sampleEnv sampleDistance (clipOf [oneJoint]) "idle" loopMode.none 10 =
      .ok m ∧ m.frames = []) ∧
    Motion.create sampleEnv sampleDistance (clipOf [oneJoint]) "idle" loopMode.shortLoop 10 =
      .error .undefinedBehaviour ∧
    Motion.create sampleEnv sampleDistance (clipOf [oneJoint]) "idle" loopMode.loop 10 =
      .error .undefinedBehaviour := by
  have h1 : spliceSearch [] = .ok ⟨fltMax, none, none⟩ := by
    simp [spliceSearch, limitA_eq, forRange, forLoop]
  have h0 : Motion.create sampleEnv sampleDistance (clipOf [oneJoint]) "idle" loopMode.none 10 =
      .ok { Motion.blank with name := "idle" } := by
    simp [Motion.create, clipOf, Motion.blank, forRange, forLoop, Motion.clean]
  refine ⟨⟨_, h0, rfl⟩, ?_, ?_⟩
  · simp [Motion.create, clipOf, Motion.blank, forRange, forLoop, Motion.clean, spliceTrim, h1]
  · simp [Motion.create, clipOf, Motion.blank, forRange, forLoop, Motion.clean, closeLoop]

/-- C11, amended: when the loader returns at least two frames (the T-pose and one more) and the
frames after the T-pose share a non-zero joint count (and, for `shortLoop`, have a candidate
pair at signature distance below `FLT_MAX`), `create` returns, for every mode and `steps`, a
motion with a non-empty frame sequence made from the re-based loaded frames `1 .. end` only:
exactly those frames for `none`, and for the looping modes the closed loop of (the trimmed part
of) those frames. -/
theorem create_frames_nonempty (env : MathEnv) (distance : Vec3 → Vec3 → ℚ) (loaded : Motion)
    (name : String) (lm : loopMode) (steps n : Nat) (t : Frame) (rest : List Frame)
    (hfr : loaded.frames = t :: rest) (hne : rest ≠ []) (hn : 1 ≤ n) (hjc : JointCount n rest)
    (hpair : lm = loopMode.shortLoop → ∃ f1 f2 a b d, rest[f1]? = some a ∧ rest[f2]? = some b ∧
      f1 < rest.length / 2 ∧ rest.length - rest.length / 2 ≤ f2 ∧
      signatureDistance a b = .ok d ∧ d < fltMax) :
    ∃ m mn, Motion.create env distance loaded name lm steps = .ok m ∧ m.frames ≠ [] ∧
      (lm = loopMode.none → m.frames = rest.map (rebase mn)) ∧
      (lm ≠ loopMode.none → ∃ frames1,
        (if lm = loopMode.shortLoop then spliceTrim (rest.map (rebase mn))
          else .ok (rest.map (rebase mn))) = .ok frames1 ∧
        closeLoop env frames1 steps = .ok m.frames) := by
  have hroot : ∀ f ∈ rest, 1 ≤ f.rotations.length := fun f hf => by rw [hjc f hf]; exact hn
  obtain ⟨s, _, _, _, _, hcreate⟩ := create_eq_clean env distance loaded name t rest hfr hroot
  have hjr := jointCount_map_rebase ⟨s.minTX, s.minTY, s.minTZ⟩ n rest hjc
  have hner : rest.map (rebase ⟨s.minTX, s.minTY, s.minTZ⟩) ≠ [] := by simpa using hne
  by_cases hnone : lm = loopMode.none
  · subst hnone
    refine ⟨{ loaded with
        name := name
        maxStep := s.maxStep
        frames := rest.map (rebase ⟨s.minTX, s.minTY, s.minTZ⟩) },
      ⟨s.minTX, s.minTY, s.minTZ⟩, ?_, ?_, fun _ => rfl, fun h => absurd rfl h⟩
    · rw [hcreate]
      exact clean_none_eq env _ steps t _ rfl
    · exact hner
  · by_cases hshort : lm = loopMode.shortLoop
    · obtain ⟨f1, f2, a, b, d, ha, hb, hf1, hf2, hd, hdlt⟩ := hpair hshort
      obtain ⟨sp, B, E, _, _, _, _, _, _, _, htrim, _, htne, htjc⟩ :=
        spliceTrim_spec (rest.map (rebase ⟨s.minTX, s.minTY, s.minTZ⟩)) n hn hjr
          ⟨f1, f2, rebase ⟨s.minTX, s.minTY, s.minTZ⟩ a, rebase ⟨s.minTX, s.minTY, s.minTZ⟩ b, d,
            by simp [List.getElem?_map, ha], by simp [List.getElem?_map, hb],
            by simpa using hf1, by simpa using hf2,
            by rw [signatureDistance_rebase]; exact hd, hdlt⟩
      have htrim1 : (if lm = loopMode.shortLoop
          then spliceTrim (rest.map (rebase ⟨s.minTX, s.minTY, s.minTZ⟩))
          else .ok (rest.map (rebase ⟨s.minTX, s.minTY, s.minTZ⟩))) =
          .ok (((rest.map (rebase ⟨s.minTX, s.minTY, s.minTZ⟩)).take E).drop B) := by
        simp only [hshort, if_true]
        exact htrim
      obtain ⟨res, hclose, hres, hclean⟩ := clean_loop_ok env
        { loaded with
          name := name
          maxStep := s.maxStep
          frames := t :: rest.map (rebase ⟨s.minTX, s.minTY, s.minTZ⟩) }
        lm steps n t _ _ rfl hnone htrim1 hn htjc htne
      refine ⟨{ loaded with name := name, maxStep := s.maxStep, frames := res },
        ⟨s.minTX, s.minTY, s.minTZ⟩, ?_, ?_, fun h => absurd h hnone,
        fun _ => ⟨_, htrim1, ?_⟩⟩
      · rw [hcreate]; exact hclean
      · exact hres
      · exact hclose
    · have htrim1 : (if lm = loopMode.shortLoop
          then spliceTrim (rest.map (rebase ⟨s.minTX, s.minTY, s.minTZ⟩))
          else .ok (rest.map (rebase ⟨s.minTX, s.minTY, s.minTZ⟩))) =
          .ok (rest.map (rebase ⟨s.minTX, s.minTY, s.minTZ⟩)) := by
        simp only [hshort, if_false]
      obtain ⟨res, hclose, hres, hclean⟩ := clean_loop_ok env
        { loaded with
          name := name
          maxStep := s.maxStep
          frames := t :: rest.map (rebase ⟨s.minTX, s.minTY, s.minTZ⟩) }
        lm steps n t _ _ rfl hnone htrim1 hn hjr hner
      refine ⟨{ loaded with name := name, maxStep := s.maxStep, frames := res },
        ⟨s.minTX, s.minTY, s.minTZ⟩, ?_, ?_, fun h => absurd h hnone,
        fun _ => ⟨_, htrim1, ?_⟩⟩
      · rw [hcreate]; exact hclean
      · exact hres
      · exact hclose

/-- Witness of C11 (amended): a T-pose followed by two one-joint frames, in the `loop` mode. -/
theorem create_frames_nonempty_witness :
    (clipOf [oneJoint, oneJoint, otherJoint]).frames = oneJoint :: [oneJoint, otherJoint] ∧
    [oneJoint, otherJoint] ≠ [] ∧ 1 ≤ 1 ∧ JointCount 1 [oneJoint, otherJoint] ∧
    (loopMode.loop = loopMode.shortLoop → ∃ f1 f2 a b d,
      [oneJoint, otherJoint][f1]? = some a ∧ [oneJoint, otherJoint][f2]? = some b ∧
      f1 < [oneJoint, otherJoint].length / 2 ∧
      [oneJoint, otherJoint].length - [oneJoint, otherJoint].length / 2 ≤ f2 ∧
      signatureDistance a b = .ok d ∧ d < fltMax) ∧
    ∃ m mn, Motion.create sampleEnv sampleDistance (clipOf [oneJoint, oneJoint, otherJoint])
        "walk" loopMode.loop 10 = .ok m ∧ m.frames ≠ [] ∧
      (loopMode.loop = loopMode.none → m.frames = [oneJoint, otherJoint].map (rebase mn)) ∧
      (loopMode.loop ≠ loopMode.none → ∃ frames1,
        (if loopMode.loop = loopMode.shortLoop
          then spliceTrim ([oneJoint, otherJoint].map (rebase mn))
          else .ok ([oneJoint, otherJoint].map (rebase mn))) = .ok frames1 ∧
        closeLoop sampleEnv frames1 10 = .ok m.frames) :=
  ⟨rfl, by simp, le_refl 1, by decide, (fun h => absurd h (by decide)),
    create_frames_nonempty sampleEnv sampleDistance (clipOf [oneJoint, oneJoint, otherJoint])
      "walk" loopMode.loop 10 1 oneJoint [oneJoint, otherJoint] rfl (by simp) (le_refl 1)
      (by decide) (fun h => absurd h (by decide))⟩

/-- C15: for a loaded frame sequence of length `s` whose frames after the first have a root
joint, and a distance that is never negative, the `maxStep` of every motion that `create`
returns is the value `ms` left by the first loop, the maximum of
`distance(frames[i+1].translation, frames[i].translation)` over the indices `1 <= i < s - 2` of
the loaded sequence (`0` when there is no such index); the re-basing and `clean` leave it
unchanged, and with mode `none` and at least one loaded frame `create` does return. -/
theorem create_maxStep (env : MathEnv) (distance : Vec3 → Vec3 → ℚ)
    (hdist : ∀ a b, 0 ≤ distance a b) (loaded : Motion) (name : String)
    (hroot : ∀ f ∈ loaded.frames.tail, 1 ≤ f.rotations.length) :
    ∃ ms : ℚ,
      (∀ i, 1 ≤ i → i < loaded.frames.length - 2 → stepAt distance loaded.frames i ≤ ms) ∧
      ((∃ i, 1 ≤ i ∧ i < loaded.frames.length - 2 ∧ ms = stepAt distance loaded.frames i) ∨
        ((∀ i, 1 ≤ i → ¬ i < loaded.frames.length - 2) ∧ ms = 0)) ∧
      (∀ (lm : loopMode) (steps : Nat) (m : Motion),
        Motion.create env distance loaded name lm steps = .ok m → m.getMaxStep = ms) ∧
      (loaded.frames ≠ [] → ∀ steps : Nat, ∃ m,
        Motion.create env distance loaded name loopMode.none steps = .ok m ∧
          m.getMaxStep = ms) := by
  cases hfr : loaded.frames with
  | nil =>
    refine ⟨0, fun i hi hlt => by simp at hlt, Or.inr ⟨fun i _ hlt => by simp at hlt, rfl⟩,
      ?_, fun h => absurd rfl h⟩
    intro lm steps m h
    simp [Motion.create, hfr, forRange, forLoop, Motion.clean] at h
  | cons t rest =>
    rw [hfr] at hroot
    simp only [List.tail_cons] at hroot
    obtain ⟨s, hmax, _, _, _, hcreate⟩ :=
      create_eq_clean env distance loaded name t rest hfr hroot
    obtain ⟨hub, hatt⟩ := hmax hdist
    refine ⟨s.maxStep, ?_, ?_, ?_, ?_⟩
    · intro i hi hlt
      exact hub i hi (by omega) hlt
    · rcases hatt with ⟨i, hi, _, hlt, hv⟩ | ⟨hnone, h0⟩
      · exact Or.inl ⟨i, hi, hlt, hv⟩
      · refine Or.inr ⟨?_, h0⟩
        intro i hi hlt
        exact hnone i hi (by omega) hlt
    · intro lm steps m h
      rw [hcreate] at h
      exact (clean_keeps_maxStep env _ m lm steps h).1
    · intro _ steps
      refine ⟨{ loaded with
          name := name
          maxStep := s.maxStep
          frames := rest.map (rebase ⟨s.minTX, s.minTY, s.minTZ⟩) }, ?_, rfl⟩
      rw [hcreate]
      exact clean_none_eq env _ steps t _ rfl

/-- Witness of C15: a T-pose followed by four one-joint frames, with the sample distance. -/
theorem create_maxStep_witness :
    (∀ a b, 0 ≤ sampleDistance a b) ∧
    (∀ f ∈ (clipOf [oneJoint, oneJoint, otherJoint, oneJoint, otherJoint]).frames.tail,
      1 ≤ f.rotations.length) ∧
    ∃ ms : ℚ,
      (∀ i, 1 ≤ i →
        i < (clipOf [oneJoint, oneJoint, otherJoint, oneJoint, otherJoint]).frames.length - 2 →
        stepAt sampleDistance
          (clipOf [oneJoint, oneJoint, otherJoint, oneJoint, otherJoint]).frames i ≤ ms) ∧
      ((∃ i, 1 ≤ i ∧
        i < (clipOf [oneJoint, oneJoint, otherJoint, oneJoint, otherJoint]).frames.length - 2 ∧
        ms = stepAt sampleDistance
          (clipOf [oneJoint, oneJoint, otherJoint, oneJoint, otherJoint]).frames i) ∨
        ((∀ i, 1 ≤ i → ¬ i <
          (clipOf [oneJoint, oneJoint, otherJoint, oneJoint, otherJoint]).frames.length - 2) ∧
          ms = 0)) ∧
      (∀ (lm : loopMode) (steps : Nat) (m : Motion),
        Motion.create sampleEnv sampleDistance
          (clipOf [oneJoint, oneJoint, otherJoint, oneJoint, otherJoint]) "walk" lm steps =
            .ok m → m.getMaxStep = ms) ∧
      ((clipOf [oneJoint, oneJoint, otherJoint, oneJoint, otherJoint]).frames ≠ [] →
        ∀ steps : Nat, ∃ m,
          Motion.create sampleEnv sampleDistance
            (clipOf [oneJoint, oneJoint, otherJoint, oneJoint, otherJoint]) "walk"
            loopMode.none steps = .ok m ∧ m.getMaxStep = ms) :=
  ⟨sampleDistance_nonneg, by decide,
    create_maxStep sampleEnv sampleDistance sampleDistance_nonneg
      (clipOf [oneJoint, oneJoint, otherJoint, oneJoint, otherJoint]) "walk" (by decide)⟩

/-! ## Claims about the splice search -/

/-- C13, counterexample: after the T-pose the frames are `[a, a, c]` (`n = 3`). The search
only visits the pair `(0, 2)`, at distance 14, and selects it, although the pair `(0, 1)`, with
`1` in the second half `[floor(3/2), 3)` of the spec, is at distance 0. With two frames at
distance `2 * fltMax`, no pair is selected at all. -/
theorem spliceSearch_skips_middle :
    (spliceSearch [oneJoint, oneJoint, otherJoint] = .ok ⟨14, some 0, some 2⟩ ∧
      signatureDistance oneJoint otherJoint = .ok 14 ∧
      signatureDistance oneJoint oneJoint = .ok 0 ∧
      [oneJoint, oneJoint, otherJoint][0]? = some oneJoint ∧
      [oneJoint, oneJoint, otherJoint][1]? = some oneJoint ∧
      [oneJoint, oneJoint, otherJoint][2]? = some otherJoint ∧
      0 < [oneJoint, oneJoint, otherJoint].length / 2 ∧
      [oneJoint, oneJoint, otherJoint].length / 2 ≤ 1 ∧
      1 < [oneJoint, oneJoint, otherJoint].length) ∧
    spliceSearch [oneJoint, farJoint] = .ok ⟨fltMax, none, none⟩ := by
  refine ⟨⟨?_, ?_, ?_, rfl, rfl, rfl, by decide, by decide, by decide⟩, ?_⟩
  · norm_num [spliceSearch, limitA_eq, forRange, forLoop, spliceOuter, spliceInner, Frame.value,
      oneJoint, otherJoint, fltMax, Vec3.mul, Vec3.add, Vec3.sub, Vec3.abs, Vec3.compAdd,
      Vec3.splat]
  · norm_num [signatureDistance, Frame.value, oneJoint, otherJoint, Vec3.mul, Vec3.add,
      Vec3.sub, Vec3.abs, Vec3.compAdd, Vec3.splat]
  · norm_num [signatureDistance, Frame.value, oneJoint, Vec3.mul, Vec3.add,
      Vec3.sub, Vec3.abs, Vec3.compAdd, Vec3.splat]
  · norm_num [spliceSearch, limitA_eq, forRange, forLoop, spliceOuter, spliceInner, Frame.value,
      oneJoint, farJoint, fltMax, Vec3.mul, Vec3.add, Vec3.sub, Vec3.abs, Vec3.compAdd,
      Vec3.splat]

/-- C13, amended: for a motion whose sequence after the T-pose has `n` frames that share a
non-zero joint count, with a candidate pair (`f1 < floor(n/2)`, `n - floor(n/2) <= f2 < n`) at
signature distance below `FLT_MAX` (so `n >= 2`), the pair `(B, E)` selected by
`clean(shortLoop, steps)` has the least signature distance among the pairs of the two halves
that the search visits: `d(B, E) <= d(f1, f2)` for every `f1` in `[0, floor(n/2))` and every `f2`
in `[n - floor(n/2), n)`; and `clean` returns the closed loop of the frames `[B, E)`. -/
theorem clean_shortLoop_minimal (env : MathEnv) (m : Motion) (steps n : Nat) (hn : 1 ≤ n)
    (hjc : JointCount n m.frames.tail)
    (hfin : ∃ f1 f2 a b d, m.frames.tail[f1]? = some a ∧ m.frames.tail[f2]? = some b ∧
      f1 < m.frames.tail.length / 2 ∧
      m.frames.tail.length - m.frames.tail.length / 2 ≤ f2 ∧
      signatureDistance a b = .ok d ∧ d < fltMax) :
    ∃ s B E fB fE dBE,
      2 ≤ m.frames.tail.length ∧
      spliceSearch m.frames.tail = .ok s ∧ s.B = some B ∧ s.E = some E ∧
      m.frames.tail[B]? = some fB ∧ m.frames.tail[E]? = some fE ∧
      signatureDistance fB fE = .ok dBE ∧
      (∀ f1 f2 a b, f1 < m.frames.tail.length / 2 →
        m.frames.tail.length - m.frames.tail.length / 2 ≤ f2 →
        m.frames.tail[f1]? = some a → m.frames.tail[f2]? = some b →
        ∃ d12, signatureDistance a b = .ok d12 ∧ dBE ≤ d12) ∧
      ∃ m1, m.clean env loopMode.shortLoop steps = .ok m1 ∧
        closeLoop env ((m.frames.tail.take E).drop B) steps = .ok m1.frames := by
  have h2 : 2 ≤ m.frames.tail.length := by
    obtain ⟨f1, f2, _, _, _, _, _, hf1, _, _, _⟩ := hfin
    omega
  obtain ⟨s, B, E, hs, hB, hE, hB1, hE1, hE2, hmin, htrim, htl, htne, htjc⟩ :=
    spliceTrim_spec m.frames.tail n hn hjc hfin
  have hBlen : B < m.frames.tail.length := by omega
  have hr : ∀ (j : Nat) (hj : j < m.frames.tail.length),
      1 ≤ m.frames.tail[j].rotations.length := by
    intro j hj
    rw [hjc _ (List.getElem_mem hj)]; exact hn
  obtain ⟨first, last, lerped, res, _, _, _, hclose, _⟩ :=
    closeLoop_length env _ steps n hn htjc htne
  refine ⟨s, B, E, m.frames.tail[B], m.frames.tail[E], _, h2, hs, hB, hE,
    List.getElem?_eq_getElem hBlen, List.getElem?_eq_getElem hE2,
    signatureDistance_ok _ _ (hr B hBlen) (hr E hE2), ?_,
    { m with frames := res }, ?_, hclose⟩
  · intro f1 f2 a b hf1 hf2 ha hb
    obtain ⟨h2len, hbe⟩ := List.getElem?_eq_some_iff.mp hb
    obtain ⟨h1len, hae⟩ := List.getElem?_eq_some_iff.mp ha
    subst hae hbe
    refine ⟨_, signatureDistance_ok _ _ (hr f1 h1len) (hr f2 h2len), ?_⟩
    have := hmin f1 f2 hf1 hf2 h2len
    rwa [sigAt_getElem _ _ hBlen, sigAt_getElem _ _ hE2, sigAt_getElem _ _ h1len,
      sigAt_getElem _ _ h2len] at this
  · cases hmf : m.frames with
    | nil => rw [hmf] at h2; simp at h2
    | cons t rest =>
      rw [hmf] at htrim hclose
      simp only [List.tail_cons] at htrim hclose
      simp [Motion.clean, hmf, htrim, hclose]

/-- Witness of C13 (amended): a T-pose followed by four frames (`n = 4`), with four candidate
pairs at the distances 18, 12, 8 and 2; the search selects the pair `(1, 3)` at distance 2. -/
theorem clean_shortLoop_minimal_witness :
    1 ≤ 1 ∧ JointCount 1 strideClip.frames.tail ∧
    (∃ f1 f2 a b d, strideClip.frames.tail[f1]? = some a ∧
      strideClip.frames.tail[f2]? = some b ∧
      f1 < strideClip.frames.tail.length / 2 ∧
      strideClip.frames.tail.length - strideClip.frames.tail.length / 2 ≤ f2 ∧
      signatureDistance a b = .ok d ∧ d < fltMax) ∧
    (∃ s B E fB fE dBE,
      2 ≤ strideClip.frames.tail.length ∧
      spliceSearch strideClip.frames.tail = .ok s ∧
      s.B = some B ∧ s.E = some E ∧
      strideClip.frames.tail[B]? = some fB ∧
      strideClip.frames.tail[E]? = some fE ∧
      signatureDistance fB fE = .ok dBE ∧
      (∀ f1 f2 a b, f1 < strideClip.frames.tail.length / 2 →
        strideClip.frames.tail.length - strideClip.frames.tail.length / 2 ≤ f2 →
        strideClip.frames.tail[f1]? = some a →
        strideClip.frames.tail[f2]? = some b →
        ∃ d12, signatureDistance a b = .ok d12 ∧ dBE ≤ d12) ∧
      ∃ m1, strideClip.clean sampleEnv loopMode.shortLoop 10 = .ok m1 ∧
        closeLoop sampleEnv ((strideClip.frames.tail.take E).drop B) 10 = .ok m1.frames) ∧
    strideClip.frames.tail.length = 4 ∧
    spliceSearch strideClip.frames.tail = .ok ⟨2, some 1, some 3⟩ ∧
    signatureDistance (stride 0) (stride 9) = .ok 18 ∧
    signatureDistance (stride 0) (stride 6) = .ok 12 ∧
    signatureDistance (stride 5) (stride 9) = .ok 8 ∧
    signatureDistance (stride 5) (stride 6) = .ok 2 :=
  have hpair : ∃ f1 f2 a b d, strideClip.frames.tail[f1]? = some a ∧
      strideClip.frames.tail[f2]? = some b ∧
      f1 < strideClip.frames.tail.length / 2 ∧
      strideClip.frames.tail.length - strideClip.frames.tail.length / 2 ≤ f2 ∧
      signatureDistance a b = .ok d ∧ d < fltMax :=
    ⟨0, 2, stride 0, stride 9, 18, rfl, rfl, by decide, by decide, by
        norm_num [signatureDistance, Frame.value, stride, Vec3.mul, Vec3.add,
          Vec3.sub, Vec3.abs, Vec3.compAdd, Vec3.splat],
      by norm_num [fltMax]⟩
  ⟨le_refl 1, by decide, hpair,
    clean_shortLoop_minimal sampleEnv strideClip 10 1 (le_refl 1) (by decide) hpair,
    rfl,
    by
      norm_num [strideClip, clipOf, Motion.blank, spliceSearch, limitA_eq, forRange, forLoop,
        spliceOuter, spliceInner, Frame.value, stride, fltMax, Vec3.mul, Vec3.add, Vec3.sub,
        Vec3.abs, Vec3.compAdd, Vec3.splat],
    by
      norm_num [signatureDistance, Frame.value, stride, Vec3.mul, Vec3.add,
        Vec3.sub, Vec3.abs, Vec3.compAdd, Vec3.splat],
    by
      norm_num [signatureDistance, Frame.value, stride, Vec3.mul, Vec3.add,
        Vec3.sub, Vec3.abs, Vec3.compAdd, Vec3.splat],
    by
      norm_num [signatureDistance, Frame.value, stride, Vec3.mul, Vec3.add,
        Vec3.sub, Vec3.abs, Vec3.compAdd, Vec3.splat],
    by
      norm_num [signatureDistance, Frame.value, stride, Vec3.mul, Vec3.add,
        Vec3.sub, Vec3.abs, Vec3.compAdd, Vec3.splat]⟩

end brave
